import Mathlib

set_option maxRecDepth 8000

/-! Shallow embedding of the candidate identity and status tracking engine of
src/utils_v2/tracker.py (functions check_candidate_status_in_tracker,
update_tracker_excel, update_cv_conversion_status).

Modelling conventions:
repeated here for every definition below: a pandas cell is `Option String`
(`none` models NaN; `str()` of NaN renders as "nan"); a DataFrame is a `Table`
with an ordered column list and rows as association lists from column name to
cell; a Python dict (candidate_details) is an insertion-ordered association
list from string keys to string values; the backing Excel file is a `Store`
which is either missing, unparsable (corrupt) or a parsed table; numeric
inputs (similarity and average scores) are carried opaquely as strings since
the engine only stores them and never computes with them; the wall-clock date
string produced by datetime.now().strftime is passed in as the `today`
parameter. -/

/-- Cell of a tracker table: `none` models a pandas NaN value. -/
abbrev Cell := Option String

/-- Row of a tracker table: association list from column name to cell. -/
abbrev Row := List (String × Cell)

/-- Python dict with string keys and values, in insertion order. -/
abbrev Dict := List (String × String)

/-- Parsed tracker DataFrame: ordered column names plus rows. -/
structure Table where
  cols : List String
  rows : List Row
deriving Repr, DecidableEq

/-- Backing tracker file state: missing file, unparsable file, or parsed table. -/
inductive Store where
  | missing
  | corrupt
  | table (t : Table)
deriving Repr, DecidableEq

/-- Python str.strip(): remove leading and trailing whitespace. Implemented over
the character list so that it reduces inside the kernel. -/
def pyTrim (s : String) : String :=
  String.mk (((s.data.dropWhile Char.isWhitespace).reverse.dropWhile Char.isWhitespace).reverse)

/-- Python str.lower(), over the character list. -/
def pyLower (s : String) : String :=
  String.mk (s.data.map Char.toLower)

/-- Python str.strip().lower() as applied throughout tracker.py. -/
def pyNorm (s : String) : String := pyLower (pyTrim s)

/-- Python str.endswith, over character lists so that it reduces inside the kernel. -/
def strEndsWith (s suffixStr : String) : Bool :=
  s.data.drop (s.data.length - suffixStr.data.length) == suffixStr.data

/-- Python str(cell): a NaN cell renders as "nan". -/
def cellStr (c : Cell) : String :=
  match c with
  | some s => s
  | none => "nan"

/-- Sentinel list used for table-side values in tracker.py. -/
def sentinels : List String := ["not found", "", "nan", "none"]

/-- Characters removed from contact numbers by re.sub of whitespace, hyphens and parentheses. -/
def stripPhoneChar (ch : Char) : Bool :=
  ch.isWhitespace || ch == '-' || ch == '(' || ch == ')'

/-- Removal of whitespace, hyphen and parenthesis characters from a phone string. -/
def stripPhone (s : String) : String :=
  String.mk (s.data.filter (fun ch => !(stripPhoneChar ch)))

/-- Candidate-side field normalization of tracker.py lines 46-48: the value is kept
when truthy and its normalization is not in the two-element sentinel list, else None. -/
def normCandField (s : String) : Option String :=
  if s ≠ "" && !(["not found", ""].contains (pyNorm s)) then some (pyNorm s) else none

/-- Candidate-side contact normalization, lines 48-51: normalize, then strip
separator characters when truthy. -/
def normCandPhone (s : String) : Option String :=
  match normCandField s with
  | some p => some (stripPhone p)
  | none => none

/-- Python truthiness of an optional string: None and the empty string are falsy. -/
def truthy (o : Option String) : Bool :=
  match o with
  | some s => s ≠ ""
  | none => false

/-- Vendor normalization of line 43: normalized when truthy, else empty. -/
def normVendor (vendor_name : String) : String :=
  if vendor_name ≠ "" then pyNorm vendor_name else ""

/-- Row lookup by column name; an absent binding models NaN. -/
def rowCell (r : Row) (k : String) : Cell :=
  match r.find? (fun p => p.1 == k) with
  | some p => p.2
  | none => none

/-- Pandas Series.get with a default, as in row.get(col, default). -/
def rowGetD (r : Row) (k : String) (dflt : Cell) : Cell :=
  match r.find? (fun p => p.1 == k) with
  | some p => p.2
  | none => dflt

/-- Assignment of one cell of a row, updating the binding in place or appending it. -/
def rowSet (r : Row) (k : String) (v : Cell) : Row :=
  if r.any (fun p => p.1 == k) then
    r.map (fun p => if p.1 == k then (k, v) else p)
  else r ++ [(k, v)]

/-- Python dict lookup returning None when the key is absent. -/
def dictFind (d : Dict) (k : String) : Option String :=
  (d.find? (fun p => p.1 == k)).map (fun p => p.2)

/-- Python dict.get(key, default). -/
def dictGetD (d : Dict) (k : String) (dflt : String) : String :=
  (dictFind d k).getD dflt

/-- Python dict assignment: update in place or append at the end. -/
def dictSet (d : Dict) (k : String) (v : String) : Dict :=
  if d.any (fun p => p.1 == k) then
    d.map (fun p => if p.1 == k then (k, v) else p)
  else d ++ [(k, v)]

/-- Keys of a dict in insertion order. -/
def dictKeys (d : Dict) : List String := d.map (fun p => p.1)

/-- Python membership test key in dict. -/
def dictHas (d : Dict) (k : String) : Bool := d.any (fun p => p.1 == k)

/-- Empty DataFrame. -/
def emptyTable : Table := ⟨[], []⟩

/-- Normalized Email_ID of a row, astype(str).str.strip().str.lower(). -/
def rowEmailNorm (r : Row) : String := pyNorm (cellStr (rowCell r "Email_ID"))

/-- Normalized Candidate_Name of a row. -/
def rowNameNorm (r : Row) : String := pyNorm (cellStr (rowCell r "Candidate_Name"))

/-- Table-side contact normalization of line 88: normalize, then strip separator
characters only when the normalized value is not a sentinel. -/
def tableContactNorm (c : Cell) : String :=
  let x := pyNorm (cellStr c)
  if !(sentinels.contains x) then stripPhone x else x

/-- Normalized Contact_Number of a row. -/
def rowContactNorm (r : Row) : String := tableContactNorm (rowCell r "Contact_Number")

/-- Normalized Vendor_Name of a row, lines 66 and 107: empty when the cell is NaN. -/
def rowVendorNorm (r : Row) : String :=
  match rowCell r "Vendor_Name" with
  | some v => pyNorm v
  | none => ""

/-- Same-vendor scan of tracker.py lines 63-70 (also 104-111 and 140-147): first
matched row whose non-empty normalized vendor equals the non-empty submitting vendor. -/
def findSameVendorRow (matching : List Row) (vendorN : String) : Option Row :=
  matching.find? (fun r => vendorN ≠ "" && rowVendorNorm r ≠ "" && vendorN == rowVendorNorm r)

/-- Result quadruple of check_candidate_status_in_tracker: the exists flag, the
current status (None when the candidate was not found), the duplicate reason code
and the profile remark. -/
structure CheckResult where
  found : Bool
  status : Option Cell
  reason : String
  remark : Cell
deriving Repr, DecidableEq

/-- Not-found result of check_candidate_status_in_tracker. -/
def checkNotFound : CheckResult := ⟨false, none, "", some ""⟩

/-- Tier 1 of the identity resolver, tracker.py lines 53-82: exact normalized
email equality, entered only when the candidate email normalizes to a value and
some row has a non-sentinel normalized email equal to it; `none` means fall
through to the next tier. -/
def checkTier1 (emailN : Option String) (vendorN : String) (df : Table) : Option CheckResult :=
  match emailN with
  | none => none
  | some e =>
    if df.cols.contains "Email_ID" then
      if df.rows.any (fun r => !(sentinels.contains (rowEmailNorm r)) && rowEmailNorm r == e) then
        let matching := df.rows.filter (fun r => rowEmailNorm r == e)
        if !matching.isEmpty then
          if df.cols.contains "Vendor_Name" then
            match findSameVendorRow matching vendorN with
            | some row =>
              some ⟨true, some (rowGetD row "Resume_Screening_Status" (some "Unknown")),
                    "email_same_vendor", rowGetD row "Profile_Remark" (some "")⟩
            | none =>
              some ⟨true, some (rowGetD (matching.headD []) "Resume_Screening_Status" (some "Unknown")),
                    "email_different_vendor", rowGetD (matching.headD []) "Profile_Remark" (some "")⟩
          else
            some ⟨true, some (rowGetD (matching.headD []) "Resume_Screening_Status" (some "Unknown")),
                  "email_different_vendor", rowGetD (matching.headD []) "Profile_Remark" (some "")⟩
        else none
      else none
    else none

/-- Row validity for tier 2, line 90: both normalized name and normalized
(post-strip) contact must be non-sentinel. -/
def rowValidNamePhone (r : Row) : Bool :=
  !(sentinels.contains (rowNameNorm r)) && !(sentinels.contains (rowContactNorm r))

/-- Tier 2 of the identity resolver, lines 84-123: normalized name and contact
both present and equal. -/
def checkTier2 (nameN contactN : Option String) (vendorN : String) (df : Table) : Option CheckResult :=
  if truthy nameN && truthy contactN &&
     df.cols.contains "Candidate_Name" && df.cols.contains "Contact_Number" then
    let nN := nameN.getD ""
    let cN := contactN.getD ""
    if df.rows.any rowValidNamePhone then
      let matching := df.rows.filter (fun r =>
        rowValidNamePhone r && rowNameNorm r == nN && rowContactNorm r == cN)
      if !matching.isEmpty then
        if df.cols.contains "Vendor_Name" then
          match findSameVendorRow matching vendorN with
          | some row =>
            some ⟨true, some (rowGetD row "Resume_Screening_Status" (some "Unknown")),
                  "name_and_phone_same_vendor", rowGetD row "Profile_Remark" (some "")⟩
          | none =>
            some ⟨true, some (rowGetD (matching.headD []) "Resume_Screening_Status" (some "Unknown")),
                  "name_and_phone_different_vendor", rowGetD (matching.headD []) "Profile_Remark" (some "")⟩
        else
          some ⟨true, some (rowGetD (matching.headD []) "Resume_Screening_Status" (some "Unknown")),
                "name_and_phone_different_vendor", rowGetD (matching.headD []) "Profile_Remark" (some "")⟩
      else none
    else none
  else none

/-- Tier 3 of the identity resolver, lines 125-153: name plus vendor fallback,
entered only when the candidate has a name, no contact number and a non-empty
vendor; it can only report a same-vendor duplicate, otherwise it falls through. -/
def checkTier3 (nameN contactN : Option String) (vendorN : String) (df : Table) : Option CheckResult :=
  if truthy nameN && !(truthy contactN) && vendorN ≠ "" &&
     df.cols.contains "Candidate_Name" && df.cols.contains "Vendor_Name" then
    let nN := nameN.getD ""
    if df.rows.any (fun r => !(sentinels.contains (rowNameNorm r))) then
      let matching := df.rows.filter (fun r =>
        !(sentinels.contains (rowNameNorm r)) && rowNameNorm r == nN)
      if !matching.isEmpty then
        match findSameVendorRow matching vendorN with
        | some row =>
          some ⟨true, some (rowGetD row "Resume_Screening_Status" (some "Unknown")),
                "name_and_vendor_same_vendor", rowGetD row "Profile_Remark" (some "")⟩
        | none => none
      else none
    else none
  else none

/-- Embedding of check_candidate_status_in_tracker, tracker.py lines 10-155: a
missing, unparsable or empty store reports not-found; otherwise the three tiers
are attempted in strict priority order, stopping at the first that returns. -/
def check_candidate_status_in_tracker (cand : Dict) (store : Store) (vendor_name : String) : CheckResult :=
  match store with
  | .missing => checkNotFound
  | .corrupt => checkNotFound
  | .table df =>
    if df.rows.isEmpty then checkNotFound
    else
      let emailN := normCandField (dictGetD cand "Email_ID" "")
      let nameN := normCandField (dictGetD cand "Candidate_Name" "")
      let contactN := normCandPhone (dictGetD cand "Contact_Number" "")
      let vendorN := normVendor vendor_name
      match checkTier1 emailN vendorN df with
      | some r => r
      | none =>
        match checkTier2 nameN contactN vendorN df with
        | some r => r
        | none =>
          match checkTier3 nameN contactN vendorN df with
          | some r => r
          | none => checkNotFound

/-- Result quintuple of update_tracker_excel: the store after the call (unchanged
when nothing was persisted), the added flag, the duplicate reason code, the
profile remark and the current status (None on a fresh append). -/
structure UpdateResult where
  store : Store
  added : Bool
  reason : String
  remark : Cell
  status : Option Cell
deriving Repr, DecidableEq

/-- Fixed leading column list of tracker.py line 467. -/
def first_columns : List String := ["Vendor_Name", "Profile_Shared_Date", "Profile_Remark"]

/-- Fixed trailing manual column list of tracker.py lines 300-311, 446-457 and 539-550. -/
def manual_columns : List String :=
  ["R1_Schedule_Date", "R1_Panel_Name", "R1_Feedback", "R1_Status",
   "R2_Schedule_Date", "R2_Panel_Name", "R2_Feedback", "R2_Status",
   "CV_Conversion_Status", "CV_Converted_Path"]

/-- Pandas column assignment df[c] = "" for every row; replaces the column when it
exists, else appends it at the end. -/
def tableSetColEmpty (t : Table) (c : String) : Table :=
  { cols := if t.cols.contains c then t.cols else t.cols ++ [c],
    rows := t.rows.map (fun r => rowSet r c (some "")) }

/-- Pandas column assignment new_row[c] = candidate_details.get(c, ""). -/
def tableSetColFromDict (t : Table) (c : String) (cand : Dict) : Table :=
  { cols := if t.cols.contains c then t.cols else t.cols ++ [c],
    rows := t.rows.map (fun r => rowSet r c (some (dictGetD cand c ""))) }

/-- Pandas column selection df[cs]: keeps the listed columns in the listed order,
materializing a NaN cell for a column a row does not bind. -/
def selectCols (t : Table) (cs : List String) : Table :=
  { cols := cs, rows := t.rows.map (fun r => cs.map (fun c => (c, rowCell r c))) }

/-- Pandas column copy df[dst] = df[src] used for the legacy rename of line 291. -/
def copyColumn (df : Table) (src dst : String) : Table :=
  { cols := if df.cols.contains dst then df.cols else df.cols ++ [dst],
    rows := df.rows.map (fun r => rowSet r dst (rowCell r src)) }

/-- Pandas df.drop(columns=[c]) used at line 292. -/
def dropColumn (df : Table) (c : String) : Table :=
  { cols := df.cols.filter (fun x => x ≠ c),
    rows := df.rows.map (fun r => r.filter (fun p => p.1 ≠ c)) }

/-- Pandas cell assignment df.loc[i, k] = v, adding the column when it is absent. -/
def tableSetCell (t : Table) (i : Nat) (k : String) (v : Cell) : Table :=
  { cols := if t.cols.contains k then t.cols else t.cols ++ [k],
    rows := t.rows.set i (rowSet (t.rows.getD i []) k v) }

/-- Pandas pd.concat([df, nr], ignore_index=True): rows appended, column union in
first-seen order. -/
def concatTables (df nr : Table) : Table :=
  { cols := df.cols ++ nr.cols.filter (fun c => !(df.cols.contains c)),
    rows := df.rows ++ nr.rows }

/-- Pandas pd.DataFrame([candidate_details]) of line 464. -/
def dictToTable (cand : Dict) : Table :=
  { cols := dictKeys cand, rows := [cand.map (fun p => (p.1, some p.2))] }

/-- Schema fixing applied on load in the append path, tracker.py lines 287-316:
legacy date column rename, forcing Resume_Screening_Status to Duplicate Profile on
rows whose Profile_Remark normalizes to duplicate profile, and adding any missing
manual column as empty. -/
def schemaFix (df : Table) : Table :=
  let df1 :=
    if df.cols.contains "Date_Shortlisted" then
      let dfa :=
        if !(df.cols.contains "Screening_Date") then copyColumn df "Date_Shortlisted" "Screening_Date"
        else df
      dropColumn dfa "Date_Shortlisted"
    else df
  let df2 :=
    if df1.cols.contains "Profile_Remark" && df1.cols.contains "Resume_Screening_Status" then
      { df1 with rows := df1.rows.map (fun r =>
          if pyNorm (cellStr (rowCell r "Profile_Remark")) == "duplicate profile" then
            rowSet r "Resume_Screening_Status" (some "Duplicate Profile")
          else r) }
    else df1
  manual_columns.foldl (fun t c => if t.cols.contains c then t else tableSetColEmpty t c) df2

/-- Load step of the append path, lines 285-320: a missing or unparsable file
yields an empty DataFrame, otherwise the parsed table is schema-fixed. -/
def loadForAppend (store : Store) : Table :=
  match store with
  | .table df => schemaFix df
  | .missing => emptyTable
  | .corrupt => emptyTable

/-- Admin-override in-place update of tracker.py lines 228-277; returns none when
the block falls through to append logic (read failure or no row re-located). -/
def adminOverrideUpdate (cand : Dict) (desired tracker_type feedback similarity_score average_score cv_path today : String) (existing_remark : Cell) (store : Store) : Option UpdateResult :=
  match store with
  | .missing => none
  | .corrupt => none
  | .table df =>
    let emailN := normCandField (dictGetD cand "Email_ID" "")
    let nameN := normCandField (dictGetD cand "Candidate_Name" "")
    let contactN := normCandPhone (dictGetD cand "Contact_Number" "")
    let matching_idx : Option Nat :=
      if truthy emailN && df.cols.contains "Email_ID" then
        df.rows.findIdx? (fun r => rowEmailNorm r == emailN.getD "")
      else if truthy nameN && truthy contactN && df.cols.contains "Candidate_Name" && df.cols.contains "Contact_Number" then
        if df.rows.any rowValidNamePhone then
          df.rows.findIdx? (fun r =>
            rowValidNamePhone r && rowNameNorm r == nameN.getD "" && rowContactNorm r == contactN.getD "")
        else none
      else none
    match matching_idx with
    | some i =>
      let dfa := tableSetCell df i "Resume_Screening_Status" (some desired)
      let dfb := tableSetCell dfa i "Screening_Date" (some today)
      let dfc := tableSetCell dfb i "Resume_Screening_Feedback" (some feedback)
      let dfd := tableSetCell dfc i "Similarity_Score" (some similarity_score)
      let dfe := tableSetCell dfd i "Average_Score" (some average_score)
      let dff :=
        if pyLower tracker_type == "shortlisted" && cv_path ≠ "" then
          tableSetCell dfe i "Shortlisted_CV_Path" (some cv_path)
        else if pyLower tracker_type == "rejected" then
          tableSetCell dfe i "Shortlisted_CV_Path" (some "")
        else dfe
      some ⟨.table dff, true, "status_updated", existing_remark, some (some desired)⟩
    | none => none

/-- Email duplicate re-check of the append path, lines 337-354: Left blocks with
the first same-vendor row, Right tells whether the different-vendor remark fires. -/
def dupEmail (emailN : Option String) (vendorN : String) (df : Table) : Sum (String × Row) Bool :=
  match emailN with
  | none => .inr false
  | some e =>
    if df.cols.contains "Email_ID" then
      if df.rows.any (fun r => !(sentinels.contains (rowEmailNorm r)) && rowEmailNorm r == e) then
        let matching := df.rows.filter (fun r => rowEmailNorm r == e)
        if !matching.isEmpty && df.cols.contains "Vendor_Name" then
          match findSameVendorRow matching vendorN with
          | some row => .inl ("email_same_vendor", row)
          | none =>
            let ev := rowVendorNorm (matching.headD [])
            .inr (vendorN ≠ "" && ev ≠ "" && vendorN ≠ ev)
        else .inr false
      else .inr false
    else .inr false

/-- Name plus phone duplicate re-check of the append path, lines 356-379. -/
def dupNamePhone (nN cN vendorN : String) (df : Table) : Sum (String × Row) Bool :=
  if df.cols.contains "Candidate_Name" && df.cols.contains "Contact_Number" then
    if df.rows.any rowValidNamePhone then
      let matching := df.rows.filter (fun r =>
        rowValidNamePhone r && rowNameNorm r == nN && rowContactNorm r == cN)
      if !matching.isEmpty then
        if df.cols.contains "Vendor_Name" then
          match findSameVendorRow matching vendorN with
          | some row => .inl ("name_and_phone_same_vendor", row)
          | none =>
            let ev := rowVendorNorm (matching.headD [])
            .inr (vendorN ≠ "" && ev ≠ "" && vendorN ≠ ev)
        else .inr false
      else .inr false
    else .inr false
  else .inr false

/-- Name plus vendor duplicate re-check of the append path, lines 381-401; it can
only block, never set the remark. -/
def dupNameVendor (nN vendorN : String) (df : Table) : Option (String × Row) :=
  if df.cols.contains "Candidate_Name" && df.cols.contains "Vendor_Name" then
    if df.rows.any (fun r => !(sentinels.contains (rowNameNorm r))) then
      let matching := df.rows.filter (fun r =>
        !(sentinels.contains (rowNameNorm r)) && rowNameNorm r == nN)
      if !matching.isEmpty then
        match findSameVendorRow matching vendorN with
        | some row => some ("name_and_vendor_same_vendor", row)
        | none => none
      else none
    else none
  else none

/-- Outcome of the in-path duplicate re-check of lines 322-401: either blocked
with a reason and the matched row data, or proceed with the computed remark. -/
inductive DupOutcome where
  | blocked (reason : String) (remark : Cell) (status : Cell)
  | proceed (profile_remark : String)
deriving Repr, DecidableEq

/-- Duplicate re-check of the append path, lines 322-401, run only when the
candidate was not already classified as a different-vendor duplicate. -/
def appendDupCheck (cand : Dict) (vendor_name : String) (df : Table) : DupOutcome :=
  if df.rows.isEmpty then .proceed "Unique Profile"
  else
    let emailN := normCandField (dictGetD cand "Email_ID" "")
    let nameN := normCandField (dictGetD cand "Candidate_Name" "")
    let contactN := normCandPhone (dictGetD cand "Contact_Number" "")
    let vendorN := normVendor vendor_name
    match dupEmail emailN vendorN df with
    | .inl br => .blocked br.1 (rowGetD br.2 "Profile_Remark" (some ""))
        (rowGetD br.2 "Resume_Screening_Status" (some "Unknown"))
    | .inr emailDup =>
      let remark1 := if emailDup then "Duplicate Profile" else "Unique Profile"
      if remark1 == "Unique Profile" && truthy nameN && truthy contactN then
        match dupNamePhone (nameN.getD "") (contactN.getD "") vendorN df with
        | .inl br => .blocked br.1 (rowGetD br.2 "Profile_Remark" (some ""))
            (rowGetD br.2 "Resume_Screening_Status" (some "Unknown"))
        | .inr d2 => .proceed (if d2 then "Duplicate Profile" else remark1)
      else if remark1 == "Unique Profile" && truthy nameN && !(truthy contactN) && vendorN ≠ "" then
        match dupNameVendor (nameN.getD "") vendorN df with
        | some br => .blocked br.1 (rowGetD br.2 "Profile_Remark" (some ""))
            (rowGetD br.2 "Resume_Screening_Status" (some "Unknown"))
        | none => .proceed remark1
      else .proceed remark1

/-- Enrichment of candidate_details before the append, tracker.py lines 403-461. -/
def enrichCand (cand : Dict) (profile_remark desired tracker_type feedback similarity_score average_score cv_path vendor_name profile_shared_date today : String) : Dict :=
  let c1 := dictSet cand "Vendor_Name" (if vendor_name ≠ "" then vendor_name else "")
  let c2 := dictSet c1 "Profile_Shared_Date" (if profile_shared_date ≠ "" then profile_shared_date else "")
  let c3 := dictSet c2 "Profile_Remark" profile_remark
  let c4 := dictSet c3 "Resume_Screening_Feedback" feedback
  let c5 := dictSet c4 "Similarity_Score" similarity_score
  let c6 := dictSet c5 "Average_Score" average_score
  let c7 :=
    if pyLower tracker_type == "shortlisted" && cv_path ≠ "" then dictSet c6 "Shortlisted_CV_Path" cv_path
    else if pyLower tracker_type == "shortlisted" then dictSet c6 "Shortlisted_CV_Path" ""
    else dictSet c6 "Shortlisted_CV_Path" ""
  let c8 := dictSet c7 "Resume_Screening_Status"
    (if profile_remark == "Duplicate Profile" then "Duplicate Profile" else desired)
  let c9 := dictSet c8 "Screening_Date" today
  let c10 := if dictHas c9 "Position" then c9 else dictSet c9 "Position" "Not Found"
  manual_columns.foldl (fun d c => dictSet d c "") c10

/-- Column alignment of the new row against the existing table, tracker.py lines
466-519, returning the adjusted table and the adjusted one-row DataFrame. -/
def mergeColumns (df0 nr0 : Table) (cand : Dict) : Table × Table :=
  if !df0.rows.isEmpty then
    let existing_cols := first_columns.foldl (fun cs c => cs.erase c) df0.cols
    let nr1 := existing_cols.foldl
      (fun t c => if t.cols.contains c then t else tableSetColFromDict t c cand) nr0
    let nr2 := selectCols nr1 existing_cols
    let new_cols := (dictKeys cand).filter
      (fun c => !(existing_cols.contains c) && !(first_columns.contains c))
    let df1 := new_cols.foldl (fun t c => tableSetColEmpty t c) df0
    let nr3 := new_cols.foldl (fun t c => tableSetColFromDict t c cand) nr2
    let existing_cols2 := existing_cols ++ new_cols
    let df2 := first_columns.foldl
      (fun t c => if t.cols.contains c then t else tableSetColEmpty t c) df1
    let final_cols := first_columns ++ existing_cols2.filter (fun c => !(first_columns.contains c))
    let df3 := selectCols df2 final_cols
    let nr4 := selectCols nr3 (final_cols.filter (fun c => nr3.cols.contains c))
    let nr5 := final_cols.foldl
      (fun t c => if t.cols.contains c then t else tableSetColFromDict t c cand) nr4
    let nr6 := selectCols nr5 final_cols
    (df3, nr6)
  else
    let all_cols := first_columns ++ (dictKeys cand).filter (fun c => !(first_columns.contains c))
    let nr1 := selectCols nr0 (all_cols.filter (fun c => nr0.cols.contains c))
    let nr2 := all_cols.foldl (fun t c =>
      let t2 := if t.cols.contains c then t else tableSetColFromDict t c cand
      selectCols t2 all_cols) nr1
    (df0, nr2)

/-- Python list.insert(n, a): inserts at position n, appending when n is past the
end of the list. -/
def pyInsert (n : Nat) (a : α) (l : List α) : List α := l.take n ++ a :: l.drop n

/-- Final column ordering before persisting, tracker.py lines 523-557: the fixed
leading columns are moved to the front by remove-and-insert, Position is moved
behind the stale pre-removal index of Email_ID when not already adjacent, and the
manual columns are removed and appended at the end. -/
def finalColumnOrder (cols0 : List String) : List String :=
  let cols1 := (first_columns.enum).foldl (fun cs p =>
    if cs.contains p.2 then pyInsert p.1 p.2 (cs.erase p.2) else cs) cols0
  let cols2 :=
    if cols1.contains "Email_ID" && cols1.contains "Position" then
      let email_idx := cols1.indexOf "Email_ID"
      let pos_idx := cols1.indexOf "Position"
      if pos_idx ≠ email_idx + 1 then pyInsert (email_idx + 1) "Position" (cols1.erase "Position")
      else cols1
    else cols1
  let cols3 := manual_columns.foldl (fun cs c => cs.erase c) cols2
  cols3 ++ manual_columns

/-- Columns the reorder step of tracker.py lines 523-557 ever relocates: the
three fixed leading columns, Position, and the trailing manual columns. Every
other column keeps its relative position. -/
def movedCols : List String :=
  "Vendor_Name" :: "Profile_Shared_Date" :: "Profile_Remark" :: "Position" :: manual_columns

/-- A column the reorder step never relocates. -/
def otherCol (c : String) : Bool := ! movedCols.contains c

/-- Append of the enriched candidate record and persist, tracker.py lines 403-565. -/
def appendRecord (cand : Dict) (profile_remark desired tracker_type feedback similarity_score average_score cv_path vendor_name profile_shared_date today : String) (df : Table) : UpdateResult :=
  let cand2 := enrichCand cand profile_remark desired tracker_type feedback similarity_score average_score cv_path vendor_name profile_shared_date today
  let nr0 := dictToTable cand2
  let m := mergeColumns df nr0 cand2
  let df3 := concatTables m.1 m.2
  let cols := finalColumnOrder df3.cols
  let df4 := selectCols df3 cols
  ⟨.table df4, true, "", some profile_remark, none⟩

/-- Append path of update_tracker_excel, lines 279-565: load and schema-fix, run
the in-path duplicate re-check unless already classified as a different-vendor
duplicate, then append and persist. -/
def appendPath (cand : Dict) (desired tracker_type feedback similarity_score average_score cv_path vendor_name profile_shared_date today : String) (is_diff : Bool) (store : Store) : UpdateResult :=
  let df := loadForAppend store
  if is_diff then
    appendRecord cand "Duplicate Profile" desired tracker_type feedback similarity_score average_score cv_path vendor_name profile_shared_date today df
  else
    match appendDupCheck cand vendor_name df with
    | .blocked reason remark status => ⟨store, false, reason, remark, some status⟩
    | .proceed pr =>
      appendRecord cand pr desired tracker_type feedback similarity_score average_score cv_path vendor_name profile_shared_date today df

/-- Embedding of update_tracker_excel, tracker.py lines 158-565. The same-vendor
block of line 214 is checked before allow_status_change is ever consulted, exactly
as in the source. -/
def update_tracker_excel (cand : Dict) (tracker_type feedback similarity_score average_score cv_path vendor_name profile_shared_date today : String) (allow_status_change : Bool) (store : Store) : UpdateResult :=
  let desired := if pyLower tracker_type == "shortlisted" then "Shortlisted" else "Rejected"
  let chk := check_candidate_status_in_tracker cand store vendor_name
  if chk.found then
    if strEndsWith chk.reason "_same_vendor" then
      ⟨store, false, chk.reason, chk.remark, chk.status⟩
    else if strEndsWith chk.reason "_different_vendor" then
      appendPath cand desired tracker_type feedback similarity_score average_score cv_path vendor_name profile_shared_date today true store
    else if !allow_status_change then
      ⟨store, false, "already_exists", chk.remark, chk.status⟩
    else
      match adminOverrideUpdate cand desired tracker_type feedback similarity_score average_score cv_path today chk.remark store with
      | some r => r
      | none =>
        appendPath cand desired tracker_type feedback similarity_score average_score cv_path vendor_name profile_shared_date today false store
  else
    appendPath cand desired tracker_type feedback similarity_score average_score cv_path vendor_name profile_shared_date today false store

/-- Identifier normalization of update_cv_conversion_status, lines 592-594, which
uses the four-element sentinel list on the candidate side. -/
def normCvField (s : String) : Option String :=
  if s ≠ "" && !(sentinels.contains (pyNorm s)) then some (pyNorm s) else none

/-- Tiered row lookup of update_cv_conversion_status, tracker.py lines 591-619:
plain normalized email equality first, then valid name plus phone equality; the
first matching row index wins. -/
def cvMatchIdx (df : Table) (candidate_email candidate_name contact_number : String) : Option Nat :=
  let email_norm := normCvField candidate_email
  let name_norm := normCvField candidate_name
  let contact_norm :=
    match normCvField contact_number with
    | some c => some (stripPhone c)
    | none => none
  let idx1 : Option Nat :=
    if truthy email_norm && df.cols.contains "Email_ID" then
      df.rows.findIdx? (fun r => rowEmailNorm r == email_norm.getD "")
    else none
  match idx1 with
  | some i => some i
  | none =>
    if truthy name_norm && truthy contact_norm &&
       df.cols.contains "Candidate_Name" && df.cols.contains "Contact_Number" then
      if df.rows.any rowValidNamePhone then
        df.rows.findIdx? (fun r =>
          rowValidNamePhone r && rowNameNorm r == name_norm.getD "" &&
          rowContactNorm r == contact_norm.getD "")
      else none
    else none

/-- Embedding of update_cv_conversion_status, tracker.py lines 568-642: tiered
lookup via cvMatchIdx, then in-place update of the conversion status and, when a
path is supplied, the converted path. The human-readable message of the Python
return value is not modelled; the Bool is the success flag. -/
def update_cv_conversion_status (store : Store) (candidate_email candidate_name contact_number converted_ppt_path : String) : Store × Bool :=
  match store with
  | .missing => (store, false)
  | .corrupt => (store, false)
  | .table df =>
    if df.rows.isEmpty then (store, false)
    else
      match cvMatchIdx df candidate_email candidate_name contact_number with
      | none => (store, false)
      | some i =>
        let dfa := if df.cols.contains "CV_Conversion_Status" then df else tableSetColEmpty df "CV_Conversion_Status"
        let dfb := if dfa.cols.contains "CV_Converted_Path" then dfa else tableSetColEmpty dfa "CV_Converted_Path"
        let dfc := tableSetCell dfb i "CV_Conversion_Status" (some "Converted")
        let dfd := if converted_ppt_path ≠ "" then tableSetCell dfc i "CV_Converted_Path" (some converted_ppt_path) else dfc
        (.table dfd, true)

/-- Columns of the table held by a store, empty for a missing or corrupt store. -/
def storeCols (s : Store) : List String :=
  match s with
  | .table t => t.cols
  | _ => []

/-- Rows of the table held by a store, empty for a missing or corrupt store. -/
def storeRows (s : Store) : List Row :=
  match s with
  | .table t => t.rows
  | _ => []

/-- Rows bind only declared columns. -/
def RowKeysBound (t : Table) : Prop := ∀ r ∈ t.rows, ∀ p ∈ r, t.cols.contains p.1 = true

/-- Well-formedness of a parsed table: every row binds only declared columns and
binds each column at most once, and the column list has no duplicates. Every
table the engine itself persists satisfies this, and pandas guarantees it for
any parsed file. -/
def TableWF (t : Table) : Prop :=
  RowKeysBound t ∧ (∀ r ∈ t.rows, (r.map Prod.fst).Nodup) ∧ t.cols.Nodup

/-- Absence of the legacy date column that schemaFix renames. -/
def NoLegacyCol (t : Table) : Prop := t.cols.contains "Date_Shortlisted" = false

/-- Consistency invariant of engine-written tables: a row whose remark normalizes
to duplicate profile already carries the Duplicate Profile screening status, so
the forcing rewrite of lines 293-297 is the identity on it. -/
def DupRemarkConsistent (t : Table) : Prop :=
  ∀ r ∈ t.rows, pyNorm (cellStr (rowCell r "Profile_Remark")) = "duplicate profile" →
    rowCell r "Resume_Screening_Status" = some "Duplicate Profile"

/-- One-row table whose row binds exactly the declared columns to the dict values,
the shape of the new-row DataFrame throughout the merge of lines 464-519. -/
def NrOk (d : Dict) (t : Table) : Prop :=
  ∃ r, t.rows = [r] ∧ ∀ k, t.cols.contains k = true → rowCell r k = some (dictGetD d k "")

/-- Concrete candidate fixture used by the concrete theorems below. -/
def candJane : Dict := [("Candidate_Name", "Jane Doe"), ("Email_ID", "a@x.com"), ("Contact_Number", "123-456")]

/-- Store produced by shortlisting candJane from vendor Acme into a fresh partition. -/
def storeJaneAcme : Store :=
  (update_tracker_excel candJane "shortlisted" "good fit" "0.8" "0.7" "/cv/jane.pdf" "Acme" "2026-01-01" "2026-01-02" false .missing).store

/-- Candidate fixture whose dict lists Position before Email_ID. -/
def candPosFirst : Dict :=
  [("Position", "Dev"), ("Candidate_Name", "Jane Doe"), ("Email_ID", "a@x.com"), ("Contact_Number", "123")]

/-- Frame extension relation used by the frame theorems: the second table keeps
at least the rows of the first, declares every column of the first, and agrees
with the first on every original cell of every original row. -/
def FrameExt (t t2 : Table) : Prop :=
  t.rows.length ≤ t2.rows.length ∧
  (∀ c, t.cols.contains c = true → t2.cols.contains c = true) ∧
  (∀ i, i < t.rows.length → ∀ k, t.cols.contains k = true →
    rowCell (t2.rows.getD i []) k = rowCell (t.rows.getD i []) k)

/-- Concrete one-row well-formed table fixture used by the frame witness. -/
def tJane : Table :=
  ⟨["Vendor_Name", "Candidate_Name", "Email_ID", "Profile_Remark", "Resume_Screening_Status"],
   [[("Vendor_Name", some "Acme"), ("Candidate_Name", some "Jane Doe"),
     ("Email_ID", some "a@x.com"), ("Profile_Remark", some "Unique Profile"),
     ("Resume_Screening_Status", some "Shortlisted")]]⟩

theorem selectCols_rows_length (t : Table) (cs : List String) :
    (selectCols t cs).rows.length = t.rows.length := by
  simp [selectCols]

theorem tableSetColEmpty_rows_length (t : Table) (c : String) :
    (tableSetColEmpty t c).rows.length = t.rows.length := by
  simp [tableSetColEmpty]

theorem tableSetColFromDict_rows_length (t : Table) (c : String) (d : Dict) :
    (tableSetColFromDict t c d).rows.length = t.rows.length := by
  simp [tableSetColFromDict]

theorem foldl_table_rows_length (f : Table → String → Table)
    (h : ∀ t c, (f t c).rows.length = t.rows.length) (l : List String) (t : Table) :
    (l.foldl f t).rows.length = t.rows.length := by
  induction l generalizing t with
  | nil => rfl
  | cons c cs ih => rw [List.foldl_cons, ih, h]

theorem condSetColEmpty_rows_length (t : Table) (c : String) :
    (if t.cols.contains c then t else tableSetColEmpty t c).rows.length = t.rows.length := by
  split <;> simp [tableSetColEmpty]

theorem condSetColFromDict_rows_length (t : Table) (c : String) (d : Dict) :
    (if t.cols.contains c then t else tableSetColFromDict t c d).rows.length = t.rows.length := by
  split <;> simp [tableSetColFromDict]

theorem mergeColumns_fst_rows_length (df nr : Table) (d : Dict) :
    (mergeColumns df nr d).1.rows.length = df.rows.length := by
  unfold mergeColumns
  split
  · simp only [selectCols_rows_length]
    rw [foldl_table_rows_length _ (fun t c => condSetColEmpty_rows_length t c)]
    rw [foldl_table_rows_length _ (fun t c => tableSetColEmpty_rows_length t c)]
  · rfl

theorem mergeColumns_snd_rows_length (df nr : Table) (d : Dict) :
    (mergeColumns df nr d).2.rows.length = nr.rows.length := by
  unfold mergeColumns
  split
  · simp only [selectCols_rows_length,
      foldl_table_rows_length _ (fun t c => condSetColFromDict_rows_length t c d),
      foldl_table_rows_length _ (fun t c => tableSetColFromDict_rows_length t c d)]
  · have h : ∀ t c,
        (selectCols (if t.cols.contains c then t else tableSetColFromDict t c d)
          (first_columns ++ List.filter (fun c => !first_columns.contains c) (dictKeys d))).rows.length
          = t.rows.length := by
      intro t c
      simp only [selectCols_rows_length]
      exact condSetColFromDict_rows_length t c d
    rw [foldl_table_rows_length _ h, selectCols_rows_length]

theorem concatTables_rows (df nr : Table) : (concatTables df nr).rows = df.rows ++ nr.rows := rfl

theorem dictToTable_rows_length (d : Dict) : (dictToTable d).rows.length = 1 := rfl

theorem appendRecord_rows_length (cand : Dict) (pr D tt fb ss avg cv v psd today : String) (df : Table) :
    (storeRows (appendRecord cand pr D tt fb ss avg cv v psd today df).store).length = df.rows.length + 1 := by
  unfold appendRecord storeRows
  simp only [selectCols_rows_length, concatTables_rows, List.length_append,
    mergeColumns_fst_rows_length, mergeColumns_snd_rows_length, dictToTable_rows_length]

theorem appendRecord_added (cand : Dict) (pr D tt fb ss avg cv v psd today : String) (df : Table) :
    (appendRecord cand pr D tt fb ss avg cv v psd today df).added = true := rfl

theorem appendRecord_reason (cand : Dict) (pr D tt fb ss avg cv v psd today : String) (df : Table) :
    (appendRecord cand pr D tt fb ss avg cv v psd today df).reason = "" := rfl

theorem appendRecord_remark (cand : Dict) (pr D tt fb ss avg cv v psd today : String) (df : Table) :
    (appendRecord cand pr D tt fb ss avg cv v psd today df).remark = some pr := rfl

theorem update_tracker_excel_missing (cand : Dict) (tt fb ss avg cv v psd today : String) (allow : Bool) :
    update_tracker_excel cand tt fb ss avg cv v psd today allow .missing
      = appendRecord cand "Unique Profile"
          (if pyLower tt == "shortlisted" then "Shortlisted" else "Rejected")
          tt fb ss avg cv v psd today emptyTable := rfl

theorem update_tracker_excel_corrupt (cand : Dict) (tt fb ss avg cv v psd today : String) (allow : Bool) :
    update_tracker_excel cand tt fb ss avg cv v psd today allow .corrupt
      = appendRecord cand "Unique Profile"
          (if pyLower tt == "shortlisted" then "Shortlisted" else "Rejected")
          tt fb ss avg cv v psd today emptyTable := rfl

/-- C1: claims that a same-identity same-vendor resubmission with
allow_status_change set locates the stored row and overwrites its status,
feedback, scores, date and CV path in place, returning reason code
status_updated. The code instead returns the same-vendor block of tracker.py
line 214 before allow_status_change is ever consulted, so the call is refused
with reason email_same_vendor, the store is byte-for-byte unchanged and the
stored status stays Shortlisted; the admin-override block of lines 228-277 is
unreachable, contradicting the docstring of update_tracker_excel and the UI
help text of the override checkbox. This theorem evaluates the engine at the
failing input. -/
theorem C1_override_request_still_blocked :
    update_tracker_excel candJane "rejected" "changed my mind" "0.1" "0.2" "" "Acme"
        "2026-01-03" "2026-01-04" true storeJaneAcme
      = ⟨storeJaneAcme, false, "email_same_vendor", some "Unique Profile", some (some "Shortlisted")⟩ := by
  decide

/-- C7 counterexample: a successful fresh append whose candidate dict lists
Position before Email_ID persists a column order in which Contact_Number sits
between Email_ID and Position, because the reordering of tracker.py lines
530-536 inserts Position at the index Email_ID held before Position was
removed. Both columns are present, yet Position is not immediately after
Email_ID, refuting the claimed column contract as stated. -/
theorem C7_counterexample_position_not_adjacent :
    (update_tracker_excel candPosFirst "shortlisted" "ok" "0.9" "0.8" "/cv/a.pdf" "Acme"
        "2026-01-01" "2026-01-02" false .missing).added = true ∧
    (update_tracker_excel candPosFirst "shortlisted" "ok" "0.9" "0.8" "/cv/a.pdf" "Acme"
        "2026-01-01" "2026-01-02" false .missing).reason = "" ∧
    storeCols (update_tracker_excel candPosFirst "shortlisted" "ok" "0.9" "0.8" "/cv/a.pdf" "Acme"
        "2026-01-01" "2026-01-02" false .missing).store
      = ["Vendor_Name", "Profile_Shared_Date", "Profile_Remark", "Candidate_Name", "Email_ID",
         "Contact_Number", "Position", "Resume_Screening_Feedback", "Similarity_Score",
         "Average_Score", "Shortlisted_CV_Path", "Resume_Screening_Status", "Screening_Date",
         "R1_Schedule_Date", "R1_Panel_Name", "R1_Feedback", "R1_Status",
         "R2_Schedule_Date", "R2_Panel_Name", "R2_Feedback", "R2_Status",
         "CV_Conversion_Status", "CV_Converted_Path"] ∧
    ((storeCols (update_tracker_excel candPosFirst "shortlisted" "ok" "0.9" "0.8" "/cv/a.pdf" "Acme"
        "2026-01-01" "2026-01-02" false .missing).store).indexOf "Position"
      ≠ (storeCols (update_tracker_excel candPosFirst "shortlisted" "ok" "0.9" "0.8" "/cv/a.pdf" "Acme"
        "2026-01-01" "2026-01-02" false .missing).store).indexOf "Email_ID" + 1) := by
  refine ⟨rfl, rfl, by decide, by decide⟩

/-- C8: a missing or unparsable tracker file is treated as an empty table with no
error surfaced: check_candidate_status_in_tracker reports exists false with no
status, empty reason and empty remark, and update_tracker_excel proceeds to
append the submission as a fresh Unique Profile record, for every candidate and
every parameter valuation. -/
theorem C8_missing_or_corrupt_store_degrades_to_empty (cand : Dict)
    (vendor tt fb ss avg cv psd today : String) (allow : Bool) :
    check_candidate_status_in_tracker cand .missing vendor = ⟨false, none, "", some ""⟩ ∧
    check_candidate_status_in_tracker cand .corrupt vendor = ⟨false, none, "", some ""⟩ ∧
    (update_tracker_excel cand tt fb ss avg cv vendor psd today allow .missing).added = true ∧
    (update_tracker_excel cand tt fb ss avg cv vendor psd today allow .missing).reason = "" ∧
    (update_tracker_excel cand tt fb ss avg cv vendor psd today allow .missing).remark = some "Unique Profile" ∧
    (storeRows (update_tracker_excel cand tt fb ss avg cv vendor psd today allow .missing).store).length = 1 ∧
    (update_tracker_excel cand tt fb ss avg cv vendor psd today allow .corrupt).added = true ∧
    (update_tracker_excel cand tt fb ss avg cv vendor psd today allow .corrupt).remark = some "Unique Profile" ∧
    (storeRows (update_tracker_excel cand tt fb ss avg cv vendor psd today allow .corrupt).store).length = 1 := by
  refine ⟨rfl, rfl, ?_, ?_, ?_, ?_, ?_, ?_, ?_⟩
  · rw [update_tracker_excel_missing]; exact appendRecord_added ..
  · rw [update_tracker_excel_missing]; exact appendRecord_reason ..
  · rw [update_tracker_excel_missing]; exact appendRecord_remark ..
  · rw [update_tracker_excel_missing, appendRecord_rows_length]; rfl
  · rw [update_tracker_excel_corrupt]; exact appendRecord_added ..
  · rw [update_tracker_excel_corrupt]; exact appendRecord_remark ..
  · rw [update_tracker_excel_corrupt, appendRecord_rows_length]; rfl

theorem findSameVendorRow_some (M : List Row) (vN : String) (row : Row)
    (h : findSameVendorRow M vN = some row) :
    row ∈ M ∧ vN ≠ "" ∧ rowVendorNorm row ≠ "" ∧ rowVendorNorm row = vN := by
  have hmem := List.mem_of_find?_eq_some h
  have hp := List.find?_some h
  simp only [Bool.and_eq_true, decide_eq_true_eq, beq_iff_eq, ne_eq] at hp
  exact ⟨hmem, hp.1.1, hp.1.2, hp.2.symm⟩

theorem findSameVendorRow_eq_none_iff (M : List Row) (vN : String) :
    findSameVendorRow M vN = none ↔
      ∀ row ∈ M, ¬(vN ≠ "" ∧ rowVendorNorm row ≠ "" ∧ vN = rowVendorNorm row) := by
  unfold findSameVendorRow
  rw [List.find?_eq_none]
  constructor
  · intro h row hrow hc
    have := h row hrow
    simp only [Bool.and_eq_true, decide_eq_true_eq, beq_iff_eq, ne_eq] at this
    exact this ⟨⟨hc.1, hc.2.1⟩, hc.2.2⟩
  · intro h row hrow
    have := h row hrow
    simp only [Bool.and_eq_true, decide_eq_true_eq, beq_iff_eq, ne_eq]
    intro hc
    exact this ⟨hc.1.1, hc.1.2, hc.2⟩

theorem findSameVendorRow_isSome (M : List Row) (vN : String) (row : Row)
    (hrow : row ∈ M) (h1 : vN ≠ "") (h2 : rowVendorNorm row = vN) :
    ∃ r2, findSameVendorRow M vN = some r2 := by
  rcases h : findSameVendorRow M vN with _ | r2
  · rw [findSameVendorRow_eq_none_iff] at h
    exact absurd ⟨h1, by rw [h2]; exact h1, h2.symm⟩ (h row hrow)
  · exact ⟨r2, rfl⟩

theorem checkTier1_shape (emailN : Option String) (vendorN : String) (df : Table) (r : CheckResult)
    (h : checkTier1 emailN vendorN df = some r) :
    r.found = true ∧ (r.reason = "email_same_vendor" ∨ r.reason = "email_different_vendor") := by
  unfold checkTier1 at h
  cases emailN with
  | none => exact absurd h (by simp)
  | some e =>
    simp only [] at h
    repeat' split at h
    all_goals injection h
    all_goals (rename_i h; subst h; exact ⟨rfl, by simp⟩)

theorem checkTier2_shape (nameN contactN : Option String) (vendorN : String) (df : Table) (r : CheckResult)
    (h : checkTier2 nameN contactN vendorN df = some r) :
    r.found = true ∧
      (r.reason = "name_and_phone_same_vendor" ∨ r.reason = "name_and_phone_different_vendor") := by
  unfold checkTier2 at h
  simp only [] at h
  repeat' split at h
  all_goals injection h
  all_goals (rename_i h; subst h; exact ⟨rfl, by simp⟩)

theorem checkTier3_shape (nameN contactN : Option String) (vendorN : String) (df : Table) (r : CheckResult)
    (h : checkTier3 nameN contactN vendorN df = some r) :
    r.found = true ∧ r.reason = "name_and_vendor_same_vendor" := by
  unfold checkTier3 at h
  simp only [] at h
  repeat' split at h
  all_goals injection h
  all_goals (rename_i h; subst h; exact ⟨rfl, rfl⟩)

theorem check_reason_cases (cand : Dict) (store : Store) (v : String) :
    (check_candidate_status_in_tracker cand store v).found = false ∨
    (check_candidate_status_in_tracker cand store v).reason ∈
      (["email_same_vendor", "email_different_vendor", "name_and_phone_same_vendor",
        "name_and_phone_different_vendor", "name_and_vendor_same_vendor"] : List String) := by
  cases store with
  | missing => exact Or.inl rfl
  | corrupt => exact Or.inl rfl
  | table df =>
    unfold check_candidate_status_in_tracker
    simp only []
    split
    · exact Or.inl rfl
    · split
      · rename_i r1 h1
        obtain ⟨-, hr⟩ := checkTier1_shape _ _ _ _ h1
        right; rcases hr with hr | hr <;> simp [hr]
      · split
        · rename_i r2 h2
          obtain ⟨-, hr⟩ := checkTier2_shape _ _ _ _ _ h2
          right; rcases hr with hr | hr <;> simp [hr]
        · split
          · rename_i r3 h3
            obtain ⟨-, hr⟩ := checkTier3_shape _ _ _ _ _ h3
            right; simp [hr]
          · exact Or.inl rfl

theorem check_found_reason_suffix (cand : Dict) (store : Store) (v : String)
    (h : (check_candidate_status_in_tracker cand store v).found = true) :
    strEndsWith (check_candidate_status_in_tracker cand store v).reason "_same_vendor" = true ∨
      strEndsWith (check_candidate_status_in_tracker cand store v).reason "_different_vendor" = true := by
  rcases check_reason_cases cand store v with hf | hr
  · rw [h] at hf; exact absurd hf (by simp)
  · simp only [List.mem_cons, List.not_mem_nil, or_false] at hr
    rcases hr with hr | hr | hr | hr | hr
    · rw [hr]; exact Or.inl (by decide)
    · rw [hr]; exact Or.inr (by decide)
    · rw [hr]; exact Or.inl (by decide)
    · rw [hr]; exact Or.inr (by decide)
    · rw [hr]; exact Or.inl (by decide)

theorem filter_isEmpty_false_of_any {α : Type} {p q : α → Bool} (l : List α)
    (h : l.any p = true) (himp : ∀ r, p r = true → q r = true) :
    (l.filter q).isEmpty = false := by
  rcases List.any_eq_true.mp h with ⟨r, hr, hp⟩
  have hmem : r ∈ l.filter q := List.mem_filter.mpr ⟨hr, himp r hp⟩
  cases hq : l.filter q with
  | nil => rw [hq] at hmem; exact absurd hmem (by simp)
  | cons a as => rfl

theorem check_table_router (cand : Dict) (df : Table) (v : String) (hne : df.rows.isEmpty = false) :
    check_candidate_status_in_tracker cand (.table df) v =
      (match checkTier1 (normCandField (dictGetD cand "Email_ID" "")) (normVendor v) df with
       | some r => r
       | none =>
         match checkTier2 (normCandField (dictGetD cand "Candidate_Name" ""))
             (normCandPhone (dictGetD cand "Contact_Number" "")) (normVendor v) df with
         | some r => r
         | none =>
           match checkTier3 (normCandField (dictGetD cand "Candidate_Name" ""))
               (normCandPhone (dictGetD cand "Contact_Number" "")) (normVendor v) df with
           | some r => r
           | none => checkNotFound) := by
  unfold check_candidate_status_in_tracker
  simp [hne]

theorem checkTier1_none_no_email (vendorN : String) (df : Table) :
    checkTier1 none vendorN df = none := rfl

theorem checkTier1_none_of_no_match (e vendorN : String) (df : Table)
    (hm : (df.rows.any fun r => !sentinels.contains (rowEmailNorm r) && rowEmailNorm r == e) = false) :
    checkTier1 (some e) vendorN df = none := by
  unfold checkTier1
  simp only []
  split
  · rw [hm]; simp
  · rfl

theorem checkTier1_fires (e vendorN : String) (df : Table)
    (hc : df.cols.contains "Email_ID" = true)
    (hm : (df.rows.any fun r => !sentinels.contains (rowEmailNorm r) && rowEmailNorm r == e) = true) :
    checkTier1 (some e) vendorN df =
      (if df.cols.contains "Vendor_Name" then
        match findSameVendorRow (df.rows.filter (fun r => rowEmailNorm r == e)) vendorN with
        | some row =>
          some ⟨true, some (rowGetD row "Resume_Screening_Status" (some "Unknown")),
                "email_same_vendor", rowGetD row "Profile_Remark" (some "")⟩
        | none =>
          some ⟨true, some (rowGetD ((df.rows.filter (fun r => rowEmailNorm r == e)).headD [])
                  "Resume_Screening_Status" (some "Unknown")),
                "email_different_vendor",
                rowGetD ((df.rows.filter (fun r => rowEmailNorm r == e)).headD []) "Profile_Remark" (some "")⟩
      else
        some ⟨true, some (rowGetD ((df.rows.filter (fun r => rowEmailNorm r == e)).headD [])
                "Resume_Screening_Status" (some "Unknown")),
              "email_different_vendor",
              rowGetD ((df.rows.filter (fun r => rowEmailNorm r == e)).headD []) "Profile_Remark" (some "")⟩) := by
  have hne : (df.rows.filter (fun r => rowEmailNorm r == e)).isEmpty = false :=
    filter_isEmpty_false_of_any df.rows hm (by
      intro r hp
      simp only [Bool.and_eq_true] at hp
      exact hp.2)
  unfold checkTier1
  simp only []
  rw [hc, hm, hne]
  simp

theorem checkTier2_none_of_guard (nameN contactN : Option String) (vendorN : String) (df : Table)
    (h : (truthy nameN && truthy contactN && df.cols.contains "Candidate_Name" &&
          df.cols.contains "Contact_Number") = false) :
    checkTier2 nameN contactN vendorN df = none := by
  unfold checkTier2
  simp only []
  simp only [h, Bool.false_eq_true, if_false]

theorem checkTier2_fires (nameN contactN : Option String) (vendorN : String) (df : Table)
    (hg : (truthy nameN && truthy contactN && df.cols.contains "Candidate_Name" &&
           df.cols.contains "Contact_Number") = true)
    (hm : (df.rows.any fun r => rowValidNamePhone r && rowNameNorm r == nameN.getD "" &&
           rowContactNorm r == contactN.getD "") = true) :
    checkTier2 nameN contactN vendorN df =
      (if df.cols.contains "Vendor_Name" then
        match findSameVendorRow (df.rows.filter (fun r => rowValidNamePhone r &&
            rowNameNorm r == nameN.getD "" && rowContactNorm r == contactN.getD "")) vendorN with
        | some row =>
          some ⟨true, some (rowGetD row "Resume_Screening_Status" (some "Unknown")),
                "name_and_phone_same_vendor", rowGetD row "Profile_Remark" (some "")⟩
        | none =>
          some ⟨true, some (rowGetD ((df.rows.filter (fun r => rowValidNamePhone r &&
                  rowNameNorm r == nameN.getD "" && rowContactNorm r == contactN.getD "")).headD [])
                  "Resume_Screening_Status" (some "Unknown")),
                "name_and_phone_different_vendor",
                rowGetD ((df.rows.filter (fun r => rowValidNamePhone r &&
                  rowNameNorm r == nameN.getD "" && rowContactNorm r == contactN.getD "")).headD [])
                  "Profile_Remark" (some "")⟩
      else
        some ⟨true, some (rowGetD ((df.rows.filter (fun r => rowValidNamePhone r &&
                rowNameNorm r == nameN.getD "" && rowContactNorm r == contactN.getD "")).headD [])
                "Resume_Screening_Status" (some "Unknown")),
              "name_and_phone_different_vendor",
              rowGetD ((df.rows.filter (fun r => rowValidNamePhone r &&
                rowNameNorm r == nameN.getD "" && rowContactNorm r == contactN.getD "")).headD [])
                "Profile_Remark" (some "")⟩) := by
  have hany : df.rows.any rowValidNamePhone = true := by
    rcases List.any_eq_true.mp hm with ⟨r, hr, hp⟩
    simp only [Bool.and_eq_true] at hp
    exact List.any_eq_true.mpr ⟨r, hr, hp.1.1⟩
  have hne : (df.rows.filter (fun r => rowValidNamePhone r && rowNameNorm r == nameN.getD "" &&
      rowContactNorm r == contactN.getD "")).isEmpty = false :=
    filter_isEmpty_false_of_any df.rows hm (fun r hp => hp)
  unfold checkTier2
  rw [hg]
  simp only []
  rw [hany, hne]
  simp

theorem checkTier3_none_of_guard (nameN contactN : Option String) (vendorN : String) (df : Table)
    (h : (truthy nameN && !truthy contactN && decide (vendorN ≠ "") &&
          df.cols.contains "Candidate_Name" && df.cols.contains "Vendor_Name") = false) :
    checkTier3 nameN contactN vendorN df = none := by
  unfold checkTier3
  simp only []
  simp only [h, Bool.false_eq_true, if_false]

theorem checkTier3_some_spec (nameN contactN : Option String) (vendorN : String) (df : Table)
    (r : CheckResult) (h : checkTier3 nameN contactN vendorN df = some r) :
    truthy contactN = false ∧ vendorN ≠ "" ∧
      ∃ row ∈ df.rows, rowNameNorm row = nameN.getD "" ∧ rowVendorNorm row = vendorN := by
  unfold checkTier3 at h
  simp only [] at h
  split at h
  case isFalse => exact absurd h (by simp)
  case isTrue hg =>
    simp only [Bool.and_eq_true, Bool.not_eq_eq_eq_not, Bool.not_true, decide_eq_true_eq] at hg
    split at h
    case isFalse => exact absurd h (by simp)
    case isTrue =>
      split at h
      case isFalse => exact absurd h (by simp)
      case isTrue =>
        split at h
        case h_2 => exact absurd h (by simp)
        case h_1 row hfind =>
          obtain ⟨hmem, hv1, hv2, hv3⟩ := findSameVendorRow_some _ _ _ hfind
          have hmem2 := List.mem_filter.mp hmem
          obtain ⟨⟨⟨⟨hA, hB⟩, hC⟩, hD⟩, hE⟩ := hg
          refine ⟨hB, hC, row, hmem2.1, ?_, hv3⟩
          have := hmem2.2
          simp only [Bool.and_eq_true, beq_iff_eq] at this
          exact this.2

theorem checkTier3_none_of_no_same_vendor (nameN contactN : Option String) (vendorN : String)
    (df : Table)
    (h : ∀ row ∈ df.rows, ¬(vendorN ≠ "" ∧ rowVendorNorm row ≠ "" ∧ vendorN = rowVendorNorm row)) :
    checkTier3 nameN contactN vendorN df = none := by
  unfold checkTier3
  simp only []
  split
  case isFalse => rfl
  case isTrue =>
    split
    case isFalse => rfl
    case isTrue =>
      split
      case isFalse => rfl
      case isTrue =>
        split
        case h_2 => rfl
        case h_1 row heq =>
          obtain ⟨hmem, h1, h2, h3⟩ := findSameVendorRow_some _ _ _ heq
          exact ((h row (List.mem_filter.mp hmem).1) ⟨h1, h2, h3.symm⟩).elim

/-- C5: the identity resolver tries its tiers in strict priority order, stopping
at the first tier that yields any match: tier 1 (normalized exact email
equality) decides alone whenever it fires and is skipped when the candidate
email is empty or a sentinel; tier 2 (normalized name plus normalized phone,
both required non-sentinel on both sides) is consulted only on tier-1
fall-through; tier 3 (name plus vendor) is consulted last, only when the
candidate phone is absent, and only ever reports a same-vendor match against a
row whose vendor equals the non-empty submitting vendor. In particular a
candidate with no email and no phone whose name matches rows stored only by
other vendors resolves as not found (Unique). -/
theorem C5_tiered_matching_priority (cand : Dict) (df : Table) (vendor : String)
    (hne : df.rows.isEmpty = false) :
    let emailN := normCandField (dictGetD cand "Email_ID" "")
    let nameN := normCandField (dictGetD cand "Candidate_Name" "")
    let contactN := normCandPhone (dictGetD cand "Contact_Number" "")
    let vendorN := normVendor vendor
    let res := check_candidate_status_in_tracker cand (.table df) vendor
    (∀ r, checkTier1 emailN vendorN df = some r → res = r) ∧
    (checkTier1 emailN vendorN df = none →
      ∀ r, checkTier2 nameN contactN vendorN df = some r → res = r) ∧
    (checkTier1 emailN vendorN df = none → checkTier2 nameN contactN vendorN df = none →
      ∀ r, checkTier3 nameN contactN vendorN df = some r → res = r) ∧
    (checkTier1 emailN vendorN df = none → checkTier2 nameN contactN vendorN df = none →
      checkTier3 nameN contactN vendorN df = none → res = checkNotFound) ∧
    (emailN = none → checkTier1 emailN vendorN df = none) ∧
    (truthy nameN = false ∨ truthy contactN = false →
      checkTier2 nameN contactN vendorN df = none) ∧
    (truthy contactN = true → checkTier3 nameN contactN vendorN df = none) ∧
    (∀ r, checkTier3 nameN contactN vendorN df = some r →
      vendorN ≠ "" ∧ ∃ row ∈ df.rows, rowNameNorm row = nameN.getD "" ∧
        rowVendorNorm row = vendorN) ∧
    (emailN = none → truthy contactN = false →
      (∀ row ∈ df.rows, rowVendorNorm row ≠ vendorN ∨ vendorN = "") →
      res = checkNotFound) := by
  simp only []
  refine ⟨?_, ?_, ?_, ?_, ?_, ?_, ?_, ?_, ?_⟩
  · intro r h1
    rw [check_table_router cand df vendor hne, h1]
  · intro h1 r h2
    rw [check_table_router cand df vendor hne, h1, h2]
  · intro h1 h2 r h3
    rw [check_table_router cand df vendor hne, h1, h2, h3]
  · intro h1 h2 h3
    rw [check_table_router cand df vendor hne, h1, h2, h3]
  · intro h0
    rw [h0]
    exact checkTier1_none_no_email _ _
  · intro h
    apply checkTier2_none_of_guard
    rcases h with h | h <;> simp [h]
  · intro h
    apply checkTier3_none_of_guard
    simp [h]
  · intro r h
    obtain ⟨-, hv, hrow⟩ := checkTier3_some_spec _ _ _ _ _ h
    exact ⟨hv, hrow⟩
  · intro hE hP hV
    rw [check_table_router cand df vendor hne, hE]
    rw [checkTier1_none_no_email]
    rw [checkTier2_none_of_guard _ _ _ _ (by simp [hP])]
    rw [checkTier3_none_of_no_same_vendor _ _ _ _ ?_]
    intro row hrow hc
    rcases hV row hrow with h | h
    · exact h hc.2.2.symm
    · exact hc.1 h

/-- C5 witness: a candidate with no email and no phone whose name matches a row
stored by a different vendor resolves as not found. -/
theorem C5_witness :
    check_candidate_status_in_tracker [("Candidate_Name", "Jane Doe")]
      (.table ⟨["Vendor_Name", "Candidate_Name"],
        [[("Vendor_Name", some "Beta"), ("Candidate_Name", some "Jane Doe")]]⟩) "acme"
      = checkNotFound := by
  have h := C5_tiered_matching_priority [("Candidate_Name", "Jane Doe")]
    ⟨["Vendor_Name", "Candidate_Name"],
      [[("Vendor_Name", some "Beta"), ("Candidate_Name", some "Jane Doe")]]⟩ "acme" (by decide)
  simp only [] at h
  exact h.2.2.2.2.2.2.2.2 (by decide) (by decide) (by decide)

/-- C6: whenever the identity resolver produces a non-empty match set, the
same-vendor classification wins over different-vendor matches across a mixed
set: if any matched row has the non-empty submitting vendor, the result is the
same-vendor duplicate carrying that row's current status; the different-vendor
classification is returned only when no matched row has the submitting vendor.
Stated for the email tier and the name-plus-phone tier, whose match sets can
contain several rows. -/
theorem C6_same_vendor_wins_mixed_matches (cand : Dict) (df : Table) (vendor : String)
    (hne : df.rows.isEmpty = false)
    (hvcol : df.cols.contains "Vendor_Name" = true) :
    (∀ e, normCandField (dictGetD cand "Email_ID" "") = some e →
      df.cols.contains "Email_ID" = true →
      (df.rows.any fun r => !sentinels.contains (rowEmailNorm r) && rowEmailNorm r == e) = true →
      ((∃ row ∈ df.rows.filter (fun r => rowEmailNorm r == e),
          normVendor vendor ≠ "" ∧ rowVendorNorm row = normVendor vendor) →
        ∃ row ∈ df.rows.filter (fun r => rowEmailNorm r == e),
          rowVendorNorm row = normVendor vendor ∧
          check_candidate_status_in_tracker cand (.table df) vendor =
            ⟨true, some (rowGetD row "Resume_Screening_Status" (some "Unknown")),
             "email_same_vendor", rowGetD row "Profile_Remark" (some "")⟩) ∧
      ((∀ row ∈ df.rows.filter (fun r => rowEmailNorm r == e),
          ¬(normVendor vendor ≠ "" ∧ rowVendorNorm row ≠ "" ∧
            normVendor vendor = rowVendorNorm row)) →
        (check_candidate_status_in_tracker cand (.table df) vendor).reason
          = "email_different_vendor" ∧
        (check_candidate_status_in_tracker cand (.table df) vendor).found = true)) ∧
    (checkTier1 (normCandField (dictGetD cand "Email_ID" "")) (normVendor vendor) df = none →
      (truthy (normCandField (dictGetD cand "Candidate_Name" "")) &&
       truthy (normCandPhone (dictGetD cand "Contact_Number" "")) &&
       df.cols.contains "Candidate_Name" && df.cols.contains "Contact_Number") = true →
      (df.rows.any fun r => rowValidNamePhone r &&
        rowNameNorm r == (normCandField (dictGetD cand "Candidate_Name" "")).getD "" &&
        rowContactNorm r == (normCandPhone (dictGetD cand "Contact_Number" "")).getD "") = true →
      ((∃ row ∈ df.rows.filter (fun r => rowValidNamePhone r &&
          rowNameNorm r == (normCandField (dictGetD cand "Candidate_Name" "")).getD "" &&
          rowContactNorm r == (normCandPhone (dictGetD cand "Contact_Number" "")).getD ""),
          normVendor vendor ≠ "" ∧ rowVendorNorm row = normVendor vendor) →
        ∃ row ∈ df.rows.filter (fun r => rowValidNamePhone r &&
          rowNameNorm r == (normCandField (dictGetD cand "Candidate_Name" "")).getD "" &&
          rowContactNorm r == (normCandPhone (dictGetD cand "Contact_Number" "")).getD ""),
          rowVendorNorm row = normVendor vendor ∧
          check_candidate_status_in_tracker cand (.table df) vendor =
            ⟨true, some (rowGetD row "Resume_Screening_Status" (some "Unknown")),
             "name_and_phone_same_vendor", rowGetD row "Profile_Remark" (some "")⟩) ∧
      ((∀ row ∈ df.rows.filter (fun r => rowValidNamePhone r &&
          rowNameNorm r == (normCandField (dictGetD cand "Candidate_Name" "")).getD "" &&
          rowContactNorm r == (normCandPhone (dictGetD cand "Contact_Number" "")).getD ""),
          ¬(normVendor vendor ≠ "" ∧ rowVendorNorm row ≠ "" ∧
            normVendor vendor = rowVendorNorm row)) →
        (check_candidate_status_in_tracker cand (.table df) vendor).reason
          = "name_and_phone_different_vendor" ∧
        (check_candidate_status_in_tracker cand (.table df) vendor).found = true)) := by
  constructor
  · intro e he hc hm
    have hfire := checkTier1_fires e (normVendor vendor) df hc hm
    rw [hvcol] at hfire
    simp only [if_true] at hfire
    constructor
    · intro hEx
      obtain ⟨row, hmem, hv, hrv⟩ := hEx
      obtain ⟨row0, hfind⟩ := findSameVendorRow_isSome _ _ row hmem hv hrv
      obtain ⟨hmem0, hv0, hrvne0, hrv0⟩ := findSameVendorRow_some _ _ _ hfind
      rw [hfind] at hfire
      refine ⟨row0, hmem0, hrv0, ?_⟩
      rw [check_table_router cand df vendor hne, he, hfire]
    · intro hAll
      have hnone : findSameVendorRow (df.rows.filter (fun r => rowEmailNorm r == e))
          (normVendor vendor) = none := by
        rw [findSameVendorRow_eq_none_iff]
        intro row hrow hcontra
        exact hAll row hrow hcontra
      rw [hnone] at hfire
      rw [check_table_router cand df vendor hne, he, hfire]
      exact ⟨rfl, rfl⟩
  · intro ht1 hg hm
    have hfire := checkTier2_fires _ _ (normVendor vendor) df hg hm
    rw [hvcol] at hfire
    simp only [if_true] at hfire
    constructor
    · intro hEx
      obtain ⟨row, hmem, hv, hrv⟩ := hEx
      obtain ⟨row0, hfind⟩ := findSameVendorRow_isSome _ _ row hmem hv hrv
      obtain ⟨hmem0, hv0, hrvne0, hrv0⟩ := findSameVendorRow_some _ _ _ hfind
      rw [hfind] at hfire
      refine ⟨row0, hmem0, hrv0, ?_⟩
      rw [check_table_router cand df vendor hne, ht1, hfire]
    · intro hAll
      have hnone : findSameVendorRow (df.rows.filter (fun r => rowValidNamePhone r &&
          rowNameNorm r == (normCandField (dictGetD cand "Candidate_Name" "")).getD "" &&
          rowContactNorm r == (normCandPhone (dictGetD cand "Contact_Number" "")).getD ""))
          (normVendor vendor) = none := by
        rw [findSameVendorRow_eq_none_iff]
        intro row hrow hcontra
        exact hAll row hrow hcontra
      rw [hnone] at hfire
      rw [check_table_router cand df vendor hne, ht1, hfire]
      exact ⟨rfl, rfl⟩

/-- C6 witness: a mixed match set (same email stored once from Beta and once from
Acme) classifies an Acme submission as email_same_vendor, returning the Acme
row's status. -/
theorem C6_witness :
    check_candidate_status_in_tracker [("Email_ID", "a@x.com")]
      (.table ⟨["Vendor_Name", "Email_ID", "Resume_Screening_Status", "Profile_Remark"],
        [[("Vendor_Name", some "Beta"), ("Email_ID", some "a@x.com"),
          ("Resume_Screening_Status", some "Shortlisted"), ("Profile_Remark", some "Unique Profile")],
         [("Vendor_Name", some "Acme"), ("Email_ID", some "a@x.com"),
          ("Resume_Screening_Status", some "Rejected"), ("Profile_Remark", some "Duplicate Profile")]]⟩)
      "Acme"
      = ⟨true, some (some "Rejected"), "email_same_vendor", some "Duplicate Profile"⟩ := by
  have h := C6_same_vendor_wins_mixed_matches [("Email_ID", "a@x.com")]
    ⟨["Vendor_Name", "Email_ID", "Resume_Screening_Status", "Profile_Remark"],
      [[("Vendor_Name", some "Beta"), ("Email_ID", some "a@x.com"),
        ("Resume_Screening_Status", some "Shortlisted"), ("Profile_Remark", some "Unique Profile")],
       [("Vendor_Name", some "Acme"), ("Email_ID", some "a@x.com"),
        ("Resume_Screening_Status", some "Rejected"), ("Profile_Remark", some "Duplicate Profile")]]⟩
    "Acme" (by decide) (by decide)
  obtain ⟨row, hmem, hrv, heq⟩ := (h.1 "a@x.com" (by decide) (by decide) (by decide)).1 (by decide)
  rw [heq]
  dsimp only at hmem
  rw [show List.filter (fun r => rowEmailNorm r == "a@x.com")
      ([[("Vendor_Name", some "Beta"), ("Email_ID", some "a@x.com"),
         ("Resume_Screening_Status", some "Shortlisted"), ("Profile_Remark", some "Unique Profile")],
        [("Vendor_Name", some "Acme"), ("Email_ID", some "a@x.com"),
         ("Resume_Screening_Status", some "Rejected"), ("Profile_Remark", some "Duplicate Profile")]] : List Row)
      = [[("Vendor_Name", some "Beta"), ("Email_ID", some "a@x.com"),
          ("Resume_Screening_Status", some "Shortlisted"), ("Profile_Remark", some "Unique Profile")],
         [("Vendor_Name", some "Acme"), ("Email_ID", some "a@x.com"),
          ("Resume_Screening_Status", some "Rejected"), ("Profile_Remark", some "Duplicate Profile")]]
    from by decide] at hmem
  simp only [List.mem_cons, List.not_mem_nil, or_false] at hmem
  rcases hmem with h1 | h1
  · subst h1
    exact absurd hrv (by decide)
  · subst h1
    decide

theorem findSameVendorRow_empty_vendor (M : List Row) : findSameVendorRow M "" = none := by
  rw [findSameVendorRow_eq_none_iff]
  intro row hrow hc
  exact hc.1 rfl

theorem checkTier1_empty_vendor (emailN : Option String) (df : Table) (r : CheckResult)
    (h : checkTier1 emailN "" df = some r) : r.reason = "email_different_vendor" := by
  unfold checkTier1 at h
  cases emailN with
  | none => exact absurd h (by simp)
  | some e =>
    simp only [findSameVendorRow_empty_vendor] at h
    repeat' split at h
    all_goals injection h
    all_goals (rename_i h; subst h; rfl)

theorem checkTier2_empty_vendor (nameN contactN : Option String) (df : Table) (r : CheckResult)
    (h : checkTier2 nameN contactN "" df = some r) :
    r.reason = "name_and_phone_different_vendor" := by
  unfold checkTier2 at h
  simp only [findSameVendorRow_empty_vendor] at h
  repeat' split at h
  all_goals injection h
  all_goals (rename_i h; subst h; rfl)

theorem checkTier3_empty_vendor (nameN contactN : Option String) (df : Table) :
    checkTier3 nameN contactN "" df = none := by
  apply checkTier3_none_of_guard
  simp

theorem check_empty_vendor_reason (cand : Dict) (store : Store) (vendor : String)
    (hv : normVendor vendor = "") :
    (check_candidate_status_in_tracker cand store vendor).reason = "" ∨
    (check_candidate_status_in_tracker cand store vendor).reason = "email_different_vendor" ∨
    (check_candidate_status_in_tracker cand store vendor).reason = "name_and_phone_different_vendor" := by
  cases store with
  | missing => exact Or.inl rfl
  | corrupt => exact Or.inl rfl
  | table df =>
    unfold check_candidate_status_in_tracker
    simp only [hv]
    split
    · exact Or.inl rfl
    · split
      · rename_i r1 h1
        exact Or.inr (Or.inl (checkTier1_empty_vendor _ _ _ h1))
      · split
        · rename_i r2 h2
          exact Or.inr (Or.inr (checkTier2_empty_vendor _ _ _ _ h2))
        · rw [checkTier3_empty_vendor]
          exact Or.inl rfl

theorem dupEmail_empty_vendor (emailN : Option String) (df : Table) :
    ∃ b, dupEmail emailN "" df = .inr b := by
  unfold dupEmail
  cases emailN with
  | none => exact ⟨false, rfl⟩
  | some e =>
    simp only [findSameVendorRow_empty_vendor]
    repeat' split
    all_goals exact ⟨_, rfl⟩

theorem dupNamePhone_empty_vendor (nN cN : String) (df : Table) :
    ∃ b, dupNamePhone nN cN "" df = .inr b := by
  unfold dupNamePhone
  simp only [findSameVendorRow_empty_vendor]
  repeat' split
  all_goals exact ⟨_, rfl⟩

theorem appendDupCheck_empty_vendor (cand : Dict) (vendor : String) (df : Table)
    (hv : normVendor vendor = "") :
    ∃ pr, appendDupCheck cand vendor df = .proceed pr := by
  unfold appendDupCheck
  simp only [hv]
  split
  · exact ⟨_, rfl⟩
  · obtain ⟨b, hb⟩ := dupEmail_empty_vendor (normCandField (dictGetD cand "Email_ID" "")) df
    obtain ⟨b2, hb2⟩ := dupNamePhone_empty_vendor
      ((normCandField (dictGetD cand "Candidate_Name" "")).getD "")
      ((normCandPhone (dictGetD cand "Contact_Number" "")).getD "") df
    rw [hb]
    simp only [hb2]
    have hdec : (decide (("" : String) ≠ "")) = false := by decide
    simp only [hdec, Bool.and_false, Bool.false_eq_true, if_false]
    repeat' split
    all_goals exact ⟨_, rfl⟩

theorem update_found_different_vendor (cand : Dict) (store : Store)
    (tt fb ss avg cv vendor psd today : String) (allow : Bool)
    (hfound : (check_candidate_status_in_tracker cand store vendor).found = true)
    (hs1 : strEndsWith (check_candidate_status_in_tracker cand store vendor).reason "_same_vendor" = false)
    (hs2 : strEndsWith (check_candidate_status_in_tracker cand store vendor).reason "_different_vendor" = true) :
    update_tracker_excel cand tt fb ss avg cv vendor psd today allow store
      = appendRecord cand "Duplicate Profile"
          (if pyLower tt == "shortlisted" then "Shortlisted" else "Rejected")
          tt fb ss avg cv vendor psd today (loadForAppend store) := by
  unfold update_tracker_excel
  simp only [hfound, hs1, hs2, Bool.false_eq_true, if_false, if_true]
  rfl

theorem update_not_found (cand : Dict) (store : Store)
    (tt fb ss avg cv vendor psd today : String) (allow : Bool)
    (hfound : (check_candidate_status_in_tracker cand store vendor).found = false) :
    update_tracker_excel cand tt fb ss avg cv vendor psd today allow store
      = appendPath cand (if pyLower tt == "shortlisted" then "Shortlisted" else "Rejected")
          tt fb ss avg cv vendor psd today false store := by
  unfold update_tracker_excel
  simp only [hfound, Bool.false_eq_true, if_false]

theorem update_found_same_vendor (cand : Dict) (store : Store)
    (tt fb ss avg cv vendor psd today : String) (allow : Bool)
    (hfound : (check_candidate_status_in_tracker cand store vendor).found = true)
    (hs1 : strEndsWith (check_candidate_status_in_tracker cand store vendor).reason "_same_vendor" = true) :
    update_tracker_excel cand tt fb ss avg cv vendor psd today allow store
      = ⟨store, false, (check_candidate_status_in_tracker cand store vendor).reason,
         (check_candidate_status_in_tracker cand store vendor).remark,
         (check_candidate_status_in_tracker cand store vendor).status⟩ := by
  unfold update_tracker_excel
  simp only [hfound, hs1, if_true]

theorem appendPath_proceed (cand : Dict) (store : Store)
    (D tt fb ss avg cv vendor psd today : String) (pr : String)
    (h : appendDupCheck cand vendor (loadForAppend store) = .proceed pr) :
    appendPath cand D tt fb ss avg cv vendor psd today false store
      = appendRecord cand pr D tt fb ss avg cv vendor psd today (loadForAppend store) := by
  unfold appendPath
  simp only [Bool.false_eq_true, if_false, h]

theorem appendPath_blocked (cand : Dict) (store : Store)
    (D tt fb ss avg cv vendor psd today : String) (reason : String) (remark status : Cell)
    (h : appendDupCheck cand vendor (loadForAppend store) = .blocked reason remark status) :
    appendPath cand D tt fb ss avg cv vendor psd today false store
      = ⟨store, false, reason, remark, some status⟩ := by
  unfold appendPath
  simp only [Bool.false_eq_true, if_false, h]

/-- C10: a house submission (empty or whitespace vendor, normalizing to the
empty string) is never blocked as a same-vendor duplicate: the classifier never
returns a reason ending in _same_vendor, update_tracker_excel always appends
(added is always true), a submission whose identity matches stored rows (tiers
1 and 2) is appended as a different-vendor duplicate with remark Duplicate
Profile even when the stored row's vendor is also empty, and a candidate with
no email and no phone resolves as Unique because tier 3 requires a non-empty
submitting vendor. -/
theorem C10_empty_vendor_never_same_vendor_block (cand : Dict) (store : Store) (vendor : String)
    (hv : normVendor vendor = "")
    (tt fb ss avg cv psd today : String) (allow : Bool) :
    strEndsWith (check_candidate_status_in_tracker cand store vendor).reason "_same_vendor" = false ∧
    (update_tracker_excel cand tt fb ss avg cv vendor psd today allow store).added = true ∧
    ((check_candidate_status_in_tracker cand store vendor).found = true →
      (update_tracker_excel cand tt fb ss avg cv vendor psd today allow store).remark
        = some "Duplicate Profile" ∧
      (storeRows (update_tracker_excel cand tt fb ss avg cv vendor psd today allow store).store).length
        = (loadForAppend store).rows.length + 1) ∧
    (normCandField (dictGetD cand "Email_ID" "") = none →
      truthy (normCandPhone (dictGetD cand "Contact_Number" "")) = false →
      (check_candidate_status_in_tracker cand store vendor).found = false) := by
  have hra := check_empty_vendor_reason cand store vendor hv
  have hsame : strEndsWith (check_candidate_status_in_tracker cand store vendor).reason
      "_same_vendor" = false := by
    rcases hra with h | h | h <;> rw [h] <;> decide
  have hdiff : (check_candidate_status_in_tracker cand store vendor).found = true →
      strEndsWith (check_candidate_status_in_tracker cand store vendor).reason
        "_different_vendor" = true := by
    intro hf
    rcases check_reason_cases cand store vendor with h0 | h0
    · rw [hf] at h0; exact absurd h0 (by simp)
    · rcases hra with h | h | h
      · rw [h] at h0; exact absurd h0 (by decide)
      · rw [h]; decide
      · rw [h]; decide
  refine ⟨hsame, ?_, ?_, ?_⟩
  · by_cases hf : (check_candidate_status_in_tracker cand store vendor).found = true
    · rw [update_found_different_vendor cand store tt fb ss avg cv vendor psd today allow hf
        hsame (hdiff hf)]
      exact appendRecord_added ..
    · have hf2 : (check_candidate_status_in_tracker cand store vendor).found = false := by
        cases hx : (check_candidate_status_in_tracker cand store vendor).found
        · rfl
        · exact absurd hx hf
      rw [update_not_found cand store tt fb ss avg cv vendor psd today allow hf2]
      obtain ⟨pr, hpr⟩ := appendDupCheck_empty_vendor cand vendor (loadForAppend store) hv
      rw [appendPath_proceed cand store _ tt fb ss avg cv vendor psd today pr hpr]
      exact appendRecord_added ..
  · intro hf
    rw [update_found_different_vendor cand store tt fb ss avg cv vendor psd today allow hf
      hsame (hdiff hf)]
    exact ⟨appendRecord_remark .., appendRecord_rows_length ..⟩
  · intro hE hP
    cases store with
    | missing => rfl
    | corrupt => rfl
    | table df =>
      cases hne : df.rows.isEmpty
      · rw [check_table_router cand df vendor hne, hE, checkTier1_none_no_email]
        rw [checkTier2_none_of_guard _ _ _ _ (by simp [hP])]
        have h3 : checkTier3 (normCandField (dictGetD cand "Candidate_Name" ""))
            (normCandPhone (dictGetD cand "Contact_Number" "")) (normVendor vendor) df = none := by
          rw [hv]; exact checkTier3_empty_vendor _ _ _
        rw [h3]
        rfl
      · unfold check_candidate_status_in_tracker
        simp [hne, checkNotFound]

/-- C10 witness: resubmitting a stored candidate with an empty vendor, against a
row whose vendor is also empty, is appended as a Duplicate Profile instead of
being blocked. -/
theorem C10_witness :
    (update_tracker_excel [("Email_ID", "a@x.com")] "shortlisted" "" "0" "0" "" "" "" "2026-01-02"
      false (.table ⟨["Vendor_Name", "Email_ID"],
        [[("Vendor_Name", some ""), ("Email_ID", some "a@x.com")]]⟩)).added = true ∧
    (update_tracker_excel [("Email_ID", "a@x.com")] "shortlisted" "" "0" "0" "" "" "" "2026-01-02"
      false (.table ⟨["Vendor_Name", "Email_ID"],
        [[("Vendor_Name", some ""), ("Email_ID", some "a@x.com")]]⟩)).remark
      = some "Duplicate Profile" := by
  have h := C10_empty_vendor_never_same_vendor_block [("Email_ID", "a@x.com")]
    (.table ⟨["Vendor_Name", "Email_ID"],
      [[("Vendor_Name", some ""), ("Email_ID", some "a@x.com")]]⟩) ""
    (by decide) "shortlisted" "" "0" "0" "" "" "2026-01-02" false
  exact ⟨h.2.1, (h.2.2.1 (by decide)).1⟩

theorem find?_cons_true {α : Type} (a : α) (l : List α) (p : α → Bool) (h : p a = true) :
    (a :: l).find? p = some a := by
  simp [List.find?, h]

theorem find?_cons_false {α : Type} (a : α) (l : List α) (p : α → Bool) (h : p a = false) :
    (a :: l).find? p = l.find? p := by
  simp [List.find?, h]

theorem find?_key_map_update (r : Row) (k : String) (v : Cell)
    (hany : r.any (fun p => p.1 == k) = true) :
    (r.map (fun p => if p.1 == k then (k, v) else p)).find? (fun p => p.1 == k) = some (k, v) := by
  induction r with
  | nil => simp at hany
  | cons p ps ih =>
    simp only [List.map_cons]
    by_cases hp : (p.1 == k) = true
    · rw [if_pos hp]
      exact find?_cons_true _ _ _ (by simp)
    · rw [if_neg hp]
      rw [find?_cons_false _ _ _ (by simpa using hp)]
      apply ih
      simp only [List.any_cons, Bool.or_eq_true] at hany
      rcases hany with h | h
      · exact absurd h hp
      · exact h

theorem find?_key_map_other (r : Row) (k k2 : String) (v : Cell) (h : (k2 == k) = false) :
    (r.map (fun p => if p.1 == k then (k, v) else p)).find? (fun p => p.1 == k2)
      = r.find? (fun p => p.1 == k2) := by
  have hne : k2 ≠ k := by
    intro hx
    rw [hx] at h
    simp at h
  induction r with
  | nil => rfl
  | cons p ps ih =>
    simp only [List.map_cons]
    by_cases hp : (p.1 == k) = true
    · rw [if_pos hp]
      have hpk : p.1 = k := by rwa [beq_iff_eq] at hp
      have h1 : ((k, v).1 == k2) = false := by
        simp only [beq_eq_false_iff_ne]
        exact fun hx => hne hx.symm
      have h2 : (p.1 == k2) = false := by
        simp only [beq_eq_false_iff_ne, hpk]
        exact fun hx => hne hx.symm
      rw [find?_cons_false (k, v) (List.map (fun p => if p.1 == k then (k, v) else p) ps)
            (fun q => q.1 == k2) h1,
          find?_cons_false p ps (fun q => q.1 == k2) h2, ih]
    · rw [if_neg hp]
      by_cases hq : (p.1 == k2) = true
      · rw [find?_cons_true p (List.map (fun p => if p.1 == k then (k, v) else p) ps)
              (fun q => q.1 == k2) hq,
            find?_cons_true p ps (fun q => q.1 == k2) hq]
      · rw [find?_cons_false p (List.map (fun p => if p.1 == k then (k, v) else p) ps)
              (fun q => q.1 == k2) (by simpa using hq),
            find?_cons_false p ps (fun q => q.1 == k2) (by simpa using hq), ih]

theorem rowCell_rowSet_self (r : Row) (k : String) (v : Cell) :
    rowCell (rowSet r k v) k = v := by
  unfold rowSet
  by_cases hany : (r.any fun p => p.1 == k) = true
  · rw [if_pos hany]
    unfold rowCell
    rw [find?_key_map_update r k v hany]
  · rw [if_neg hany]
    unfold rowCell
    have hnone : r.find? (fun p => p.1 == k) = none := by
      rw [List.find?_eq_none]
      intro p hp hpk
      exact hany (List.any_eq_true.mpr ⟨p, hp, hpk⟩)
    rw [List.find?_append, hnone]
    simp [List.find?]

theorem rowCell_rowSet_ne (r : Row) (k k2 : String) (v : Cell) (h : k2 ≠ k) :
    rowCell (rowSet r k v) k2 = rowCell r k2 := by
  have hb : (k2 == k) = false := by simpa [beq_eq_false_iff_ne] using h
  unfold rowSet
  by_cases hany : (r.any fun p => p.1 == k) = true
  · rw [if_pos hany]
    unfold rowCell
    rw [find?_key_map_other r k k2 v hb]
  · rw [if_neg hany]
    unfold rowCell
    rw [List.find?_append]
    cases hf : r.find? (fun p => p.1 == k2) with
    | some p => rfl
    | none =>
      simp only [Option.none_orElse]
      rw [find?_cons_false (k, v) [] (fun q => q.1 == k2)
            (by simp only [beq_eq_false_iff_ne]; exact fun hx => h hx.symm)]
      rfl

theorem findIdx?_lt_length_aux {α : Type} (l : List α) (p : α → Bool) :
    ∀ s i, List.findIdx? p l s = some i → i < s + l.length := by
  induction l with
  | nil =>
    intro s i h
    simp [List.findIdx?] at h
  | cons a as ih =>
    intro s i h
    simp only [List.findIdx?] at h
    by_cases hp : p a = true
    · rw [if_pos hp] at h
      injection h
      rename_i h
      subst h
      simp
    · rw [if_neg hp] at h
      have := ih (s + 1) i h
      simp only [List.length_cons]
      omega

theorem findIdx?_lt_length {α : Type} (l : List α) (p : α → Bool) (i : Nat)
    (h : l.findIdx? p = some i) : i < l.length := by
  have := findIdx?_lt_length_aux l p 0 i h
  omega

theorem getD_set_self {α : Type} (l : List α) (i : Nat) (a d : α) (h : i < l.length) :
    (l.set i a).getD i d = a := by
  induction l generalizing i with
  | nil => simp at h
  | cons x xs ih =>
    cases i with
    | zero => rfl
    | succ j =>
      simp only [List.set_cons_succ, List.getD_cons_succ]
      exact ih j (by simpa using h)

theorem getD_set_ne {α : Type} (l : List α) (i j : Nat) (a d : α) (h : j ≠ i) :
    (l.set i a).getD j d = l.getD j d := by
  induction l generalizing i j with
  | nil => simp [List.set]
  | cons x xs ih =>
    cases i with
    | zero =>
      cases j with
      | zero => exact absurd rfl h
      | succ j2 => rfl
    | succ i2 =>
      cases j with
      | zero => rfl
      | succ j2 =>
        simp only [List.set_cons_succ, List.getD_cons_succ]
        exact ih i2 j2 (by omega)

theorem tableSetCell_cols_of_contains (t : Table) (i : Nat) (k : String) (v : Cell)
    (h : t.cols.contains k = true) : (tableSetCell t i k v).cols = t.cols := by
  simp only [tableSetCell, h, if_true]

theorem tableSetCell_rows (t : Table) (i : Nat) (k : String) (v : Cell) :
    (tableSetCell t i k v).rows = t.rows.set i (rowSet (t.rows.getD i []) k v) := rfl

theorem cvMatchIdx_lt_length (df : Table) (e n c : String) (i : Nat)
    (h : cvMatchIdx df e n c = some i) : i < df.rows.length := by
  unfold cvMatchIdx at h
  simp only [] at h
  split at h
  · rename_i j hj
    injection h
    rename_i h
    subst h
    split at hj
    · exact findIdx?_lt_length _ _ _ hj
    · exact absurd hj (by simp)
  · split at h
    · split at h
      · exact findIdx?_lt_length _ _ _ h
      · exact absurd h (by simp)
    · exact absurd h (by simp)

/-- C9: update_cv_conversion_status updates exactly one stored record, the first
row matched by the tiered identity lookup cvMatchIdx (plain normalized email
equality first, then valid name plus phone equality): that row's
CV_Conversion_Status becomes Converted, its CV_Converted_Path becomes the
supplied path when one is given, every other row and every other field of the
matched row is unchanged, the row count never grows (no append), and a missing
file, unparsable file, empty table or failed lookup returns failure with the
store untouched. Hypotheses: the store declares the two conversion columns, as
every engine-written store does. -/
theorem C9_cv_conversion_updates_exactly_one (df : Table) (email name contact path : String)
    (hc1 : df.cols.contains "CV_Conversion_Status" = true)
    (hc2 : df.cols.contains "CV_Converted_Path" = true) :
    update_cv_conversion_status .missing email name contact path = (.missing, false) ∧
    update_cv_conversion_status .corrupt email name contact path = (.corrupt, false) ∧
    (df.rows.isEmpty = true →
      update_cv_conversion_status (.table df) email name contact path = (.table df, false)) ∧
    (df.rows.isEmpty = false → cvMatchIdx df email name contact = none →
      update_cv_conversion_status (.table df) email name contact path = (.table df, false)) ∧
    (∀ i, df.rows.isEmpty = false → cvMatchIdx df email name contact = some i →
      (update_cv_conversion_status (.table df) email name contact path).2 = true ∧
      ∃ t, (update_cv_conversion_status (.table df) email name contact path).1 = .table t ∧
        t.cols = df.cols ∧
        t.rows.length = df.rows.length ∧
        rowCell (t.rows.getD i []) "CV_Conversion_Status" = some "Converted" ∧
        (path ≠ "" → rowCell (t.rows.getD i []) "CV_Converted_Path" = some path) ∧
        (∀ j, j ≠ i → t.rows.getD j [] = df.rows.getD j []) ∧
        (∀ k, k ≠ "CV_Conversion_Status" → k ≠ "CV_Converted_Path" →
          rowCell (t.rows.getD i []) k = rowCell (df.rows.getD i []) k)) := by
  refine ⟨rfl, rfl, ?_, ?_, ?_⟩
  · intro hE
    unfold update_cv_conversion_status
    simp [hE]
  · intro hE hidx
    unfold update_cv_conversion_status
    simp [hE, hidx]
  · intro i hE hidx
    have hlt : i < df.rows.length := cvMatchIdx_lt_length df email name contact i hidx
    unfold update_cv_conversion_status
    simp only [hE, Bool.false_eq_true, if_false, hidx]
    rw [if_pos hc1, if_pos hc2]
    by_cases hp : path = ""
    · rw [if_neg (fun hx => hx hp)]
      refine ⟨by trivial, _, rfl, ?_, ?_, ?_, ?_, ?_, ?_⟩
      · exact tableSetCell_cols_of_contains df i _ _ hc1
      · rw [tableSetCell_rows]
        simp
      · rw [tableSetCell_rows, getD_set_self _ _ _ _ hlt]
        exact rowCell_rowSet_self _ _ _
      · intro hx
        exact absurd hp hx
      · intro j hj
        rw [tableSetCell_rows]
        exact getD_set_ne _ _ _ _ _ hj
      · intro k hk1 hk2
        rw [tableSetCell_rows, getD_set_self _ _ _ _ hlt]
        exact rowCell_rowSet_ne _ _ _ _ hk1
    · rw [if_pos hp]
      have hcols1 : (tableSetCell df i "CV_Conversion_Status" (some "Converted")).cols = df.cols :=
        tableSetCell_cols_of_contains df i _ _ hc1
      have hlen1 : (tableSetCell df i "CV_Conversion_Status" (some "Converted")).rows.length
          = df.rows.length := by
        rw [tableSetCell_rows]; simp
      have hlt1 : i < (tableSetCell df i "CV_Conversion_Status" (some "Converted")).rows.length := by
        rw [hlen1]; exact hlt
      refine ⟨by trivial, _, rfl, ?_, ?_, ?_, ?_, ?_, ?_⟩
      · rw [tableSetCell_cols_of_contains _ i _ _ (by rw [hcols1]; exact hc2), hcols1]
      · rw [tableSetCell_rows]
        simp [hlen1]
      · rw [tableSetCell_rows, getD_set_self _ _ _ _ hlt1]
        rw [rowCell_rowSet_ne _ _ _ _ (by decide)]
        rw [tableSetCell_rows, getD_set_self _ _ _ _ hlt]
        exact rowCell_rowSet_self _ _ _
      · intro hx
        rw [tableSetCell_rows, getD_set_self _ _ _ _ hlt1]
        exact rowCell_rowSet_self _ _ _
      · intro j hj
        rw [tableSetCell_rows, getD_set_ne _ _ _ _ _ hj, tableSetCell_rows,
          getD_set_ne _ _ _ _ _ hj]
      · intro k hk1 hk2
        rw [tableSetCell_rows, getD_set_self _ _ _ _ hlt1]
        rw [rowCell_rowSet_ne _ _ _ _ hk2]
        rw [tableSetCell_rows, getD_set_self _ _ _ _ hlt]
        exact rowCell_rowSet_ne _ _ _ _ hk1

/-- C9 witness: a concrete conversion update marks exactly the matched first row
Converted with the supplied path. -/
theorem C9_witness :
    (update_cv_conversion_status
      (.table ⟨["Email_ID", "CV_Conversion_Status", "CV_Converted_Path"],
        [[("Email_ID", some "a@x.com"), ("CV_Conversion_Status", some ""),
          ("CV_Converted_Path", some "")]]⟩)
      "a@x.com" "" "" "/out/a.pptx").2 = true ∧
    rowCell ((storeRows (update_cv_conversion_status
      (.table ⟨["Email_ID", "CV_Conversion_Status", "CV_Converted_Path"],
        [[("Email_ID", some "a@x.com"), ("CV_Conversion_Status", some ""),
          ("CV_Converted_Path", some "")]]⟩)
      "a@x.com" "" "" "/out/a.pptx").1).getD 0 []) "CV_Conversion_Status" = some "Converted" := by
  have h := C9_cv_conversion_updates_exactly_one
    ⟨["Email_ID", "CV_Conversion_Status", "CV_Converted_Path"],
      [[("Email_ID", some "a@x.com"), ("CV_Conversion_Status", some ""),
        ("CV_Converted_Path", some "")]]⟩
    "a@x.com" "" "" "/out/a.pptx" (by decide) (by decide)
  obtain ⟨h2, t, ht, hcols, hlen, hconv, hpath, hne, hother⟩ :=
    h.2.2.2.2 0 (by decide) (by decide)
  refine ⟨h2, ?_⟩
  unfold storeRows
  rw [ht]
  exact hconv

theorem foldl_invariant_mem {α β : Type} (f : β → α → β) (P : β → Prop) (l : List α)
    (h : ∀ b a, a ∈ l → P b → P (f b a)) (b : β) (hb : P b) : P (l.foldl f b) := by
  induction l generalizing b with
  | nil => exact hb
  | cons a as ih =>
    rw [List.foldl_cons]
    exact ih (fun b2 a2 ha2 hb2 => h b2 a2 (List.mem_cons_of_mem _ ha2) hb2)
      (f b a) (h b a (List.mem_cons_self _ _) hb)

theorem pyInsert_perm {α : Type} (n : Nat) (a : α) (l : List α) :
    (pyInsert n a l).Perm (a :: l) := by
  unfold pyInsert
  calc (l.take n ++ a :: l.drop n).Perm (a :: (l.take n ++ l.drop n)) := List.perm_middle
    _ = a :: l := by rw [List.take_append_drop]

theorem mem_pyInsert {α : Type} (x a : α) (n : Nat) (l : List α) :
    x ∈ pyInsert n a l ↔ x = a ∨ x ∈ l := by
  rw [(pyInsert_perm n a l).mem_iff, List.mem_cons]

theorem getD_map_lt {α β : Type} (l : List α) (f : α → β) (i : Nat) (d : β) (d2 : α)
    (h : i < l.length) : (l.map f).getD i d = f (l.getD i d2) := by
  induction l generalizing i with
  | nil => simp at h
  | cons x xs ih =>
    cases i with
    | zero => rfl
    | succ j =>
      simp only [List.map_cons, List.getD_cons_succ]
      exact ih j (by simpa using h)

theorem getD_append_left {α : Type} (l1 l2 : List α) (i : Nat) (d : α) (h : i < l1.length) :
    (l1 ++ l2).getD i d = l1.getD i d := by
  induction l1 generalizing i with
  | nil => simp at h
  | cons x xs ih =>
    cases i with
    | zero => rfl
    | succ j =>
      simp only [List.cons_append, List.getD_cons_succ]
      exact ih j (by simpa using h)

theorem rowCell_append_ne (r : Row) (c k : String) (v : Cell) (h : k ≠ c) :
    rowCell (r ++ [(c, v)]) k = rowCell r k := by
  unfold rowCell
  rw [List.find?_append]
  cases hf : r.find? (fun p => p.1 == k) with
  | some p => rfl
  | none =>
    simp only [Option.none_orElse]
    rw [find?_cons_false (c, v) [] (fun q => q.1 == k)
          (by simp only [beq_eq_false_iff_ne]; exact fun hx => h hx.symm)]
    rfl

theorem rowCell_cons_true (p : String × Cell) (r : Row) (k : String) (h : (p.1 == k) = true) :
    rowCell (p :: r) k = p.2 := by
  unfold rowCell
  rw [find?_cons_true p r (fun q => q.1 == k) h]

theorem rowCell_cons_false (p : String × Cell) (r : Row) (k : String) (h : (p.1 == k) = false) :
    rowCell (p :: r) k = rowCell r k := by
  unfold rowCell
  rw [find?_cons_false p r (fun q => q.1 == k) h]

theorem rowCell_materialize (cs : List String) (r : Row) (k : String)
    (h : cs.contains k = true) :
    rowCell (cs.map (fun c => (c, rowCell r c))) k = rowCell r k := by
  induction cs with
  | nil => simp at h
  | cons c cs2 ih =>
    simp only [List.map_cons]
    by_cases hc : (c == k) = true
    · rw [rowCell_cons_true _ _ _ (by simpa using hc)]
      have hck : c = k := by rwa [beq_iff_eq] at hc
      rw [hck]
    · rw [rowCell_cons_false _ _ _ (by simpa using hc)]
      apply ih
      simp only [List.contains_cons, Bool.or_eq_true] at h
      rcases h with h | h
      · exfalso
        apply hc
        rw [beq_iff_eq] at h ⊢
        exact h.symm
      · exact h

theorem rowSet_of_not_any (r : Row) (k : String) (v : Cell)
    (h : r.any (fun p => p.1 == k) = false) : rowSet r k v = r ++ [(k, v)] := by
  unfold rowSet
  rw [if_neg (by simp [h])]

theorem eq_of_nodup_keys {r : Row} (hnd : (r.map Prod.fst).Nodup) :
    ∀ p ∈ r, ∀ q ∈ r, p.1 = q.1 → p = q := by
  induction r with
  | nil =>
    intro p hp
    simp at hp
  | cons x xs ih =>
    simp only [List.map_cons, List.nodup_cons] at hnd
    intro p hp q hq hpq
    rcases List.mem_cons.mp hp with hp1 | hp1 <;> rcases List.mem_cons.mp hq with hq1 | hq1
    · rw [hp1, hq1]
    · exfalso
      apply hnd.1
      rw [hp1] at hpq
      rw [hpq]
      exact List.mem_map_of_mem Prod.fst hq1
    · exfalso
      apply hnd.1
      rw [hq1] at hpq
      rw [← hpq]
      exact List.mem_map_of_mem Prod.fst hp1
    · exact ih hnd.2 p hp1 q hq1 hpq

theorem rowSet_eq_self_of (r : Row) (k : String) (v : String)
    (hnd : (r.map Prod.fst).Nodup) (hcell : rowCell r k = some v) :
    rowSet r k (some v) = r := by
  have hq : ∃ q, r.find? (fun p => p.1 == k) = some q ∧ q.2 = some v := by
    unfold rowCell at hcell
    cases hf : r.find? (fun p => p.1 == k) with
    | none => rw [hf] at hcell; simp at hcell
    | some q =>
      rw [hf] at hcell
      exact ⟨q, rfl, hcell⟩
  obtain ⟨q, hf, hqv⟩ := hq
  have hqmem := List.mem_of_find?_eq_some hf
  have hqk : q.1 = k := by
    have := List.find?_some hf
    rwa [beq_iff_eq] at this
  have hany : r.any (fun p => p.1 == k) = true :=
    List.any_eq_true.mpr ⟨q, hqmem, by simp [hqk]⟩
  unfold rowSet
  rw [if_pos hany]
  have hpt : ∀ p ∈ r, (if p.1 == k then (k, (some v : Cell)) else p) = p := by
    intro p hp
    by_cases hpk : (p.1 == k) = true
    · rw [if_pos hpk]
      have hp1 : p.1 = k := by rwa [beq_iff_eq] at hpk
      have hpq : p = q := eq_of_nodup_keys hnd p hp q hqmem (by rw [hp1, hqk])
      rw [hpq]
      exact (Prod.ext (by rw [hqk]) (by rw [hqv])).symm
    · rw [if_neg hpk]
  calc r.map (fun p => if p.1 == k then (k, (some v : Cell)) else p)
      = r.map id := List.map_congr_left hpt
    _ = r := List.map_id r

theorem contains_iff_mem (l : List String) (a : String) : l.contains a = true ↔ a ∈ l :=
  List.elem_iff

theorem getD_mem {α : Type} (l : List α) (i : Nat) (d : α) (h : i < l.length) :
    l.getD i d ∈ l := by
  induction l generalizing i with
  | nil => simp at h
  | cons x xs ih =>
    cases i with
    | zero => exact List.mem_cons_self _ _
    | succ j =>
      simp only [List.getD_cons_succ]
      exact List.mem_cons_of_mem _ (ih j (by simpa using h))

theorem frameExt_refl (t : Table) : FrameExt t t :=
  ⟨Nat.le_refl _, fun _ h => h, fun _ _ _ _ => rfl⟩

theorem frameExt_trans {t1 t2 t3 : Table} (h1 : FrameExt t1 t2) (h2 : FrameExt t2 t3) :
    FrameExt t1 t3 := by
  refine ⟨Nat.le_trans h1.1 h2.1, fun c hc => h2.2.1 c (h1.2.1 c hc), ?_⟩
  intro i hi k hk
  rw [h2.2.2 i (Nat.lt_of_lt_of_le hi h1.1) k (h1.2.1 k hk), h1.2.2 i hi k hk]

theorem setCol_wf_frame (t : Table) (c : String) (w : Cell)
    (hfresh : t.cols.contains c = false) (hwf : TableWF t) :
    TableWF ⟨t.cols ++ [c], t.rows.map (fun r => rowSet r c w)⟩ ∧
    FrameExt t ⟨t.cols ++ [c], t.rows.map (fun r => rowSet r c w)⟩ := by
  obtain ⟨hkb, hrnd, hcnd⟩ := hwf
  have hset : ∀ r ∈ t.rows, rowSet r c w = r ++ [(c, w)] := by
    intro r hr
    apply rowSet_of_not_any
    cases hany : r.any (fun p => p.1 == c) with
    | false => rfl
    | true =>
      obtain ⟨p, hp, hpc⟩ := List.any_eq_true.mp hany
      rw [beq_iff_eq] at hpc
      have := hkb r hr p hp
      rw [hpc] at this
      rw [this] at hfresh
      exact Bool.noConfusion hfresh
  constructor
  · refine ⟨?_, ?_, ?_⟩
    · intro r hr p hp
      obtain ⟨r0, hr0, hr0e⟩ := List.mem_map.mp hr
      rw [hset r0 hr0] at hr0e
      subst hr0e
      rcases List.mem_append.mp hp with hp | hp
      · have := hkb r0 hr0 p hp
        rw [contains_iff_mem] at this ⊢
        exact List.mem_append.mpr (Or.inl this)
      · simp only [List.mem_singleton] at hp
        subst hp
        rw [contains_iff_mem]
        exact List.mem_append.mpr (Or.inr (by simp))
    · intro r hr
      obtain ⟨r0, hr0, hr0e⟩ := List.mem_map.mp hr
      rw [hset r0 hr0] at hr0e
      subst hr0e
      rw [List.map_append]
      rw [List.nodup_append]
      refine ⟨hrnd r0 hr0, by simp, ?_⟩
      intro a ha
      simp only [List.map_cons, List.map_nil, List.mem_singleton]
      intro hb
      rcases List.mem_map.mp ha with ⟨p, hp, hpe⟩
      rw [hb] at hpe
      have := hkb r0 hr0 p hp
      rw [hpe] at this
      rw [this] at hfresh
      exact Bool.noConfusion hfresh
    · rw [List.nodup_append]
      refine ⟨hcnd, by simp, ?_⟩
      intro a ha
      simp only [List.mem_singleton]
      intro hb
      rw [hb] at ha
      rw [← contains_iff_mem] at ha
      rw [ha] at hfresh
      exact Bool.noConfusion hfresh
  · refine ⟨by simp, ?_, ?_⟩
    · intro d hd
      rw [contains_iff_mem] at hd ⊢
      exact List.mem_append.mpr (Or.inl hd)
    · intro i hi k hk
      simp only []
      rw [getD_map_lt t.rows _ i [] [] hi]
      have hmem : t.rows.getD i [] ∈ t.rows := getD_mem t.rows i [] hi
      rw [hset _ hmem]
      apply rowCell_append_ne
      intro he
      rw [he] at hk
      rw [hk] at hfresh
      exact absurd hfresh (by simp)

theorem tableSetColEmpty_eq (t : Table) (c : String) (hfresh : t.cols.contains c = false) :
    tableSetColEmpty t c = ⟨t.cols ++ [c], t.rows.map (fun r => rowSet r c (some ""))⟩ := by
  simp only [tableSetColEmpty, hfresh, Bool.false_eq_true, if_false]

theorem tableSetColFromDict_eq (t : Table) (c : String) (d : Dict)
    (hfresh : t.cols.contains c = false) :
    tableSetColFromDict t c d
      = ⟨t.cols ++ [c], t.rows.map (fun r => rowSet r c (some (dictGetD d c "")))⟩ := by
  simp only [tableSetColFromDict, hfresh, Bool.false_eq_true, if_false]

theorem tableSetColEmpty_wf_frame (t : Table) (c : String)
    (hfresh : t.cols.contains c = false) (hwf : TableWF t) :
    TableWF (tableSetColEmpty t c) ∧ FrameExt t (tableSetColEmpty t c) := by
  rw [tableSetColEmpty_eq t c hfresh]
  exact setCol_wf_frame t c (some "") hfresh hwf

theorem tableSetColFromDict_wf_frame (t : Table) (c : String) (d : Dict)
    (hfresh : t.cols.contains c = false) (hwf : TableWF t) :
    TableWF (tableSetColFromDict t c d) ∧ FrameExt t (tableSetColFromDict t c d) := by
  rw [tableSetColFromDict_eq t c d hfresh]
  exact setCol_wf_frame t c (some (dictGetD d c "")) hfresh hwf

theorem condSetColEmpty_wf_frame (t : Table) (c : String) (hwf : TableWF t) :
    TableWF (if t.cols.contains c then t else tableSetColEmpty t c) ∧
    FrameExt t (if t.cols.contains c then t else tableSetColEmpty t c) := by
  by_cases h : t.cols.contains c = true
  · rw [if_pos h]
    exact ⟨hwf, frameExt_refl t⟩
  · have h2 : t.cols.contains c = false := by
      cases hx : t.cols.contains c
      · rfl
      · exact absurd hx h
    rw [if_neg (by rw [h2]; simp)]
    exact tableSetColEmpty_wf_frame t c h2 hwf

theorem condSetColFromDict_wf_frame (t : Table) (c : String) (d : Dict) (hwf : TableWF t) :
    TableWF (if t.cols.contains c then t else tableSetColFromDict t c d) ∧
    FrameExt t (if t.cols.contains c then t else tableSetColFromDict t c d) := by
  by_cases h : t.cols.contains c = true
  · rw [if_pos h]
    exact ⟨hwf, frameExt_refl t⟩
  · have h2 : t.cols.contains c = false := by
      cases hx : t.cols.contains c
      · rfl
      · exact absurd hx h
    rw [if_neg (by rw [h2]; simp)]
    exact tableSetColFromDict_wf_frame t c d h2 hwf

theorem foldl_wf_frame (f : Table → String → Table) (l : List String)
    (h : ∀ t2 c, c ∈ l → TableWF t2 → TableWF (f t2 c) ∧ FrameExt t2 (f t2 c)) :
    ∀ t : Table, TableWF t → TableWF (l.foldl f t) ∧ FrameExt t (l.foldl f t) := by
  induction l with
  | nil => exact fun t hwf => ⟨hwf, frameExt_refl t⟩
  | cons c cs ih =>
    intro t hwf
    rw [List.foldl_cons]
    obtain ⟨hw1, hf1⟩ := h t c (List.mem_cons_self _ _) hwf
    obtain ⟨hw2, hf2⟩ := ih (fun t2 d hd hw => h t2 d (List.mem_cons_of_mem _ hd) hw) (f t c) hw1
    exact ⟨hw2, frameExt_trans hf1 hf2⟩

theorem foldl_setColEmpty_fresh (l : List String) :
    ∀ t : Table, l.Nodup → (∀ c ∈ l, t.cols.contains c = false) → TableWF t →
      TableWF (l.foldl (fun t c => tableSetColEmpty t c) t) ∧
      FrameExt t (l.foldl (fun t c => tableSetColEmpty t c) t) ∧
      (l.foldl (fun t c => tableSetColEmpty t c) t).cols = t.cols ++ l := by
  induction l with
  | nil => exact fun t _ _ hwf => ⟨hwf, frameExt_refl t, by simp⟩
  | cons c cs ih =>
    intro t hnd hfresh hwf
    rw [List.foldl_cons]
    have hfc := hfresh c (List.mem_cons_self _ _)
    obtain ⟨hw1, hf1⟩ := tableSetColEmpty_wf_frame t c hfc hwf
    have hcols1 : (tableSetColEmpty t c).cols = t.cols ++ [c] := by
      rw [tableSetColEmpty_eq t c hfc]
    rw [List.nodup_cons] at hnd
    have hfresh2 : ∀ d ∈ cs, (tableSetColEmpty t c).cols.contains d = false := by
      intro d hd
      rw [hcols1]
      cases hcd : (t.cols ++ [c]).contains d
      · rfl
      · exfalso
        rw [contains_iff_mem] at hcd
        rcases List.mem_append.mp hcd with h1 | h1
        · rw [← contains_iff_mem] at h1
          rw [hfresh d (List.mem_cons_of_mem _ hd)] at h1
          exact Bool.noConfusion h1
        · simp only [List.mem_singleton] at h1
          rw [h1] at hd
          exact hnd.1 hd
    obtain ⟨hw2, hf2, hc2⟩ := ih (tableSetColEmpty t c) hnd.2 hfresh2 hw1
    refine ⟨hw2, frameExt_trans hf1 hf2, ?_⟩
    rw [hc2, hcols1]
    simp

theorem selectCols_frame (t : Table) (cs : List String)
    (hsub : ∀ k, t.cols.contains k = true → cs.contains k = true) :
    FrameExt t (selectCols t cs) := by
  refine ⟨Nat.le_of_eq (by simp [selectCols]), hsub, ?_⟩
  intro i hi k hk
  simp only [selectCols]
  rw [getD_map_lt t.rows _ i [] [] hi]
  exact rowCell_materialize cs _ k (hsub k hk)

theorem concatTables_frame (df nr : Table) : FrameExt df (concatTables df nr) := by
  refine ⟨by simp [concatTables], ?_, ?_⟩
  · intro c hc
    rw [contains_iff_mem] at hc ⊢
    simp only [concatTables]
    exact List.mem_append.mpr (Or.inl hc)
  · intro i hi k hk
    simp only [concatTables]
    rw [getD_append_left df.rows nr.rows i [] hi]

theorem mem_finalColumnOrder_of_mem (l : List String) (a : String) (h : a ∈ l) :
    a ∈ finalColumnOrder l := by
  unfold finalColumnOrder
  simp only []
  have step1 : a ∈ (first_columns.enum).foldl (fun cs p =>
      if cs.contains p.2 then pyInsert p.1 p.2 (cs.erase p.2) else cs) l := by
    apply foldl_invariant_mem _ (fun cs => a ∈ cs)
    · intro cs p _ hmem
      by_cases hc : cs.contains p.2 = true
      · rw [if_pos hc]
        rw [mem_pyInsert]
        by_cases hap : a = p.2
        · exact Or.inl hap
        · exact Or.inr ((List.mem_erase_of_ne hap).mpr hmem)
      · rw [if_neg hc]
        exact hmem
    · exact h
  have step2 : a ∈ (let cols1 := (first_columns.enum).foldl (fun cs p =>
      if cs.contains p.2 then pyInsert p.1 p.2 (cs.erase p.2) else cs) l
      if cols1.contains "Email_ID" && cols1.contains "Position" then
        if cols1.indexOf "Position" ≠ cols1.indexOf "Email_ID" + 1 then
          pyInsert (cols1.indexOf "Email_ID" + 1) "Position" (cols1.erase "Position")
        else cols1
      else cols1) := by
    simp only []
    split
    · split
      · rw [mem_pyInsert]
        by_cases hap : a = "Position"
        · exact Or.inl hap
        · exact Or.inr ((List.mem_erase_of_ne hap).mpr step1)
      · exact step1
    · exact step1
  by_cases ham : a ∈ manual_columns
  · exact List.mem_append.mpr (Or.inr ham)
  · apply List.mem_append.mpr
    left
    apply foldl_invariant_mem _ (fun cs => a ∈ cs)
    · intro cs c hc hmem
      exact (List.mem_erase_of_ne (fun hac => ham (by rw [hac]; exact hc))).mpr hmem
    · exact step2

theorem erase_fold_first_columns (cs : List String) (hnd : cs.Nodup) :
    first_columns.foldl (fun cs c => cs.erase c) cs
      = cs.filter (fun c => !(first_columns.contains c)) := by
  show ((cs.erase "Vendor_Name").erase "Profile_Shared_Date").erase "Profile_Remark" = _
  rw [hnd.erase_eq_filter, (hnd.filter _).erase_eq_filter, ((hnd.filter _).filter _).erase_eq_filter]
  rw [List.filter_filter, List.filter_filter]
  apply List.filter_congr
  intro c hc
  by_cases e1 : c = "Vendor_Name"
  · subst e1; decide
  by_cases e2 : c = "Profile_Shared_Date"
  · subst e2; decide
  by_cases e3 : c = "Profile_Remark"
  · subst e3; decide
  have b1 : (c == "Vendor_Name") = false := beq_eq_false_iff_ne.mpr e1
  have b2 : (c == "Profile_Shared_Date") = false := beq_eq_false_iff_ne.mpr e2
  have b3 : (c == "Profile_Remark") = false := beq_eq_false_iff_ne.mpr e3
  simp only [first_columns, bne, List.contains_cons, List.contains_nil, b1, b2, b3,
    Bool.not_false, Bool.and_self, Bool.or_false, Bool.or_self, Bool.and_true, Bool.true_and]

theorem foldl_cols_bound (f : Table → String → Table) (l : List String)
    (h : ∀ t2 c, ∀ k, (f t2 c).cols.contains k = true →
      t2.cols.contains k = true ∨ k = c) :
    ∀ t : Table, ∀ k, (l.foldl f t).cols.contains k = true →
      t.cols.contains k = true ∨ k ∈ l := by
  induction l with
  | nil => exact fun t k hk => Or.inl hk
  | cons c cs ih =>
    intro t k hk
    rw [List.foldl_cons] at hk
    rcases ih (f t c) k hk with h1 | h1
    · rcases h t c k h1 with h2 | h2
      · exact Or.inl h2
      · exact Or.inr (by rw [h2]; exact List.mem_cons_self _ _)
    · exact Or.inr (List.mem_cons_of_mem _ h1)

theorem condSetColEmpty_cols_bound (t : Table) (c : String) (k : String)
    (hk : (if t.cols.contains c then t else tableSetColEmpty t c).cols.contains k = true) :
    t.cols.contains k = true ∨ k = c := by
  by_cases h : t.cols.contains c = true
  · rw [if_pos h] at hk
    exact Or.inl hk
  · rw [if_neg h] at hk
    unfold tableSetColEmpty at hk
    split at hk
    · exact Or.inl hk
    · simp only [] at hk
      rw [contains_iff_mem] at hk
      rcases List.mem_append.mp hk with h1 | h1
      · exact Or.inl ((contains_iff_mem _ _).mpr h1)
      · simp only [List.mem_singleton] at h1
        exact Or.inr h1

theorem dictSet_keys_nodup (d : Dict) (k v : String) (h : (dictKeys d).Nodup) :
    (dictKeys (dictSet d k v)).Nodup := by
  unfold dictSet dictKeys
  split
  · have heq : (d.map (fun p => if p.1 == k then (k, v) else p)).map Prod.fst = d.map Prod.fst := by
      rw [List.map_map]
      apply List.map_congr_left
      intro p hp
      show (if p.1 == k then (k, v) else p).1 = p.1
      by_cases hpk : (p.1 == k) = true
      · rw [if_pos hpk]
        exact (beq_iff_eq.mp hpk).symm
      · rw [if_neg hpk]
    rw [heq]
    exact h
  · rename_i hany
    rw [List.map_append]
    rw [List.nodup_append]
    refine ⟨h, by simp, ?_⟩
    intro a ha
    simp only [List.map_cons, List.map_nil, List.mem_singleton]
    intro hb
    apply hany
    obtain ⟨p, hp, hpe⟩ := List.mem_map.mp ha
    refine List.any_eq_true.mpr ⟨p, hp, ?_⟩
    rw [beq_iff_eq, hpe, hb]

theorem enrichCand_keys_nodup (cand : Dict) (pr D tt fb ss avg cv v psd today : String)
    (h : (dictKeys cand).Nodup) :
    (dictKeys (enrichCand cand pr D tt fb ss avg cv v psd today)).Nodup := by
  unfold enrichCand
  apply foldl_invariant_mem _ (fun d => (dictKeys d).Nodup)
  · intro d c _ hd
    exact dictSet_keys_nodup d c "" hd
  · repeat'
      first
      | split
      | apply dictSet_keys_nodup
      | exact h

theorem and_not_split {a b : Bool} (h : (!a && !b) = true) : a = false ∧ b = false := by
  cases a <;> cases b <;> simp_all

theorem loadForAppend_table (t : Table) : loadForAppend (.table t) = schemaFix t := rfl

theorem schemaFix_eq_fold (t : Table) (hleg : NoLegacyCol t) (hdup : DupRemarkConsistent t)
    (hnodup : ∀ r ∈ t.rows, (r.map Prod.fst).Nodup) :
    schemaFix t = manual_columns.foldl
      (fun t c => if t.cols.contains c then t else tableSetColEmpty t c) t := by
  have hleg2 : t.cols.contains "Date_Shortlisted" = false := hleg
  unfold schemaFix
  simp only []
  have hdf1 : (if t.cols.contains "Date_Shortlisted" then
      dropColumn (if !t.cols.contains "Screening_Date" then
        copyColumn t "Date_Shortlisted" "Screening_Date" else t) "Date_Shortlisted"
    else t) = t := by
    rw [if_neg (by rw [hleg2]; simp)]
  rw [hdf1]
  have hmap : t.rows.map (fun r =>
      if pyNorm (cellStr (rowCell r "Profile_Remark")) == "duplicate profile" then
        rowSet r "Resume_Screening_Status" (some "Duplicate Profile")
      else r) = t.rows := by
    calc t.rows.map (fun r =>
        if pyNorm (cellStr (rowCell r "Profile_Remark")) == "duplicate profile" then
          rowSet r "Resume_Screening_Status" (some "Duplicate Profile")
        else r)
        = t.rows.map id := List.map_congr_left (by
          intro r hr
          by_cases hdp : pyNorm (cellStr (rowCell r "Profile_Remark")) = "duplicate profile"
          · rw [if_pos (beq_iff_eq.mpr hdp)]
            exact rowSet_eq_self_of r "Resume_Screening_Status" "Duplicate Profile"
              (hnodup r hr) (hdup r hr hdp)
          · rw [if_neg (fun hb => hdp (beq_iff_eq.mp hb))]
            rfl)
      _ = t.rows := List.map_id t.rows
  split
  · rw [hmap]
  · rfl

theorem schemaFix_spec (t : Table) (hleg : NoLegacyCol t) (hdup : DupRemarkConsistent t)
    (hwf : TableWF t) :
    TableWF (schemaFix t) ∧ FrameExt t (schemaFix t) := by
  rw [schemaFix_eq_fold t hleg hdup hwf.2.1]
  exact foldl_wf_frame _ manual_columns (fun t2 c _ hw => condSetColEmpty_wf_frame t2 c hw) t hwf

theorem mc_nonempty_frame (df0 : Table) (cand : Dict) (ec nc fcols : List String)
    (hec : ec = df0.cols.filter (fun c => !(first_columns.contains c)))
    (hnc : nc = (dictKeys cand).filter (fun c => !(ec.contains c) && !(first_columns.contains c)))
    (hfcols : fcols = first_columns ++ (ec ++ nc).filter (fun c => !(first_columns.contains c)))
    (hwf : TableWF df0) (hnd : (dictKeys cand).Nodup) :
    FrameExt df0 (selectCols (first_columns.foldl
        (fun t c => if t.cols.contains c then t else tableSetColEmpty t c)
        (nc.foldl (fun t c => tableSetColEmpty t c) df0)) fcols) := by
  have hncnd : nc.Nodup := by rw [hnc]; exact hnd.filter _
  have hncfresh : ∀ c ∈ nc, df0.cols.contains c = false := by
    intro c hc
    rw [hnc, List.mem_filter] at hc
    obtain ⟨hc1, hc2⟩ := hc
    have hcb : (!(ec.contains c) && !(first_columns.contains c)) = true := hc2
    obtain ⟨he, hfc⟩ := and_not_split hcb
    cases hdc : df0.cols.contains c
    · rfl
    · exfalso
      have hmem : c ∈ df0.cols := (contains_iff_mem _ _).mp hdc
      have hcec : c ∈ ec := by
        rw [hec]
        refine List.mem_filter.mpr ⟨hmem, ?_⟩
        show (!(first_columns.contains c)) = true
        rw [hfc]
        rfl
      rw [← contains_iff_mem, he] at hcec
      exact Bool.noConfusion hcec
  obtain ⟨hw1, hf1, hc1⟩ := foldl_setColEmpty_fresh nc df0 hncnd hncfresh hwf
  obtain ⟨hw2, hf2⟩ := foldl_wf_frame
    (fun t c => if t.cols.contains c then t else tableSetColEmpty t c) first_columns
    (fun t2 c _ hw => condSetColEmpty_wf_frame t2 c hw)
    (nc.foldl (fun t c => tableSetColEmpty t c) df0) hw1
  have hsub : ∀ k, (first_columns.foldl
      (fun t c => if t.cols.contains c then t else tableSetColEmpty t c)
      (nc.foldl (fun t c => tableSetColEmpty t c) df0)).cols.contains k = true →
      fcols.contains k = true := by
    intro k hk
    have hb := foldl_cols_bound
      (fun t c => if t.cols.contains c then t else tableSetColEmpty t c) first_columns
      (fun t2 c k2 hk2 => condSetColEmpty_cols_bound t2 c k2 hk2)
      (nc.foldl (fun t c => tableSetColEmpty t c) df0) k hk
    rw [hfcols, contains_iff_mem]
    rcases hb with hb | hb
    · rw [hc1, contains_iff_mem] at hb
      rcases List.mem_append.mp hb with hb | hb
      · by_cases hkf : first_columns.contains k = true
        · exact List.mem_append.mpr (Or.inl ((contains_iff_mem _ _).mp hkf))
        · have hkf2 : first_columns.contains k = false := by
            cases h : first_columns.contains k
            · rfl
            · exact absurd h hkf
          apply List.mem_append.mpr
          right
          refine List.mem_filter.mpr ⟨?_, ?_⟩
          · refine List.mem_append.mpr (Or.inl ?_)
            rw [hec]
            refine List.mem_filter.mpr ⟨hb, ?_⟩
            show (!(first_columns.contains k)) = true
            rw [hkf2]
            rfl
          · show (!(first_columns.contains k)) = true
            rw [hkf2]
            rfl
      · have hkf2 : first_columns.contains k = false := by
          have hb2 := hb
          rw [hnc, List.mem_filter] at hb2
          have hcb : (!(ec.contains k) && !(first_columns.contains k)) = true := hb2.2
          exact (and_not_split hcb).2
        apply List.mem_append.mpr
        right
        refine List.mem_filter.mpr ⟨List.mem_append.mpr (Or.inr hb), ?_⟩
        show (!(first_columns.contains k)) = true
        rw [hkf2]
        rfl
    · exact List.mem_append.mpr (Or.inl hb)
  exact frameExt_trans hf1 (frameExt_trans hf2 (selectCols_frame _ fcols hsub))

theorem mergeColumns_fst_frame (df0 nr0 : Table) (cand : Dict)
    (hwf : TableWF df0) (hnd : (dictKeys cand).Nodup) :
    FrameExt df0 (mergeColumns df0 nr0 cand).1 := by
  unfold mergeColumns
  by_cases hne : df0.rows.isEmpty = true
  · rw [if_neg (by rw [hne]; simp)]
    exact frameExt_refl df0
  · have hne2 : df0.rows.isEmpty = false := by
      cases h : df0.rows.isEmpty
      · rfl
      · exact absurd h hne
    rw [if_pos (by rw [hne2]; rfl)]
    simp only []
    exact mc_nonempty_frame df0 cand
      (first_columns.foldl (fun cs c => cs.erase c) df0.cols) _ _
      (erase_fold_first_columns df0.cols hwf.2.2) rfl rfl hwf hnd

theorem appendRecord_frame (cand : Dict) (pr D tt fb ss avg cv v psd today : String) (df : Table)
    (hwf : TableWF df) (hnd : (dictKeys cand).Nodup) :
    ∃ t2 : Table, (appendRecord cand pr D tt fb ss avg cv v psd today df).store = .table t2 ∧
      FrameExt df t2 := by
  have hnd2 := enrichCand_keys_nodup cand pr D tt fb ss avg cv v psd today hnd
  refine ⟨_, rfl, ?_⟩
  exact frameExt_trans (mergeColumns_fst_frame df _ _ hwf hnd2)
    (frameExt_trans (concatTables_frame _ _)
      (selectCols_frame _ _ (fun k hk => by
        rw [contains_iff_mem] at hk ⊢
        exact mem_finalColumnOrder_of_mem _ k hk)))

theorem appendPath_frame (cand : Dict) (D tt fb ss avg cv v psd today : String) (is_diff : Bool)
    (t : Table) (hleg : NoLegacyCol t) (hdup : DupRemarkConsistent t) (hwf : TableWF t)
    (hnd : (dictKeys cand).Nodup) :
    ∃ t2 : Table,
      (appendPath cand D tt fb ss avg cv v psd today is_diff (.table t)).store = .table t2 ∧
      FrameExt t t2 := by
  obtain ⟨hwf2, hfr2⟩ := schemaFix_spec t hleg hdup hwf
  unfold appendPath
  simp only []
  rw [loadForAppend_table]
  by_cases hd : is_diff = true
  · rw [if_pos hd]
    obtain ⟨t2, hs, hf⟩ := appendRecord_frame cand "Duplicate Profile" D tt fb ss avg cv v psd today
      (schemaFix t) hwf2 hnd
    exact ⟨t2, hs, frameExt_trans hfr2 hf⟩
  · rw [if_neg hd]
    cases hout : appendDupCheck cand v (schemaFix t) with
    | blocked reason remark status =>
      exact ⟨t, rfl, frameExt_refl t⟩
    | proceed pr =>
      obtain ⟨t2, hs, hf⟩ := appendRecord_frame cand pr D tt fb ss avg cv v psd today
        (schemaFix t) hwf2 hnd
      exact ⟨t2, hs, frameExt_trans hfr2 hf⟩

/-- C2: a stored record is never mutated by update_tracker_excel outside the
admin-override in-place update. For every call on a well-formed persisted table
(no legacy date column, duplicate-remark rows already carrying the Duplicate
Profile status, as holds for every table the engine itself writes) and every
candidate dict with distinct keys, whatever the vendor, tracker type, flags and
dates, the resulting store is still a table that keeps at least the original
rows, keeps every original column, and agrees with the original table on every
field of every pre-existing row. Together with C1 (which shows the override
branch is unreachable), this covers every call of the function. -/
theorem C2_pre_existing_rows_never_mutated (cand : Dict)
    (tt fb ss avg cv v psd today : String) (allow : Bool) (t : Table)
    (hwf : TableWF t) (hleg : NoLegacyCol t) (hdup : DupRemarkConsistent t)
    (hnd : (dictKeys cand).Nodup) :
    ∃ t2 : Table,
      (update_tracker_excel cand tt fb ss avg cv v psd today allow (.table t)).store = .table t2 ∧
      t.rows.length ≤ t2.rows.length ∧
      (∀ c, t.cols.contains c = true → t2.cols.contains c = true) ∧
      (∀ i, i < t.rows.length → ∀ k, t.cols.contains k = true →
        rowCell (t2.rows.getD i []) k = rowCell (t.rows.getD i []) k) := by
  by_cases hfound : (check_candidate_status_in_tracker cand (.table t) v).found = true
  · rcases check_found_reason_suffix cand (.table t) v hfound with hs1 | hs2
    · rw [update_found_same_vendor cand (.table t) tt fb ss avg cv v psd today allow hfound hs1]
      exact ⟨t, rfl, Nat.le_refl _, fun c hc => hc, fun i hi k hk => rfl⟩
    · by_cases hs1 : strEndsWith (check_candidate_status_in_tracker cand (.table t) v).reason
        "_same_vendor" = true
      · rw [update_found_same_vendor cand (.table t) tt fb ss avg cv v psd today allow hfound hs1]
        exact ⟨t, rfl, Nat.le_refl _, fun c hc => hc, fun i hi k hk => rfl⟩
      · have hs1f : strEndsWith (check_candidate_status_in_tracker cand (.table t) v).reason
            "_same_vendor" = false := by
          cases h : strEndsWith (check_candidate_status_in_tracker cand (.table t) v).reason
            "_same_vendor"
          · rfl
          · exact absurd h hs1
        rw [update_found_different_vendor cand (.table t) tt fb ss avg cv v psd today allow
          hfound hs1f hs2]
        rw [loadForAppend_table]
        obtain ⟨hwf2, hfr2⟩ := schemaFix_spec t hleg hdup hwf
        obtain ⟨t2, hst, hf⟩ := appendRecord_frame cand "Duplicate Profile"
          (if pyLower tt == "shortlisted" then "Shortlisted" else "Rejected")
          tt fb ss avg cv v psd today (schemaFix t) hwf2 hnd
        have hft := frameExt_trans hfr2 hf
        exact ⟨t2, hst, hft.1, hft.2.1, hft.2.2⟩
  · have hfound2 : (check_candidate_status_in_tracker cand (.table t) v).found = false := by
      cases h : (check_candidate_status_in_tracker cand (.table t) v).found
      · rfl
      · exact absurd h hfound
    rw [update_not_found cand (.table t) tt fb ss avg cv v psd today allow hfound2]
    obtain ⟨t2, hst, hf⟩ := appendPath_frame cand
      (if pyLower tt == "shortlisted" then "Shortlisted" else "Rejected")
      tt fb ss avg cv v psd today false t hleg hdup hwf hnd
    exact ⟨t2, hst, hf.1, hf.2.1, hf.2.2⟩

/-- Concrete witness for C2: resubmitting Jane Doe from a different vendor
against a stored one-row table satisfies every hypothesis, and the appended
store preserves the original row untouched. -/
theorem C2_witness :
    TableWF tJane ∧ NoLegacyCol tJane ∧ DupRemarkConsistent tJane ∧
    (dictKeys candJane).Nodup ∧
    (∃ t2 : Table,
      (update_tracker_excel candJane "rejected" "fb" "0.5" "0.5" "" "Beta" "2026-02-01"
        "2026-02-02" false (.table tJane)).store = .table t2 ∧
      tJane.rows.length ≤ t2.rows.length ∧
      (∀ c, tJane.cols.contains c = true → t2.cols.contains c = true) ∧
      (∀ i, i < tJane.rows.length → ∀ k, tJane.cols.contains k = true →
        rowCell (t2.rows.getD i []) k = rowCell (tJane.rows.getD i []) k)) :=
  ⟨by unfold TableWF RowKeysBound; decide, by unfold NoLegacyCol; decide,
   by unfold DupRemarkConsistent; decide, by decide,
   C2_pre_existing_rows_never_mutated candJane "rejected" "fb" "0.5" "0.5" "" "Beta" "2026-02-01"
     "2026-02-02" false tJane (by unfold TableWF RowKeysBound; decide)
     (by unfold NoLegacyCol; decide) (by unfold DupRemarkConsistent; decide) (by decide)⟩

theorem beq_false_symm (a b : String) (h : (a == b) = false) : (b == a) = false := by
  cases hh : b == a with
  | false => rfl
  | true =>
    rw [beq_iff_eq] at hh
    subst hh
    simp at h

theorem dictFind_cons_true (p : String × String) (d : Dict) (k : String)
    (h : (p.1 == k) = true) : dictFind (p :: d) k = some p.2 := by
  unfold dictFind
  rw [find?_cons_true p d (fun q => q.1 == k) h]
  rfl

theorem dictFind_cons_false (p : String × String) (d : Dict) (k : String)
    (h : (p.1 == k) = false) : dictFind (p :: d) k = dictFind d k := by
  unfold dictFind
  rw [find?_cons_false p d (fun q => q.1 == k) h]

theorem dictFind_map_update_self (d : Dict) (k v : String)
    (hany : d.any (fun p => p.1 == k) = true) :
    dictFind (d.map (fun p => if p.1 == k then (k, v) else p)) k = some v := by
  induction d with
  | nil => simp at hany
  | cons p ps ih =>
    simp only [List.map_cons]
    by_cases h : (p.1 == k) = true
    · rw [if_pos h]
      exact dictFind_cons_true (k, v) _ k (by simp)
    · rw [if_neg h]
      have h2 : (p.1 == k) = false := by
        cases hh : p.1 == k
        · rfl
        · exact absurd hh h
      rw [dictFind_cons_false p _ k h2]
      apply ih
      simp only [List.any_cons, h2, Bool.false_or] at hany
      exact hany

theorem dictFind_append_single_self (d : Dict) (k v : String)
    (hnone : d.any (fun p => p.1 == k) = false) :
    dictFind (d ++ [(k, v)]) k = some v := by
  induction d with
  | nil => exact dictFind_cons_true (k, v) [] k (by simp)
  | cons p ps ih =>
    simp only [List.cons_append]
    simp only [List.any_cons] at hnone
    have h1 : (p.1 == k) = false := by
      cases hh : p.1 == k
      · rfl
      · rw [hh] at hnone; simp at hnone
    rw [dictFind_cons_false p _ k h1]
    apply ih
    rw [h1] at hnone
    simpa using hnone

theorem dictFind_dictSet_self (d : Dict) (k v : String) :
    dictFind (dictSet d k v) k = some v := by
  unfold dictSet
  by_cases hany : d.any (fun p => p.1 == k) = true
  · rw [if_pos hany]
    exact dictFind_map_update_self d k v hany
  · have h2 : d.any (fun p => p.1 == k) = false := by
      cases hh : d.any (fun p => p.1 == k)
      · rfl
      · exact absurd hh hany
    rw [if_neg (by rw [h2]; simp)]
    exact dictFind_append_single_self d k v h2

theorem dictFind_dictSet_other (d : Dict) (k v k2 : String) (h : (k2 == k) = false) :
    dictFind (dictSet d k v) k2 = dictFind d k2 := by
  have hk : (k == k2) = false := beq_false_symm k2 k h
  unfold dictSet
  split
  · rename_i hany
    clear hany
    induction d with
    | nil => rfl
    | cons p ps ih =>
      simp only [List.map_cons]
      by_cases hp : (p.1 == k) = true
      · rw [if_pos hp]
        rw [dictFind_cons_false (k, v) _ k2 hk]
        rw [dictFind_cons_false p ps k2 (by rw [beq_iff_eq.mp hp]; exact hk)]
        exact ih
      · rw [if_neg hp]
        by_cases hpk2 : (p.1 == k2) = true
        · rw [dictFind_cons_true p _ k2 hpk2, dictFind_cons_true p ps k2 hpk2]
        · have hpk2f : (p.1 == k2) = false := by
            cases hh : p.1 == k2
            · rfl
            · exact absurd hh hpk2
          rw [dictFind_cons_false p _ k2 hpk2f, dictFind_cons_false p ps k2 hpk2f]
          exact ih
  · rename_i hany
    clear hany
    induction d with
    | nil =>
      simp only [List.nil_append]
      rw [dictFind_cons_false (k, v) [] k2 hk]
    | cons p ps ih =>
      simp only [List.cons_append]
      by_cases hpk2 : (p.1 == k2) = true
      · rw [dictFind_cons_true p _ k2 hpk2, dictFind_cons_true p ps k2 hpk2]
      · have hpk2f : (p.1 == k2) = false := by
          cases hh : p.1 == k2
          · rfl
          · exact absurd hh hpk2
        rw [dictFind_cons_false p _ k2 hpk2f, dictFind_cons_false p ps k2 hpk2f]
        exact ih

theorem dictFind_isSome_iff_mem_keys (d : Dict) (k : String) :
    (dictFind d k).isSome = true ↔ k ∈ dictKeys d := by
  induction d with
  | nil => simp [dictFind, dictKeys]
  | cons p ps ih =>
    by_cases hp : (p.1 == k) = true
    · rw [dictFind_cons_true p ps k hp]
      simp only [Option.isSome_some, true_iff]
      unfold dictKeys
      rw [List.map_cons]
      exact List.mem_cons.mpr (Or.inl (beq_iff_eq.mp hp).symm)
    · have hpf : (p.1 == k) = false := by
        cases hh : p.1 == k
        · rfl
        · exact absurd hh hp
      rw [dictFind_cons_false p ps k hpf]
      unfold dictKeys
      rw [List.map_cons, List.mem_cons]
      constructor
      · intro h
        exact Or.inr (ih.mp h)
      · intro h
        rcases h with h | h
        · exact absurd (beq_iff_eq.mpr h.symm) (by rw [hpf]; simp)
        · exact ih.mpr h

theorem mem_keys_dictSet (d : Dict) (k v k2 : String) :
    k2 ∈ dictKeys (dictSet d k v) ↔ (k2 = k ∨ k2 ∈ dictKeys d) := by
  by_cases hk : k2 = k
  · subst hk
    simp only [true_or, iff_true]
    rw [← dictFind_isSome_iff_mem_keys, dictFind_dictSet_self]
    rfl
  · have hb : (k2 == k) = false := by
      cases hh : k2 == k
      · rfl
      · exact absurd (beq_iff_eq.mp hh) hk
    rw [← dictFind_isSome_iff_mem_keys, dictFind_dictSet_other d k v k2 hb,
      dictFind_isSome_iff_mem_keys]
    simp [hk]

theorem mem_keys_of_dictGetD_ne (d : Dict) (k : String) (h : dictGetD d k "" ≠ "") :
    k ∈ dictKeys d := by
  rw [← dictFind_isSome_iff_mem_keys]
  unfold dictGetD at h
  cases hf : dictFind d k
  · rw [hf] at h
    simp at h
  · rfl

theorem dictFind_foldl_dictSet_other (l : List String) (d : Dict) (w k : String)
    (h : ¬ k ∈ l) :
    dictFind (l.foldl (fun d c => dictSet d c w) d) k = dictFind d k := by
  induction l generalizing d with
  | nil => rfl
  | cons c cs ih =>
    rw [List.foldl_cons]
    rw [ih _ (fun hm => h (List.mem_cons_of_mem _ hm))]
    exact dictFind_dictSet_other d c w k (by
      cases hh : k == c
      · rfl
      · exact absurd (List.mem_cons.mpr (Or.inl (beq_iff_eq.mp hh))) h)

theorem dictFind_foldl_dictSet_mem (l : List String) (w k : String) (h : k ∈ l) :
    ∀ d, dictFind (l.foldl (fun d c => dictSet d c w) d) k = some w := by
  induction l with
  | nil => simp at h
  | cons c cs ih =>
    intro d
    rw [List.foldl_cons]
    by_cases hk : k ∈ cs
    · exact ih hk _
    · have hkc : k = c := by
        rcases List.mem_cons.mp h with h1 | h1
        · exact h1
        · exact absurd h1 hk
      rw [dictFind_foldl_dictSet_other cs _ w k hk]
      rw [hkc]
      exact dictFind_dictSet_self d c w

theorem mem_keys_foldl_dictSet_mono (l : List String) (d : Dict) (w k : String)
    (h : k ∈ dictKeys d) : k ∈ dictKeys (l.foldl (fun d c => dictSet d c w) d) := by
  by_cases hk : k ∈ l
  · rw [← dictFind_isSome_iff_mem_keys, dictFind_foldl_dictSet_mem l w k hk d]
    rfl
  · rw [← dictFind_isSome_iff_mem_keys, dictFind_foldl_dictSet_other l d w k hk,
      dictFind_isSome_iff_mem_keys]
    exact h

theorem mem_keys_foldl_dictSet_of_mem (l : List String) (d : Dict) (w k : String)
    (h : k ∈ l) : k ∈ dictKeys (l.foldl (fun d c => dictSet d c w) d) := by
  rw [← dictFind_isSome_iff_mem_keys, dictFind_foldl_dictSet_mem l w k h d]
  rfl

theorem dictFind_ite (c : Prop) [Decidable c] (d1 d2 : Dict) (k : String) :
    dictFind (if c then d1 else d2) k = if c then dictFind d1 k else dictFind d2 k := by
  split <;> rfl

theorem if_ne_empty_self (v : String) : (if v ≠ "" then v else "") = v := by
  split
  · rfl
  · rename_i h
    simp only [ne_eq, not_not] at h
    rw [h]

theorem dictFind_enrich_untouched (cand : Dict) (pr D tt fb ss avg cv v psd today k : String)
    (h1 : (k == "Vendor_Name") = false) (h2 : (k == "Profile_Shared_Date") = false)
    (h3 : (k == "Profile_Remark") = false) (h4 : (k == "Resume_Screening_Feedback") = false)
    (h5 : (k == "Similarity_Score") = false) (h6 : (k == "Average_Score") = false)
    (h7 : (k == "Shortlisted_CV_Path") = false) (h8 : (k == "Resume_Screening_Status") = false)
    (h9 : (k == "Screening_Date") = false) (h10 : (k == "Position") = false)
    (hm : ¬ k ∈ manual_columns) :
    dictFind (enrichCand cand pr D tt fb ss avg cv v psd today) k = dictFind cand k := by
  unfold enrichCand
  simp only []
  rw [dictFind_foldl_dictSet_other manual_columns _ "" k hm]
  rw [dictFind_ite]
  rw [dictFind_dictSet_other _ "Position" "Not Found" k h10]
  rw [ite_self]
  rw [dictFind_dictSet_other _ "Screening_Date" _ k h9,
    dictFind_dictSet_other _ "Resume_Screening_Status" _ k h8]
  rw [ite_self]
  rw [dictFind_ite]
  rw [dictFind_dictSet_other _ "Shortlisted_CV_Path" _ k h7]
  rw [dictFind_dictSet_other _ "Shortlisted_CV_Path" _ k h7]
  rw [ite_self]
  rw [dictFind_dictSet_other _ "Average_Score" _ k h6,
    dictFind_dictSet_other _ "Similarity_Score" _ k h5,
    dictFind_dictSet_other _ "Resume_Screening_Feedback" _ k h4,
    dictFind_dictSet_other _ "Profile_Remark" _ k h3,
    dictFind_dictSet_other _ "Profile_Shared_Date" _ k h2,
    dictFind_dictSet_other _ "Vendor_Name" _ k h1]

theorem enrichCand_find_vendor (cand : Dict) (pr D tt fb ss avg cv v psd today : String) :
    dictFind (enrichCand cand pr D tt fb ss avg cv v psd today) "Vendor_Name" = some v := by
  unfold enrichCand
  simp only []
  rw [dictFind_foldl_dictSet_other manual_columns _ "" "Vendor_Name" (by decide)]
  rw [dictFind_ite]
  rw [dictFind_dictSet_other _ "Position" "Not Found" "Vendor_Name" (by decide)]
  rw [ite_self]
  rw [dictFind_dictSet_other _ "Screening_Date" _ "Vendor_Name" (by decide),
    dictFind_dictSet_other _ "Resume_Screening_Status" _ "Vendor_Name" (by decide)]
  rw [ite_self]
  rw [dictFind_ite]
  rw [dictFind_dictSet_other _ "Shortlisted_CV_Path" _ "Vendor_Name" (by decide)]
  rw [dictFind_dictSet_other _ "Shortlisted_CV_Path" _ "Vendor_Name" (by decide)]
  rw [ite_self]
  rw [dictFind_dictSet_other _ "Average_Score" _ "Vendor_Name" (by decide),
    dictFind_dictSet_other _ "Similarity_Score" _ "Vendor_Name" (by decide),
    dictFind_dictSet_other _ "Resume_Screening_Feedback" _ "Vendor_Name" (by decide),
    dictFind_dictSet_other _ "Profile_Remark" _ "Vendor_Name" (by decide),
    dictFind_dictSet_other _ "Profile_Shared_Date" _ "Vendor_Name" (by decide)]
  rw [dictFind_dictSet_self cand "Vendor_Name" _]
  rw [if_ne_empty_self]

theorem enrichCand_find_shared_date (cand : Dict) (pr D tt fb ss avg cv v psd today : String) :
    dictFind (enrichCand cand pr D tt fb ss avg cv v psd today) "Profile_Shared_Date"
      = some psd := by
  unfold enrichCand
  simp only []
  rw [dictFind_foldl_dictSet_other manual_columns _ "" "Profile_Shared_Date" (by decide)]
  rw [dictFind_ite]
  rw [dictFind_dictSet_other _ "Position" "Not Found" "Profile_Shared_Date" (by decide)]
  rw [ite_self]
  rw [dictFind_dictSet_other _ "Screening_Date" _ "Profile_Shared_Date" (by decide),
    dictFind_dictSet_other _ "Resume_Screening_Status" _ "Profile_Shared_Date" (by decide)]
  rw [ite_self]
  rw [dictFind_ite]
  rw [dictFind_dictSet_other _ "Shortlisted_CV_Path" _ "Profile_Shared_Date" (by decide)]
  rw [dictFind_dictSet_other _ "Shortlisted_CV_Path" _ "Profile_Shared_Date" (by decide)]
  rw [ite_self]
  rw [dictFind_dictSet_other _ "Average_Score" _ "Profile_Shared_Date" (by decide),
    dictFind_dictSet_other _ "Similarity_Score" _ "Profile_Shared_Date" (by decide),
    dictFind_dictSet_other _ "Resume_Screening_Feedback" _ "Profile_Shared_Date" (by decide),
    dictFind_dictSet_other _ "Profile_Remark" _ "Profile_Shared_Date" (by decide)]
  rw [dictFind_dictSet_self _ "Profile_Shared_Date" _]
  rw [if_ne_empty_self]

theorem enrichCand_find_remark (cand : Dict) (pr D tt fb ss avg cv v psd today : String) :
    dictFind (enrichCand cand pr D tt fb ss avg cv v psd today) "Profile_Remark" = some pr := by
  unfold enrichCand
  simp only []
  rw [dictFind_foldl_dictSet_other manual_columns _ "" "Profile_Remark" (by decide)]
  rw [dictFind_ite]
  rw [dictFind_dictSet_other _ "Position" "Not Found" "Profile_Remark" (by decide)]
  rw [ite_self]
  rw [dictFind_dictSet_other _ "Screening_Date" _ "Profile_Remark" (by decide),
    dictFind_dictSet_other _ "Resume_Screening_Status" _ "Profile_Remark" (by decide)]
  rw [ite_self]
  rw [dictFind_ite]
  rw [dictFind_dictSet_other _ "Shortlisted_CV_Path" _ "Profile_Remark" (by decide)]
  rw [dictFind_dictSet_other _ "Shortlisted_CV_Path" _ "Profile_Remark" (by decide)]
  rw [ite_self]
  rw [dictFind_dictSet_other _ "Average_Score" _ "Profile_Remark" (by decide),
    dictFind_dictSet_other _ "Similarity_Score" _ "Profile_Remark" (by decide),
    dictFind_dictSet_other _ "Resume_Screening_Feedback" _ "Profile_Remark" (by decide)]
  rw [dictFind_dictSet_self _ "Profile_Remark" _]

theorem enrichCand_find_status (cand : Dict) (pr D tt fb ss avg cv v psd today : String) :
    dictFind (enrichCand cand pr D tt fb ss avg cv v psd today) "Resume_Screening_Status"
      = some (if pr == "Duplicate Profile" then "Duplicate Profile" else D) := by
  unfold enrichCand
  simp only []
  rw [dictFind_foldl_dictSet_other manual_columns _ "" "Resume_Screening_Status" (by decide)]
  rw [dictFind_ite]
  rw [dictFind_dictSet_other _ "Position" "Not Found" "Resume_Screening_Status" (by decide)]
  rw [ite_self]
  rw [dictFind_dictSet_other _ "Screening_Date" _ "Resume_Screening_Status" (by decide)]
  rw [dictFind_dictSet_self _ "Resume_Screening_Status" _]

theorem dictHas_iff_mem_keys (d : Dict) (k : String) : dictHas d k = true ↔ k ∈ dictKeys d := by
  unfold dictHas dictKeys
  rw [List.any_eq_true]
  constructor
  · intro hp
    obtain ⟨p, hp, hpk⟩ := hp
    exact List.mem_map.mpr ⟨p, hp, beq_iff_eq.mp hpk⟩
  · intro hk
    obtain ⟨p, hp, hpk⟩ := List.mem_map.mp hk
    exact ⟨p, hp, beq_iff_eq.mpr (congrArg id hpk)⟩

theorem enrichCand_find_feedback (cand : Dict) (pr D tt fb ss avg cv v psd today : String) :
    dictFind (enrichCand cand pr D tt fb ss avg cv v psd today) "Resume_Screening_Feedback"
      = some fb := by
  unfold enrichCand
  simp only []
  rw [dictFind_foldl_dictSet_other manual_columns _ "" "Resume_Screening_Feedback" (by decide)]
  rw [dictFind_ite]
  rw [dictFind_dictSet_other _ "Position" "Not Found" "Resume_Screening_Feedback" (by decide)]
  rw [ite_self]
  rw [dictFind_dictSet_other _ "Screening_Date" _ "Resume_Screening_Feedback" (by decide),
    dictFind_dictSet_other _ "Resume_Screening_Status" _ "Resume_Screening_Feedback" (by decide)]
  rw [ite_self]
  rw [dictFind_ite]
  rw [dictFind_dictSet_other _ "Shortlisted_CV_Path" _ "Resume_Screening_Feedback" (by decide)]
  rw [dictFind_dictSet_other _ "Shortlisted_CV_Path" _ "Resume_Screening_Feedback" (by decide)]
  rw [ite_self]
  rw [dictFind_dictSet_other _ "Average_Score" _ "Resume_Screening_Feedback" (by decide),
    dictFind_dictSet_other _ "Similarity_Score" _ "Resume_Screening_Feedback" (by decide)]
  rw [dictFind_dictSet_self _ "Resume_Screening_Feedback" _]

theorem enrichCand_find_similarity (cand : Dict) (pr D tt fb ss avg cv v psd today : String) :
    dictFind (enrichCand cand pr D tt fb ss avg cv v psd today) "Similarity_Score"
      = some ss := by
  unfold enrichCand
  simp only []
  rw [dictFind_foldl_dictSet_other manual_columns _ "" "Similarity_Score" (by decide)]
  rw [dictFind_ite]
  rw [dictFind_dictSet_other _ "Position" "Not Found" "Similarity_Score" (by decide)]
  rw [ite_self]
  rw [dictFind_dictSet_other _ "Screening_Date" _ "Similarity_Score" (by decide),
    dictFind_dictSet_other _ "Resume_Screening_Status" _ "Similarity_Score" (by decide)]
  rw [ite_self]
  rw [dictFind_ite]
  rw [dictFind_dictSet_other _ "Shortlisted_CV_Path" _ "Similarity_Score" (by decide)]
  rw [dictFind_dictSet_other _ "Shortlisted_CV_Path" _ "Similarity_Score" (by decide)]
  rw [ite_self]
  rw [dictFind_dictSet_other _ "Average_Score" _ "Similarity_Score" (by decide)]
  rw [dictFind_dictSet_self _ "Similarity_Score" _]

theorem enrichCand_find_average (cand : Dict) (pr D tt fb ss avg cv v psd today : String) :
    dictFind (enrichCand cand pr D tt fb ss avg cv v psd today) "Average_Score"
      = some avg := by
  unfold enrichCand
  simp only []
  rw [dictFind_foldl_dictSet_other manual_columns _ "" "Average_Score" (by decide)]
  rw [dictFind_ite]
  rw [dictFind_dictSet_other _ "Position" "Not Found" "Average_Score" (by decide)]
  rw [ite_self]
  rw [dictFind_dictSet_other _ "Screening_Date" _ "Average_Score" (by decide),
    dictFind_dictSet_other _ "Resume_Screening_Status" _ "Average_Score" (by decide)]
  rw [ite_self]
  rw [dictFind_ite]
  rw [dictFind_dictSet_other _ "Shortlisted_CV_Path" _ "Average_Score" (by decide)]
  rw [dictFind_dictSet_other _ "Shortlisted_CV_Path" _ "Average_Score" (by decide)]
  rw [ite_self]
  rw [dictFind_dictSet_self _ "Average_Score" _]

theorem enrichCand_find_cvpath (cand : Dict) (pr D tt fb ss avg cv v psd today : String) :
    dictFind (enrichCand cand pr D tt fb ss avg cv v psd today) "Shortlisted_CV_Path"
      = some (if pyLower tt == "shortlisted" && cv ≠ "" then cv else "") := by
  unfold enrichCand
  simp only []
  rw [dictFind_foldl_dictSet_other manual_columns _ "" "Shortlisted_CV_Path" (by decide)]
  rw [dictFind_ite]
  rw [dictFind_dictSet_other _ "Position" "Not Found" "Shortlisted_CV_Path" (by decide)]
  rw [ite_self]
  rw [dictFind_dictSet_other _ "Screening_Date" _ "Shortlisted_CV_Path" (by decide),
    dictFind_dictSet_other _ "Resume_Screening_Status" _ "Shortlisted_CV_Path" (by decide)]
  rw [ite_self]
  rw [dictFind_ite]
  rw [dictFind_dictSet_self _ "Shortlisted_CV_Path" _]
  rw [dictFind_dictSet_self _ "Shortlisted_CV_Path" _]
  split
  · rfl
  · rfl

theorem enrichCand_find_screening_date (cand : Dict) (pr D tt fb ss avg cv v psd today : String) :
    dictFind (enrichCand cand pr D tt fb ss avg cv v psd today) "Screening_Date"
      = some today := by
  unfold enrichCand
  simp only []
  rw [dictFind_foldl_dictSet_other manual_columns _ "" "Screening_Date" (by decide)]
  rw [dictFind_ite]
  rw [dictFind_dictSet_other _ "Position" "Not Found" "Screening_Date" (by decide)]
  rw [ite_self]
  rw [dictFind_dictSet_self _ "Screening_Date" _]

theorem position_ite_isSome (d : Dict) (k v : String) :
    (if dictHas d k = true then dictFind d k else some v).isSome = true := by
  split
  · rename_i h
    rw [dictFind_isSome_iff_mem_keys]
    exact (dictHas_iff_mem_keys _ _).mp h
  · rfl

theorem enrichCand_find_position_isSome (cand : Dict) (pr D tt fb ss avg cv v psd today : String) :
    (dictFind (enrichCand cand pr D tt fb ss avg cv v psd today) "Position").isSome = true := by
  unfold enrichCand
  simp only []
  rw [dictFind_foldl_dictSet_other manual_columns _ "" "Position" (by decide)]
  rw [dictFind_ite]
  rw [dictFind_dictSet_self _ "Position" _]
  exact position_ite_isSome _ "Position" "Not Found"

theorem enrichCand_keys_mono (cand : Dict) (pr D tt fb ss avg cv v psd today k : String)
    (h : k ∈ dictKeys cand) :
    k ∈ dictKeys (enrichCand cand pr D tt fb ss avg cv v psd today) := by
  by_cases hm : k ∈ manual_columns
  · unfold enrichCand
    simp only []
    exact mem_keys_foldl_dictSet_of_mem manual_columns _ "" k hm
  by_cases e1 : k = "Vendor_Name"
  · subst e1
    rw [← dictFind_isSome_iff_mem_keys, enrichCand_find_vendor]
    rfl
  by_cases e2 : k = "Profile_Shared_Date"
  · subst e2
    rw [← dictFind_isSome_iff_mem_keys, enrichCand_find_shared_date]
    rfl
  by_cases e3 : k = "Profile_Remark"
  · subst e3
    rw [← dictFind_isSome_iff_mem_keys, enrichCand_find_remark]
    rfl
  by_cases e4 : k = "Resume_Screening_Feedback"
  · subst e4
    rw [← dictFind_isSome_iff_mem_keys, enrichCand_find_feedback]
    rfl
  by_cases e5 : k = "Similarity_Score"
  · subst e5
    rw [← dictFind_isSome_iff_mem_keys, enrichCand_find_similarity]
    rfl
  by_cases e6 : k = "Average_Score"
  · subst e6
    rw [← dictFind_isSome_iff_mem_keys, enrichCand_find_average]
    rfl
  by_cases e7 : k = "Shortlisted_CV_Path"
  · subst e7
    rw [← dictFind_isSome_iff_mem_keys, enrichCand_find_cvpath]
    rfl
  by_cases e8 : k = "Resume_Screening_Status"
  · subst e8
    rw [← dictFind_isSome_iff_mem_keys, enrichCand_find_status]
    rfl
  by_cases e9 : k = "Screening_Date"
  · subst e9
    rw [← dictFind_isSome_iff_mem_keys, enrichCand_find_screening_date]
    rfl
  by_cases e10 : k = "Position"
  · subst e10
    rw [← dictFind_isSome_iff_mem_keys]
    exact enrichCand_find_position_isSome cand pr D tt fb ss avg cv v psd today
  rw [← dictFind_isSome_iff_mem_keys,
    dictFind_enrich_untouched cand pr D tt fb ss avg cv v psd today k
      (beq_false_of_ne e1) (beq_false_of_ne e2) (beq_false_of_ne e3)
      (beq_false_of_ne e4) (beq_false_of_ne e5) (beq_false_of_ne e6)
      (beq_false_of_ne e7) (beq_false_of_ne e8) (beq_false_of_ne e9)
      (beq_false_of_ne e10) hm,
    dictFind_isSome_iff_mem_keys]
  exact h

theorem enrichCand_mem_manual (cand : Dict) (pr D tt fb ss avg cv v psd today k : String)
    (h : k ∈ manual_columns) :
    k ∈ dictKeys (enrichCand cand pr D tt fb ss avg cv v psd today) := by
  unfold enrichCand
  simp only []
  exact mem_keys_foldl_dictSet_of_mem manual_columns _ "" k h

theorem enrichCand_mem_first_columns (cand : Dict) (pr D tt fb ss avg cv v psd today k : String)
    (h : k ∈ first_columns) :
    k ∈ dictKeys (enrichCand cand pr D tt fb ss avg cv v psd today) := by
  simp only [first_columns, List.mem_cons, List.not_mem_nil, or_false] at h
  rcases h with h | h | h
  · subst h
    rw [← dictFind_isSome_iff_mem_keys, enrichCand_find_vendor]
    rfl
  · subst h
    rw [← dictFind_isSome_iff_mem_keys, enrichCand_find_shared_date]
    rfl
  · subst h
    rw [← dictFind_isSome_iff_mem_keys, enrichCand_find_remark]
    rfl

theorem enrichCand_mem_status (cand : Dict) (pr D tt fb ss avg cv v psd today : String) :
    "Resume_Screening_Status" ∈ dictKeys (enrichCand cand pr D tt fb ss avg cv v psd today) := by
  rw [← dictFind_isSome_iff_mem_keys, enrichCand_find_status]
  rfl

theorem rowCell_map_some (d : Dict) (k : String) :
    rowCell (d.map (fun p => (p.1, some p.2))) k = dictFind d k := by
  induction d with
  | nil => rfl
  | cons p ps ih =>
    simp only [List.map_cons]
    by_cases h : (p.1 == k) = true
    · rw [rowCell_cons_true (p.1, some p.2) _ k h]
      rw [dictFind_cons_true p ps k h]
    · have hf : (p.1 == k) = false := by
        cases hh : p.1 == k
        · rfl
        · exact absurd hh h
      rw [rowCell_cons_false (p.1, some p.2) _ k hf]
      rw [dictFind_cons_false p ps k hf]
      exact ih

theorem dictToTable_nrok (d : Dict) : NrOk d (dictToTable d) := by
  refine ⟨_, rfl, ?_⟩
  intro k hk
  rw [rowCell_map_some]
  have hmem : k ∈ dictKeys d := (contains_iff_mem _ _).mp hk
  rw [← dictFind_isSome_iff_mem_keys] at hmem
  cases hf : dictFind d k with
  | none => rw [hf] at hmem; exact absurd hmem (by simp)
  | some x =>
    unfold dictGetD
    rw [hf]
    rfl

theorem tableSetColFromDict_nrok (t : Table) (c : String) (d : Dict) (h : NrOk d t) :
    NrOk d (tableSetColFromDict t c d) := by
  obtain ⟨r, hr, hcells⟩ := h
  refine ⟨rowSet r c (some (dictGetD d c "")), ?_, ?_⟩
  · unfold tableSetColFromDict
    simp only []
    rw [hr]
    rfl
  · intro k hk
    by_cases hkc : k = c
    · subst hkc
      rw [rowCell_rowSet_self]
    · rw [rowCell_rowSet_ne r c k _ hkc]
      apply hcells
      unfold tableSetColFromDict at hk
      simp only [] at hk
      split at hk
      · exact hk
      · rw [contains_iff_mem] at hk ⊢
        rcases List.mem_append.mp hk with h1 | h1
        · exact h1
        · simp only [List.mem_singleton] at h1
          exact absurd h1 hkc

theorem selectCols_nrok (t : Table) (cs : List String) (d : Dict) (h : NrOk d t)
    (hsub : ∀ c, cs.contains c = true → t.cols.contains c = true) :
    NrOk d (selectCols t cs) := by
  obtain ⟨r, hr, hcells⟩ := h
  refine ⟨cs.map (fun c => (c, rowCell r c)), ?_, ?_⟩
  · unfold selectCols
    simp only []
    rw [hr]
    rfl
  · intro k hk
    rw [rowCell_materialize cs r k hk]
    exact hcells k (hsub k hk)

theorem tableSetColFromDict_cols_mono (t : Table) (c : String) (d : Dict) (k : String)
    (h : t.cols.contains k = true) : (tableSetColFromDict t c d).cols.contains k = true := by
  unfold tableSetColFromDict
  simp only []
  split
  · exact h
  · rw [contains_iff_mem] at h ⊢
    exact List.mem_append.mpr (Or.inl h)

theorem tableSetColFromDict_cols_self (t : Table) (c : String) (d : Dict) :
    (tableSetColFromDict t c d).cols.contains c = true := by
  unfold tableSetColFromDict
  simp only []
  split
  · rename_i h
    exact h
  · rw [contains_iff_mem]
    exact List.mem_append.mpr (Or.inr (by simp))

theorem foldl_condSetColFromDict_spec (l : List String) (d : Dict) :
    ∀ t, NrOk d t →
      NrOk d (l.foldl (fun t c => if t.cols.contains c then t else tableSetColFromDict t c d) t) ∧
      (∀ k, t.cols.contains k = true →
        (l.foldl (fun t c => if t.cols.contains c then t
          else tableSetColFromDict t c d) t).cols.contains k = true) ∧
      (∀ c ∈ l,
        (l.foldl (fun t c => if t.cols.contains c then t
          else tableSetColFromDict t c d) t).cols.contains c = true) := by
  induction l with
  | nil => exact fun t h => ⟨h, fun k hk => hk, fun c hc => absurd hc (by simp)⟩
  | cons c cs ih =>
    intro t h
    rw [List.foldl_cons]
    have hstep : NrOk d (if t.cols.contains c then t else tableSetColFromDict t c d) := by
      split
      · exact h
      · exact tableSetColFromDict_nrok t c d h
    have hstepc : (if t.cols.contains c then t
        else tableSetColFromDict t c d).cols.contains c = true := by
      split
      · rename_i hc
        exact hc
      · exact tableSetColFromDict_cols_self t c d
    have hstepm : ∀ k, t.cols.contains k = true →
        (if t.cols.contains c then t else tableSetColFromDict t c d).cols.contains k = true := by
      intro k hk
      split
      · exact hk
      · exact tableSetColFromDict_cols_mono t c d k hk
    obtain ⟨ih1, ih2, ih3⟩ := ih (if t.cols.contains c then t else tableSetColFromDict t c d) hstep
    refine ⟨ih1, ?_, ?_⟩
    · intro k hk
      exact ih2 k (hstepm k hk)
    · intro c2 hc2
      rcases List.mem_cons.mp hc2 with h1 | h1
      · subst h1
        exact ih2 c2 hstepc
      · exact ih3 c2 h1

theorem foldl_setColFromDict_nrok (l : List String) (d : Dict) :
    ∀ t, NrOk d t → NrOk d (l.foldl (fun t c => tableSetColFromDict t c d) t) := by
  induction l with
  | nil => exact fun t h => h
  | cons c cs ih =>
    intro t h
    rw [List.foldl_cons]
    exact ih _ (tableSetColFromDict_nrok t c d h)

theorem mem_all_cols_of_keys (d : Dict) (k : String) (hk : k ∈ dictKeys d) :
    k ∈ first_columns ++ (dictKeys d).filter (fun c => !(first_columns.contains c)) := by
  by_cases hf : first_columns.contains k = true
  · exact List.mem_append.mpr (Or.inl ((contains_iff_mem _ _).mp hf))
  · have hf2 : first_columns.contains k = false := by
      cases hh : first_columns.contains k
      · rfl
      · exact absurd hh hf
    refine List.mem_append.mpr (Or.inr (List.mem_filter.mpr ⟨hk, ?_⟩))
    show (!(first_columns.contains k)) = true
    rw [hf2]
    rfl

theorem mem_mc_final_cols (ec : List String) (d : Dict) (k : String) (hk : k ∈ dictKeys d) :
    k ∈ first_columns ++ (ec ++ (dictKeys d).filter
      (fun c => !(ec.contains c) && !(first_columns.contains c))).filter
      (fun c => !(first_columns.contains c)) := by
  by_cases hf : first_columns.contains k = true
  · exact List.mem_append.mpr (Or.inl ((contains_iff_mem _ _).mp hf))
  · have hf2 : first_columns.contains k = false := by
      cases hh : first_columns.contains k
      · rfl
      · exact absurd hh hf
    apply List.mem_append.mpr
    right
    refine List.mem_filter.mpr ⟨?_, ?_⟩
    · by_cases he : ec.contains k = true
      · exact List.mem_append.mpr (Or.inl ((contains_iff_mem _ _).mp he))
      · have he2 : ec.contains k = false := by
          cases hh : ec.contains k
          · rfl
          · exact absurd hh he
        refine List.mem_append.mpr (Or.inr (List.mem_filter.mpr ⟨hk, ?_⟩))
        show (!(ec.contains k) && !(first_columns.contains k)) = true
        rw [he2, hf2]
        rfl
    · show (!(first_columns.contains k)) = true
      rw [hf2]
      rfl

theorem mc_empty_snd_spec (nr0 : Table) (d : Dict) (all_cols : List String)
    (hall : all_cols = first_columns ++ (dictKeys d).filter (fun c => !(first_columns.contains c)))
    (hcols0 : nr0.cols = dictKeys d)
    (hn : NrOk d nr0)
    (hfc : ∀ c ∈ first_columns, c ∈ dictKeys d) :
    NrOk d (all_cols.foldl (fun t c =>
        selectCols (if t.cols.contains c then t else tableSetColFromDict t c d) all_cols)
      (selectCols nr0 (all_cols.filter (fun c => nr0.cols.contains c)))) ∧
    ∀ k, k ∈ dictKeys d →
      (all_cols.foldl (fun t c =>
        selectCols (if t.cols.contains c then t else tableSetColFromDict t c d) all_cols)
      (selectCols nr0 (all_cols.filter (fun c => nr0.cols.contains c)))).cols.contains k = true := by
  have hsub : ∀ c ∈ all_cols, c ∈ dictKeys d := by
    intro c hc
    rw [hall] at hc
    rcases List.mem_append.mp hc with h1 | h1
    · exact hfc c h1
    · exact (List.mem_filter.mp h1).1
  have hfe : all_cols.filter (fun c => nr0.cols.contains c) = all_cols := by
    apply List.filter_eq_self.mpr
    intro a ha
    show nr0.cols.contains a = true
    rw [hcols0, contains_iff_mem]
    exact hsub a ha
  rw [hfe]
  have hP := foldl_invariant_mem
    (fun t c => selectCols (if t.cols.contains c then t else tableSetColFromDict t c d) all_cols)
    (fun t => NrOk d t ∧ t.cols = all_cols) all_cols
    (by
      intro t c hc hPt
      obtain ⟨htn, htc⟩ := hPt
      simp only []
      rw [if_pos (by rw [htc, contains_iff_mem]; exact hc)]
      refine ⟨?_, rfl⟩
      exact selectCols_nrok t all_cols d htn (fun c2 hc2 => by rw [htc]; exact hc2))
    (selectCols nr0 all_cols)
    (⟨selectCols_nrok nr0 all_cols d hn (fun c hc => by
        rw [hcols0, contains_iff_mem]
        exact hsub c ((contains_iff_mem _ _).mp hc)), rfl⟩)
  obtain ⟨h1, h2⟩ := hP
  refine ⟨h1, ?_⟩
  intro k hk
  rw [h2, contains_iff_mem, hall]
  exact mem_all_cols_of_keys d k hk

theorem mc_nonempty_snd_spec (nr0 : Table) (d : Dict) (ec nc fcols : List String)
    (hnc : nc = (dictKeys d).filter (fun c => !(ec.contains c) && !(first_columns.contains c)))
    (hfcols : fcols = first_columns ++ (ec ++ nc).filter (fun c => !(first_columns.contains c)))
    (hn : NrOk d nr0) :
    NrOk d (selectCols
      (fcols.foldl (fun t c => if t.cols.contains c then t else tableSetColFromDict t c d)
        (selectCols (nc.foldl (fun t c => tableSetColFromDict t c d)
            (selectCols (ec.foldl (fun t c => if t.cols.contains c then t
              else tableSetColFromDict t c d) nr0) ec))
          (fcols.filter (fun c => (nc.foldl (fun t c => tableSetColFromDict t c d)
            (selectCols (ec.foldl (fun t c => if t.cols.contains c then t
              else tableSetColFromDict t c d) nr0) ec)).cols.contains c)))) fcols) ∧
    ∀ k, k ∈ dictKeys d →
      (selectCols
        (fcols.foldl (fun t c => if t.cols.contains c then t else tableSetColFromDict t c d)
          (selectCols (nc.foldl (fun t c => tableSetColFromDict t c d)
              (selectCols (ec.foldl (fun t c => if t.cols.contains c then t
                else tableSetColFromDict t c d) nr0) ec))
            (fcols.filter (fun c => (nc.foldl (fun t c => tableSetColFromDict t c d)
              (selectCols (ec.foldl (fun t c => if t.cols.contains c then t
                else tableSetColFromDict t c d) nr0) ec)).cols.contains c)))) fcols).cols.contains k
        = true := by
  obtain ⟨h1n, h1m, h1e⟩ := foldl_condSetColFromDict_spec ec d nr0 hn
  have h2 := selectCols_nrok _ ec d h1n (fun c hc => h1e c ((contains_iff_mem _ _).mp hc))
  have h3 := foldl_setColFromDict_nrok nc d _ h2
  have h4 := selectCols_nrok _
    (fcols.filter (fun c => (nc.foldl (fun t c => tableSetColFromDict t c d)
      (selectCols (ec.foldl (fun t c => if t.cols.contains c then t
        else tableSetColFromDict t c d) nr0) ec)).cols.contains c)) d h3 (fun c hc => by
    rw [contains_iff_mem] at hc
    exact (List.mem_filter.mp hc).2)
  obtain ⟨h5n, h5m, h5e⟩ := foldl_condSetColFromDict_spec fcols d _ h4
  have h6 := selectCols_nrok _ fcols d h5n (fun c hc => h5e c ((contains_iff_mem _ _).mp hc))
  refine ⟨h6, ?_⟩
  intro k hk
  show fcols.contains k = true
  rw [contains_iff_mem, hfcols, hnc]
  exact mem_mc_final_cols ec d k hk

theorem mergeColumns_snd_spec (df0 : Table) (d : Dict)
    (hfc : ∀ c ∈ first_columns, c ∈ dictKeys d) :
    NrOk d (mergeColumns df0 (dictToTable d) d).2 ∧
    ∀ k, k ∈ dictKeys d → (mergeColumns df0 (dictToTable d) d).2.cols.contains k = true := by
  unfold mergeColumns
  by_cases hne : df0.rows.isEmpty = true
  · rw [if_neg (by rw [hne]; simp)]
    simp only []
    exact mc_empty_snd_spec (dictToTable d) d _ rfl rfl (dictToTable_nrok d) hfc
  · have hne2 : df0.rows.isEmpty = false := by
      cases hh : df0.rows.isEmpty
      · rfl
      · exact absurd hh hne
    rw [if_pos (by rw [hne2]; rfl)]
    simp only []
    exact mc_nonempty_snd_spec (dictToTable d) d _ _ _ rfl rfl (dictToTable_nrok d)

theorem mem_foldl_back {σ : Type} (f : List String → σ → List String) (l : List σ)
    (h : ∀ cs c, c ∈ l → ∀ a, a ∈ f cs c → a ∈ cs) :
    ∀ cs a, a ∈ l.foldl f cs → a ∈ cs := by
  induction l with
  | nil => exact fun cs a ha => ha
  | cons c cs2 ih =>
    intro cs a ha
    rw [List.foldl_cons] at ha
    exact h cs c (List.mem_cons_self _ _) a
      (ih (fun cs3 c2 hc2 => h cs3 c2 (List.mem_cons_of_mem _ hc2)) (f cs c) a ha)

theorem mem_of_mem_finalColumnOrder (l : List String) (k : String)
    (h : k ∈ finalColumnOrder l) : k ∈ l ∨ k ∈ manual_columns := by
  unfold finalColumnOrder at h
  simp only [] at h
  rcases List.mem_append.mp h with h | h
  · left
    have h2 := mem_foldl_back (fun cs c => cs.erase c) manual_columns
      (fun cs c _ a ha => List.mem_of_mem_erase ha) _ k h
    have h3 : k ∈ (first_columns.enum).foldl (fun cs p =>
        if cs.contains p.2 then pyInsert p.1 p.2 (cs.erase p.2) else cs) l := by
      split at h2
      · rename_i hcond
        split at h2
        · rw [mem_pyInsert] at h2
          rcases h2 with h2 | h2
          · subst h2
            rw [Bool.and_eq_true] at hcond
            exact (contains_iff_mem _ _).mp hcond.2
          · exact List.mem_of_mem_erase h2
        · exact h2
      · exact h2
    exact mem_foldl_back _ (first_columns.enum)
      (fun cs p _ a ha => by
        split at ha
        · rename_i hcont
          rw [mem_pyInsert] at ha
          rcases ha with ha | ha
          · subst ha
            exact (contains_iff_mem _ _).mp hcont
          · exact List.mem_of_mem_erase ha
        · exact ha) l k h3
  · exact Or.inr h

theorem getD_append_length {α : Type} (l1 : List α) (a d : α) :
    (l1 ++ [a]).getD l1.length d = a := by
  induction l1 with
  | nil => rfl
  | cons x xs ih =>
    simp only [List.cons_append, List.length_cons, List.getD_cons_succ]
    exact ih

theorem copyColumn_rows_length (df : Table) (src dst : String) :
    (copyColumn df src dst).rows.length = df.rows.length := by
  simp [copyColumn]

theorem dropColumn_rows_length (df : Table) (c : String) :
    (dropColumn df c).rows.length = df.rows.length := by
  simp [dropColumn]

theorem schemaFix_rows_length (t : Table) : (schemaFix t).rows.length = t.rows.length := by
  unfold schemaFix
  simp only []
  rw [foldl_table_rows_length _ (fun t c => condSetColEmpty_rows_length t c)]
  repeat' split
  all_goals simp [dropColumn, copyColumn]

theorem concatTables_cols_mem (df nr : Table) (k : String)
    (h : k ∈ df.cols ∨ k ∈ nr.cols) : k ∈ (concatTables df nr).cols := by
  unfold concatTables
  simp only []
  by_cases hd : df.cols.contains k = true
  · exact List.mem_append.mpr (Or.inl ((contains_iff_mem _ _).mp hd))
  · have hd2 : df.cols.contains k = false := by
      cases hh : df.cols.contains k
      · rfl
      · exact absurd hh hd
    rcases h with h | h
    · exact absurd ((contains_iff_mem _ _).mpr h) (by rw [hd2]; simp)
    · refine List.mem_append.mpr (Or.inr (List.mem_filter.mpr ⟨h, ?_⟩))
      show (!(df.cols.contains k)) = true
      rw [hd2]
      rfl

theorem selectCols_rows (t : Table) (cs : List String) :
    (selectCols t cs).rows = t.rows.map (fun r => cs.map (fun c => (c, rowCell r c))) := rfl

theorem appendRecord_spec (cand : Dict) (pr D tt fb ss avg cv v psd today : String) (df : Table) :
    ∃ t2 : Table,
      (appendRecord cand pr D tt fb ss avg cv v psd today df).store = .table t2 ∧
      t2.rows.length = df.rows.length + 1 ∧
      (∀ k, k ∈ dictKeys (enrichCand cand pr D tt fb ss avg cv v psd today) →
        t2.cols.contains k = true) ∧
      (∀ k, k ∈ dictKeys (enrichCand cand pr D tt fb ss avg cv v psd today) →
        rowCell (t2.rows.getD df.rows.length []) k
          = some (dictGetD (enrichCand cand pr D tt fb ss avg cv v psd today) k "")) := by
  obtain ⟨hnr, hcolsm⟩ := mergeColumns_snd_spec df
    (enrichCand cand pr D tt fb ss avg cv v psd today)
    (fun c hc => enrichCand_mem_first_columns cand pr D tt fb ss avg cv v psd today c hc)
  obtain ⟨r2, hr2, hcells⟩ := hnr
  have hlen1 : (mergeColumns df
      (dictToTable (enrichCand cand pr D tt fb ss avg cv v psd today))
      (enrichCand cand pr D tt fb ss avg cv v psd today)).1.rows.length = df.rows.length :=
    mergeColumns_fst_rows_length df _ _
  refine ⟨_, rfl, ?_, ?_, ?_⟩
  · exact appendRecord_rows_length cand pr D tt fb ss avg cv v psd today df
  · intro k hk
    exact (contains_iff_mem _ _).mpr (mem_finalColumnOrder_of_mem _ k
      (concatTables_cols_mem _ _ k (Or.inr ((contains_iff_mem _ _).mp (hcolsm k hk)))))
  · intro k hk
    have hcs : (finalColumnOrder (concatTables
        (mergeColumns df (dictToTable (enrichCand cand pr D tt fb ss avg cv v psd today))
          (enrichCand cand pr D tt fb ss avg cv v psd today)).1
        (mergeColumns df (dictToTable (enrichCand cand pr D tt fb ss avg cv v psd today))
          (enrichCand cand pr D tt fb ss avg cv v psd today)).2).cols).contains k = true :=
      (contains_iff_mem _ _).mpr (mem_finalColumnOrder_of_mem _ k
        (concatTables_cols_mem _ _ k (Or.inr ((contains_iff_mem _ _).mp (hcolsm k hk)))))
    rw [selectCols_rows, concatTables_rows, hr2]
    rw [getD_map_lt _ _ df.rows.length [] [] (by
      rw [List.length_append, hlen1]
      simp)]
    have hidx : ((mergeColumns df
        (dictToTable (enrichCand cand pr D tt fb ss avg cv v psd today))
        (enrichCand cand pr D tt fb ss avg cv v psd today)).1.rows ++ [r2]).getD
        df.rows.length [] = r2 := by
      rw [← hlen1]
      exact getD_append_length _ r2 []
    rw [hidx]
    rw [rowCell_materialize _ r2 k hcs]
    exact hcells k (hcolsm k hk)

theorem checkTier3_fires (nameN contactN : Option String) (vendorN : String) (df : Table)
    (hg : (truthy nameN && !truthy contactN && decide (vendorN ≠ "") &&
          df.cols.contains "Candidate_Name" && df.cols.contains "Vendor_Name") = true)
    (hm : (df.rows.any fun r => !(sentinels.contains (rowNameNorm r)) &&
          rowNameNorm r == nameN.getD "") = true) :
    checkTier3 nameN contactN vendorN df =
      (match findSameVendorRow (df.rows.filter (fun r =>
          !(sentinels.contains (rowNameNorm r)) && rowNameNorm r == nameN.getD "")) vendorN with
       | some row => some ⟨true, some (rowGetD row "Resume_Screening_Status" (some "Unknown")),
             "name_and_vendor_same_vendor", rowGetD row "Profile_Remark" (some "")⟩
       | none => none) := by
  have hany : (df.rows.any fun r => !(sentinels.contains (rowNameNorm r))) = true := by
    rcases List.any_eq_true.mp hm with ⟨r, hr, hp⟩
    simp only [Bool.and_eq_true] at hp
    exact List.any_eq_true.mpr ⟨r, hr, hp.1⟩
  have hne : (df.rows.filter (fun r => !(sentinels.contains (rowNameNorm r)) &&
      rowNameNorm r == nameN.getD "")).isEmpty = false :=
    filter_isEmpty_false_of_any df.rows hm (fun r hp => hp)
  unfold checkTier3
  rw [hg]
  simp only []
  rw [hany, hne]
  simp

theorem dictGetD_of_find (d : Dict) (k x : String) (h : dictFind d k = some x) :
    dictGetD d k "" = x := by
  unfold dictGetD
  rw [h]
  rfl

theorem dictGetD_enrich_untouched (cand : Dict) (pr D tt fb ss avg cv v psd today k : String)
    (h1 : (k == "Vendor_Name") = false) (h2 : (k == "Profile_Shared_Date") = false)
    (h3 : (k == "Profile_Remark") = false) (h4 : (k == "Resume_Screening_Feedback") = false)
    (h5 : (k == "Similarity_Score") = false) (h6 : (k == "Average_Score") = false)
    (h7 : (k == "Shortlisted_CV_Path") = false) (h8 : (k == "Resume_Screening_Status") = false)
    (h9 : (k == "Screening_Date") = false) (h10 : (k == "Position") = false)
    (hm : ¬ k ∈ manual_columns) :
    dictGetD (enrichCand cand pr D tt fb ss avg cv v psd today) k ""
      = dictGetD cand k "" := by
  unfold dictGetD
  rw [dictFind_enrich_untouched cand pr D tt fb ss avg cv v psd today k
    h1 h2 h3 h4 h5 h6 h7 h8 h9 h10 hm]

theorem rowGetD_eq_rowCell (r : Row) (k : String) (x : String) (dflt : Cell)
    (h : rowCell r k = some x) : rowGetD r k dflt = some x := by
  unfold rowCell at h
  unfold rowGetD
  cases hf : r.find? (fun p => p.1 == k) with
  | none =>
    rw [hf] at h
    exact absurd h (by simp)
  | some p =>
    rw [hf] at h
    exact h

theorem normVendor_eq_pyNorm (v : String) : normVendor v = pyNorm v := by
  unfold normVendor
  split
  · rfl
  · rename_i h
    simp only [ne_eq, not_not] at h
    rw [h]
    decide

theorem normCandField_some (s e : String) (h : normCandField s = some e) :
    e = pyNorm s ∧ s ≠ "" := by
  unfold normCandField at h
  split at h
  · rename_i hc
    simp only [Bool.and_eq_true, decide_eq_true_eq] at hc
    injection h with h
    exact ⟨h.symm, hc.1⟩
  · exact absurd h (by simp)

theorem normCandField_of_nonsentinel (s : String)
    (h : sentinels.contains (pyNorm s) = false) :
    normCandField s = some (pyNorm s) := by
  have h2 : (["not found", ""].contains (pyNorm s)) = false := by
    cases hh : (["not found", ""].contains (pyNorm s))
    · rfl
    · exfalso
      rw [contains_iff_mem] at hh
      have hmem : pyNorm s ∈ sentinels := by
        simp only [List.mem_cons, List.not_mem_nil, or_false] at hh
        rcases hh with hh | hh <;> (rw [hh]; decide)
      rw [← contains_iff_mem, h] at hmem
      exact Bool.noConfusion hmem
  have hs : s ≠ "" := by
    intro he
    rw [he, show pyNorm "" = "" from by decide] at h
    exact absurd h (by decide)
  unfold normCandField
  rw [if_pos (by rw [h2]; simp [hs])]

theorem normCandPhone_of_nonsentinel (s : String)
    (h : sentinels.contains (pyNorm s) = false) :
    normCandPhone s = some (stripPhone (pyNorm s)) := by
  unfold normCandPhone
  rw [normCandField_of_nonsentinel s h]

theorem tableContactNorm_some (s : String) (h : sentinels.contains (pyNorm s) = false) :
    tableContactNorm (some s) = stripPhone (pyNorm s) := by
  unfold tableContactNorm
  simp only []
  rw [show cellStr (some s) = s from rfl]
  rw [if_pos (by rw [h]; rfl)]

theorem ne_empty_of_nonsentinel (x : String) (h : sentinels.contains x = false) : x ≠ "" := by
  intro he
  rw [he] at h
  exact absurd h (by decide)

theorem ne_empty_of_pyNorm_nonsentinel (s : String)
    (h : sentinels.contains (pyNorm s) = false) : s ≠ "" := by
  intro he
  rw [he, show pyNorm "" = "" from by decide] at h
  exact absurd h (by decide)

theorem checkTier1_none_of_row_sentinel (e vN : String) (t1 : Table) (r : Row)
    (hr : t1.rows = [r])
    (hsent : sentinels.contains (rowEmailNorm r) = true) :
    checkTier1 (some e) vN t1 = none := by
  apply checkTier1_none_of_no_match
  rw [hr]
  simp only [List.any_cons, List.any_nil, Bool.or_false, hsent, Bool.not_true,
    Bool.false_and]

theorem not_mem_of_contains_false (l : List String) (a : String)
    (h : l.contains a = false) : ¬ a ∈ l := by
  intro hm
  rw [← contains_iff_mem, h] at hm
  exact Bool.noConfusion hm

theorem findSameVendorRow_single_same (r : Row) (vN : String)
    (hv : vN ≠ "") (hrowV : rowVendorNorm r = vN) :
    findSameVendorRow [r] vN = some r := by
  unfold findSameVendorRow
  apply find?_cons_true
  rw [hrowV]
  simp [hv]

theorem findSameVendorRow_single_diff (r : Row) (vN w : String)
    (hrowV : rowVendorNorm r = w) (hne : vN ≠ w) :
    findSameVendorRow [r] vN = none := by
  unfold findSameVendorRow
  rw [find?_cons_false r [] _ (by rw [hrowV]; simp [beq_false_of_ne hne])]
  rfl

theorem check_one_row_tier1 (cand : Dict) (t1 : Table) (r : Row) (v e : String)
    (hr : t1.rows = [r])
    (hE : normCandField (dictGetD cand "Email_ID" "") = some e)
    (hsent : sentinels.contains e = false)
    (hrowE : rowEmailNorm r = e)
    (hcolE : t1.cols.contains "Email_ID" = true)
    (hcolV : t1.cols.contains "Vendor_Name" = true) :
    check_candidate_status_in_tracker cand (.table t1) v =
      (match findSameVendorRow [r] (normVendor v) with
       | some row => ⟨true, some (rowGetD row "Resume_Screening_Status" (some "Unknown")),
            "email_same_vendor", rowGetD row "Profile_Remark" (some "")⟩
       | none => ⟨true, some (rowGetD r "Resume_Screening_Status" (some "Unknown")),
            "email_different_vendor", rowGetD r "Profile_Remark" (some "")⟩) := by
  have hne : t1.rows.isEmpty = false := by rw [hr]; rfl
  have hm : (t1.rows.any fun r2 => !sentinels.contains (rowEmailNorm r2) &&
      rowEmailNorm r2 == e) = true := by
    rw [hr]
    simp [hrowE, not_mem_of_contains_false _ _ hsent]
  have hfilter : t1.rows.filter (fun r2 => rowEmailNorm r2 == e) = [r] := by
    rw [hr, List.filter_cons]
    rw [if_pos (by rw [hrowE]; simp)]
    rfl
  rw [check_table_router cand t1 v hne, hE,
    checkTier1_fires e (normVendor v) t1 hcolE hm, if_pos hcolV, hfilter]
  cases hsv : findSameVendorRow [r] (normVendor v) with
  | some row => rfl
  | none => rfl

theorem check_one_row_tier2 (cand : Dict) (t1 : Table) (r : Row) (v nN cN : String)
    (hr : t1.rows = [r])
    (htier1 : checkTier1 (normCandField (dictGetD cand "Email_ID" ""))
      (normVendor v) t1 = none)
    (hN : normCandField (dictGetD cand "Candidate_Name" "") = some nN)
    (hP : normCandPhone (dictGetD cand "Contact_Number" "") = some cN)
    (hsn : sentinels.contains nN = false)
    (hsc : sentinels.contains cN = false)
    (hrowN : rowNameNorm r = nN)
    (hrowC : rowContactNorm r = cN)
    (hcolN : t1.cols.contains "Candidate_Name" = true)
    (hcolC : t1.cols.contains "Contact_Number" = true)
    (hcolV : t1.cols.contains "Vendor_Name" = true) :
    check_candidate_status_in_tracker cand (.table t1) v =
      (match findSameVendorRow [r] (normVendor v) with
       | some row => ⟨true, some (rowGetD row "Resume_Screening_Status" (some "Unknown")),
            "name_and_phone_same_vendor", rowGetD row "Profile_Remark" (some "")⟩
       | none => ⟨true, some (rowGetD r "Resume_Screening_Status" (some "Unknown")),
            "name_and_phone_different_vendor", rowGetD r "Profile_Remark" (some "")⟩) := by
  have hne : t1.rows.isEmpty = false := by rw [hr]; rfl
  have hnn : nN ≠ "" := ne_empty_of_nonsentinel nN hsn
  have hcn : cN ≠ "" := ne_empty_of_nonsentinel cN hsc
  have hvalid : rowValidNamePhone r = true := by
    unfold rowValidNamePhone
    rw [hrowN, hrowC, hsn, hsc]
    rfl
  have hg : (truthy (some nN) && truthy (some cN) && t1.cols.contains "Candidate_Name" &&
      t1.cols.contains "Contact_Number") = true := by
    rw [hcolN, hcolC]
    show (decide (nN ≠ "") && decide (cN ≠ "") && true && true) = true
    simp [hnn, hcn]
  have hm : (t1.rows.any fun r2 => rowValidNamePhone r2 &&
      rowNameNorm r2 == (some nN).getD "" && rowContactNorm r2 == (some cN).getD "") = true := by
    rw [hr]
    simp [hvalid, hrowN, hrowC]
  have hfilter : t1.rows.filter (fun r2 => rowValidNamePhone r2 &&
      rowNameNorm r2 == (some nN).getD "" && rowContactNorm r2 == (some cN).getD "") = [r] := by
    rw [hr, List.filter_cons]
    rw [if_pos (by simp [hvalid, hrowN, hrowC])]
    rfl
  rw [check_table_router cand t1 v hne, htier1, hN, hP]
  rw [checkTier2_fires (some nN) (some cN) (normVendor v) t1 hg hm, if_pos hcolV, hfilter]
  cases hsv : findSameVendorRow [r] (normVendor v) with
  | some row => rfl
  | none => rfl

theorem check_one_row_tier3 (cand : Dict) (t1 : Table) (r : Row) (v nN : String)
    (hr : t1.rows = [r])
    (htier1 : checkTier1 (normCandField (dictGetD cand "Email_ID" ""))
      (normVendor v) t1 = none)
    (hN : normCandField (dictGetD cand "Candidate_Name" "") = some nN)
    (hpf : truthy (normCandPhone (dictGetD cand "Contact_Number" "")) = false)
    (hsn : sentinels.contains nN = false)
    (hrowN : rowNameNorm r = nN)
    (hv : normVendor v ≠ "")
    (hrowV : rowVendorNorm r = normVendor v)
    (hcolN : t1.cols.contains "Candidate_Name" = true)
    (hcolV : t1.cols.contains "Vendor_Name" = true) :
    check_candidate_status_in_tracker cand (.table t1) v =
      ⟨true, some (rowGetD r "Resume_Screening_Status" (some "Unknown")),
       "name_and_vendor_same_vendor", rowGetD r "Profile_Remark" (some "")⟩ := by
  have hne : t1.rows.isEmpty = false := by rw [hr]; rfl
  have hnn : nN ≠ "" := ne_empty_of_nonsentinel nN hsn
  have htier2 : checkTier2 (some nN) (normCandPhone (dictGetD cand "Contact_Number" ""))
      (normVendor v) t1 = none := by
    apply checkTier2_none_of_guard
    rw [hpf]
    simp
  have hg : (truthy (some nN) && !truthy (normCandPhone (dictGetD cand "Contact_Number" "")) &&
      decide (normVendor v ≠ "") && t1.cols.contains "Candidate_Name" &&
      t1.cols.contains "Vendor_Name") = true := by
    rw [hpf, hcolN, hcolV]
    show (decide (nN ≠ "") && !false && decide (normVendor v ≠ "") && true && true) = true
    simp [hnn, hv]
  have hm : (t1.rows.any fun r2 => !(sentinels.contains (rowNameNorm r2)) &&
      rowNameNorm r2 == (some nN).getD "") = true := by
    rw [hr]
    simp [hrowN, not_mem_of_contains_false _ _ hsn]
  have hfilter : t1.rows.filter (fun r2 => !(sentinels.contains (rowNameNorm r2)) &&
      rowNameNorm r2 == (some nN).getD "") = [r] := by
    rw [hr, List.filter_cons]
    rw [if_pos (by simp [hrowN, not_mem_of_contains_false _ _ hsn])]
    rfl
  rw [check_table_router cand t1 v hne, htier1, hN, htier2]
  rw [checkTier3_fires (some nN) (normCandPhone (dictGetD cand "Contact_Number" ""))
    (normVendor v) t1 hg hm, hfilter]
  rw [findSameVendorRow_single_same r (normVendor v) hv hrowV]

theorem first_call_spec (cand : Dict) (tt fb ss avg cv v psd today : String) (allow : Bool) :
    ∃ (t1 : Table) (r : Row),
      (update_tracker_excel cand tt fb ss avg cv v psd today allow .missing).store = .table t1 ∧
      t1.rows = [r] ∧
      (∀ k, k ∈ dictKeys (enrichCand cand "Unique Profile"
          (if pyLower tt == "shortlisted" then "Shortlisted" else "Rejected")
          tt fb ss avg cv v psd today) → t1.cols.contains k = true) ∧
      (∀ k, k ∈ dictKeys (enrichCand cand "Unique Profile"
          (if pyLower tt == "shortlisted" then "Shortlisted" else "Rejected")
          tt fb ss avg cv v psd today) →
        rowCell r k = some (dictGetD (enrichCand cand "Unique Profile"
          (if pyLower tt == "shortlisted" then "Shortlisted" else "Rejected")
          tt fb ss avg cv v psd today) k "")) := by
  rw [update_tracker_excel_missing]
  obtain ⟨t1, hs, hlen, hcols, hrow⟩ := appendRecord_spec cand "Unique Profile"
    (if pyLower tt == "shortlisted" then "Shortlisted" else "Rejected")
    tt fb ss avg cv v psd today emptyTable
  obtain ⟨r, hr⟩ := List.length_eq_one.mp (by rw [hlen]; rfl)
  refine ⟨t1, r, hs, hr, hcols, ?_⟩
  intro k hk
  have hc := hrow k hk
  rw [hr] at hc
  exact hc

/-- C3: submitting a candidate twice with the same non-empty vendor and
allow_status_change=false leaves exactly one stored record and blocks the second
call. Proved for every candidate holding a usable identity key, that is a key
the resolver can re-match against the row the engine itself just stored: a
non-sentinel normalized email (tier 1), or a non-sentinel name with a
non-sentinel normalized-and-stripped phone (tier 2), or a non-sentinel name with
no usable phone (tier 3, which keys on the shared vendor). The first call on a
fresh partition stores one row; the second call leaves the store untouched,
reports added=false with a reason ending in _same_vendor, and returns the
currently stored screening status, which is the decision of the first call. -/
theorem C3_idempotent_same_vendor_block (cand : Dict) (v : String)
    (tt1 fb1 ss1 avg1 cv1 psd1 d1 tt2 fb2 ss2 avg2 cv2 psd2 d2 : String)
    (hv : normVendor v ≠ "")
    (hkey : sentinels.contains (pyNorm (dictGetD cand "Email_ID" "")) = false ∨
      (sentinels.contains (pyNorm (dictGetD cand "Email_ID" "")) = true ∧
       sentinels.contains (pyNorm (dictGetD cand "Candidate_Name" "")) = false ∧
       sentinels.contains (pyNorm (dictGetD cand "Contact_Number" "")) = false ∧
       sentinels.contains (stripPhone (pyNorm (dictGetD cand "Contact_Number" ""))) = false) ∨
      (sentinels.contains (pyNorm (dictGetD cand "Email_ID" "")) = true ∧
       sentinels.contains (pyNorm (dictGetD cand "Candidate_Name" "")) = false ∧
       truthy (normCandPhone (dictGetD cand "Contact_Number" "")) = false)) :
    let r1 := update_tracker_excel cand tt1 fb1 ss1 avg1 cv1 v psd1 d1 false .missing
    let r2 := update_tracker_excel cand tt2 fb2 ss2 avg2 cv2 v psd2 d2 false r1.store
    ∃ t1 : Table, r1.store = .table t1 ∧ t1.rows.length = 1 ∧
      r2.store = r1.store ∧ r2.added = false ∧
      strEndsWith r2.reason "_same_vendor" = true ∧
      r2.status = some (rowCell (t1.rows.getD 0 []) "Resume_Screening_Status") ∧
      rowCell (t1.rows.getD 0 []) "Resume_Screening_Status"
        = some (if pyLower tt1 == "shortlisted" then "Shortlisted" else "Rejected") := by
  simp only []
  obtain ⟨t1, r, hs1, hr, hcols, hrow⟩ := first_call_spec cand tt1 fb1 ss1 avg1 cv1 v psd1 d1 false
  have hVNmem : "Vendor_Name" ∈ dictKeys (enrichCand cand "Unique Profile"
      (if pyLower tt1 == "shortlisted" then "Shortlisted" else "Rejected")
      tt1 fb1 ss1 avg1 cv1 v psd1 d1) :=
    enrichCand_mem_first_columns cand "Unique Profile" _ tt1 fb1 ss1 avg1 cv1 v psd1 d1
      "Vendor_Name" (by decide)
  have hVNcell : rowCell r "Vendor_Name" = some v := by
    rw [hrow _ hVNmem,
      dictGetD_of_find _ _ _ (enrichCand_find_vendor cand "Unique Profile" _ tt1 fb1 ss1 avg1 cv1 v psd1 d1)]
  have hrowV : rowVendorNorm r = normVendor v := by
    unfold rowVendorNorm
    rw [hVNcell]
    exact (normVendor_eq_pyNorm v).symm
  have hRSScell : rowCell r "Resume_Screening_Status"
      = some (if pyLower tt1 == "shortlisted" then "Shortlisted" else "Rejected") := by
    rw [hrow _ (enrichCand_mem_status cand "Unique Profile" _ tt1 fb1 ss1 avg1 cv1 v psd1 d1),
      dictGetD_of_find _ _ _ (enrichCand_find_status cand "Unique Profile" _ tt1 fb1 ss1 avg1 cv1 v psd1 d1)]
    rw [if_neg (by decide)]
  have hcolV : t1.cols.contains "Vendor_Name" = true := hcols _ hVNmem
  have hcheck : ∃ reason, strEndsWith reason "_same_vendor" = true ∧
      check_candidate_status_in_tracker cand (.table t1) v
        = ⟨true, some (rowGetD r "Resume_Screening_Status" (some "Unknown")), reason,
           rowGetD r "Profile_Remark" (some "")⟩ := by
    have hidcell : ∀ k2, k2 ∈ dictKeys cand →
        (k2 == "Vendor_Name") = false → (k2 == "Profile_Shared_Date") = false →
        (k2 == "Profile_Remark") = false → (k2 == "Resume_Screening_Feedback") = false →
        (k2 == "Similarity_Score") = false → (k2 == "Average_Score") = false →
        (k2 == "Shortlisted_CV_Path") = false → (k2 == "Resume_Screening_Status") = false →
        (k2 == "Screening_Date") = false → (k2 == "Position") = false →
        ¬ k2 ∈ manual_columns →
        rowCell r k2 = some (dictGetD cand k2 "") := by
      intro k2 hk2 g1 g2 g3 g4 g5 g6 g7 g8 g9 g10 gm
      rw [hrow _ (enrichCand_keys_mono cand "Unique Profile" _ tt1 fb1 ss1 avg1 cv1 v psd1 d1 _ hk2),
        dictGetD_enrich_untouched cand "Unique Profile" _ tt1 fb1 ss1 avg1 cv1 v psd1 d1 k2
          g1 g2 g3 g4 g5 g6 g7 g8 g9 g10 gm]
    have htier1sent : sentinels.contains (pyNorm (dictGetD cand "Email_ID" "")) = true →
        checkTier1 (normCandField (dictGetD cand "Email_ID" "")) (normVendor v) t1 = none := by
      intro hE1
      cases hEN : normCandField (dictGetD cand "Email_ID" "") with
      | none => exact checkTier1_none_no_email _ _
      | some e =>
        obtain ⟨hee, hsne⟩ := normCandField_some _ _ hEN
        have hcellE : rowCell r "Email_ID" = some (dictGetD cand "Email_ID" "") :=
          hidcell "Email_ID" (mem_keys_of_dictGetD_ne _ _ hsne) (by decide) (by decide)
            (by decide) (by decide) (by decide) (by decide) (by decide) (by decide)
            (by decide) (by decide) (by decide)
        apply checkTier1_none_of_row_sentinel e (normVendor v) t1 r hr
        have hre : rowEmailNorm r = pyNorm (dictGetD cand "Email_ID" "") := by
          unfold rowEmailNorm
          rw [hcellE]
          rfl
        rw [hre]
        exact hE1
    rcases hkey with hk1 | hk2 | hk3
    · have hE := normCandField_of_nonsentinel _ hk1
      have hmemE : "Email_ID" ∈ dictKeys cand :=
        mem_keys_of_dictGetD_ne cand "Email_ID" (ne_empty_of_pyNorm_nonsentinel _ hk1)
      have hcellE : rowCell r "Email_ID" = some (dictGetD cand "Email_ID" "") :=
        hidcell "Email_ID" hmemE (by decide) (by decide) (by decide) (by decide) (by decide)
          (by decide) (by decide) (by decide) (by decide) (by decide) (by decide)
      have hrowE : rowEmailNorm r = pyNorm (dictGetD cand "Email_ID" "") := by
        unfold rowEmailNorm
        rw [hcellE]
        rfl
      refine ⟨"email_same_vendor", by decide, ?_⟩
      rw [check_one_row_tier1 cand t1 r v _ hr hE hk1 hrowE
        (hcols _ (enrichCand_keys_mono cand "Unique Profile" _ tt1 fb1 ss1 avg1 cv1 v psd1 d1 _ hmemE))
        hcolV]
      rw [findSameVendorRow_single_same r (normVendor v) hv hrowV]
    · obtain ⟨hE1, hN2, hP1, hP2⟩ := hk2
      have hNf := normCandField_of_nonsentinel _ hN2
      have hPf := normCandPhone_of_nonsentinel _ hP1
      have hmemN : "Candidate_Name" ∈ dictKeys cand :=
        mem_keys_of_dictGetD_ne _ _ (ne_empty_of_pyNorm_nonsentinel _ hN2)
      have hmemP : "Contact_Number" ∈ dictKeys cand :=
        mem_keys_of_dictGetD_ne _ _ (ne_empty_of_pyNorm_nonsentinel _ hP1)
      have hcellN : rowCell r "Candidate_Name" = some (dictGetD cand "Candidate_Name" "") :=
        hidcell "Candidate_Name" hmemN (by decide) (by decide) (by decide) (by decide)
          (by decide) (by decide) (by decide) (by decide) (by decide) (by decide) (by decide)
      have hcellP : rowCell r "Contact_Number" = some (dictGetD cand "Contact_Number" "") :=
        hidcell "Contact_Number" hmemP (by decide) (by decide) (by decide) (by decide)
          (by decide) (by decide) (by decide) (by decide) (by decide) (by decide) (by decide)
      have hrowN : rowNameNorm r = pyNorm (dictGetD cand "Candidate_Name" "") := by
        unfold rowNameNorm
        rw [hcellN]
        rfl
      have hrowC : rowContactNorm r = stripPhone (pyNorm (dictGetD cand "Contact_Number" "")) := by
        unfold rowContactNorm
        rw [hcellP]
        exact tableContactNorm_some _ hP1
      refine ⟨"name_and_phone_same_vendor", by decide, ?_⟩
      rw [check_one_row_tier2 cand t1 r v _ _ hr (htier1sent hE1) hNf hPf hN2 hP2 hrowN hrowC
        (hcols _ (enrichCand_keys_mono cand "Unique Profile" _ tt1 fb1 ss1 avg1 cv1 v psd1 d1 _ hmemN))
        (hcols _ (enrichCand_keys_mono cand "Unique Profile" _ tt1 fb1 ss1 avg1 cv1 v psd1 d1 _ hmemP))
        hcolV]
      rw [findSameVendorRow_single_same r (normVendor v) hv hrowV]
    · obtain ⟨hE1, hN2, hpf⟩ := hk3
      have hNf := normCandField_of_nonsentinel _ hN2
      have hmemN : "Candidate_Name" ∈ dictKeys cand :=
        mem_keys_of_dictGetD_ne _ _ (ne_empty_of_pyNorm_nonsentinel _ hN2)
      have hcellN : rowCell r "Candidate_Name" = some (dictGetD cand "Candidate_Name" "") :=
        hidcell "Candidate_Name" hmemN (by decide) (by decide) (by decide) (by decide)
          (by decide) (by decide) (by decide) (by decide) (by decide) (by decide) (by decide)
      have hrowN : rowNameNorm r = pyNorm (dictGetD cand "Candidate_Name" "") := by
        unfold rowNameNorm
        rw [hcellN]
        rfl
      refine ⟨"name_and_vendor_same_vendor", by decide, ?_⟩
      exact check_one_row_tier3 cand t1 r v _ hr (htier1sent hE1) hNf hpf hN2 hrowN hv hrowV
        (hcols _ (enrichCand_keys_mono cand "Unique Profile" _ tt1 fb1 ss1 avg1 cv1 v psd1 d1 _ hmemN))
        hcolV
  obtain ⟨reason, hsuffix, hchk⟩ := hcheck
  have hfound : (check_candidate_status_in_tracker cand (.table t1) v).found = true := by
    rw [hchk]
  have hsv : strEndsWith (check_candidate_status_in_tracker cand (.table t1) v).reason
      "_same_vendor" = true := by
    rw [hchk]
    exact hsuffix
  rw [hs1]
  rw [update_found_same_vendor cand (.table t1) tt2 fb2 ss2 avg2 cv2 v psd2 d2 false hfound hsv]
  refine ⟨t1, rfl, by rw [hr]; rfl, rfl, rfl, hsv, ?_, ?_⟩
  · show (check_candidate_status_in_tracker cand (.table t1) v).status
      = some (rowCell (t1.rows.getD 0 []) "Resume_Screening_Status")
    rw [hchk, hr]
    show some (rowGetD r "Resume_Screening_Status" (some "Unknown"))
      = some (rowCell r "Resume_Screening_Status")
    rw [rowGetD_eq_rowCell r "Resume_Screening_Status" _ (some "Unknown") hRSScell, hRSScell]
  · rw [hr]
    exact hRSScell

/-- C4: a candidate first stored from vendor V1 and then resubmitted from a
different non-empty vendor V2 with any decision and any override flag yields a
second record tagged Duplicate Profile. Proved for every candidate whose
identity key can match across vendors, that is a non-sentinel normalized email
(tier 1) or a non-sentinel name with a usable non-sentinel phone (tier 2); a
name-only candidate keys on vendor (tier 3) and by design resolves Unique
across vendors, as C5 records. After the two calls the store holds two rows,
the second call reports added=true, and the second row's Profile_Remark and
Resume_Screening_Status are both Duplicate Profile regardless of the requested
decision. -/
theorem C4_different_vendor_fan_out (cand : Dict) (v1 v2 : String)
    (tt1 fb1 ss1 avg1 cv1 psd1 d1 tt2 fb2 ss2 avg2 cv2 psd2 d2 : String) (allow2 : Bool)
    (hv2 : normVendor v2 ≠ "")
    (hvd : normVendor v2 ≠ normVendor v1)
    (hkey : sentinels.contains (pyNorm (dictGetD cand "Email_ID" "")) = false ∨
      (sentinels.contains (pyNorm (dictGetD cand "Email_ID" "")) = true ∧
       sentinels.contains (pyNorm (dictGetD cand "Candidate_Name" "")) = false ∧
       sentinels.contains (pyNorm (dictGetD cand "Contact_Number" "")) = false ∧
       sentinels.contains (stripPhone (pyNorm (dictGetD cand "Contact_Number" ""))) = false)) :
    let r1 := update_tracker_excel cand tt1 fb1 ss1 avg1 cv1 v1 psd1 d1 false .missing
    let r2 := update_tracker_excel cand tt2 fb2 ss2 avg2 cv2 v2 psd2 d2 allow2 r1.store
    ∃ t1 t2 : Table, r1.store = .table t1 ∧ t1.rows.length = 1 ∧
      r2.store = .table t2 ∧ t2.rows.length = 2 ∧ r2.added = true ∧
      rowCell (t2.rows.getD 1 []) "Profile_Remark" = some "Duplicate Profile" ∧
      rowCell (t2.rows.getD 1 []) "Resume_Screening_Status" = some "Duplicate Profile" := by
  simp only []
  obtain ⟨t1, r, hs1, hr, hcols, hrow⟩ := first_call_spec cand tt1 fb1 ss1 avg1 cv1 v1 psd1 d1 false
  have hVNmem : "Vendor_Name" ∈ dictKeys (enrichCand cand "Unique Profile"
      (if pyLower tt1 == "shortlisted" then "Shortlisted" else "Rejected")
      tt1 fb1 ss1 avg1 cv1 v1 psd1 d1) :=
    enrichCand_mem_first_columns cand "Unique Profile" _ tt1 fb1 ss1 avg1 cv1 v1 psd1 d1
      "Vendor_Name" (by decide)
  have hVNcell : rowCell r "Vendor_Name" = some v1 := by
    rw [hrow _ hVNmem,
      dictGetD_of_find _ _ _ (enrichCand_find_vendor cand "Unique Profile" _ tt1 fb1 ss1 avg1 cv1 v1 psd1 d1)]
  have hrowV : rowVendorNorm r = normVendor v1 := by
    unfold rowVendorNorm
    rw [hVNcell]
    exact (normVendor_eq_pyNorm v1).symm
  have hcolV : t1.cols.contains "Vendor_Name" = true := hcols _ hVNmem
  have hidcell : ∀ k2, k2 ∈ dictKeys cand →
      (k2 == "Vendor_Name") = false → (k2 == "Profile_Shared_Date") = false →
      (k2 == "Profile_Remark") = false → (k2 == "Resume_Screening_Feedback") = false →
      (k2 == "Similarity_Score") = false → (k2 == "Average_Score") = false →
      (k2 == "Shortlisted_CV_Path") = false → (k2 == "Resume_Screening_Status") = false →
      (k2 == "Screening_Date") = false → (k2 == "Position") = false →
      ¬ k2 ∈ manual_columns →
      rowCell r k2 = some (dictGetD cand k2 "") := by
    intro k2 hk2 g1 g2 g3 g4 g5 g6 g7 g8 g9 g10 gm
    rw [hrow _ (enrichCand_keys_mono cand "Unique Profile" _ tt1 fb1 ss1 avg1 cv1 v1 psd1 d1 _ hk2),
      dictGetD_enrich_untouched cand "Unique Profile" _ tt1 fb1 ss1 avg1 cv1 v1 psd1 d1 k2
        g1 g2 g3 g4 g5 g6 g7 g8 g9 g10 gm]
  have hcheck : ∃ reason, strEndsWith reason "_same_vendor" = false ∧
      strEndsWith reason "_different_vendor" = true ∧
      check_candidate_status_in_tracker cand (.table t1) v2
        = ⟨true, some (rowGetD r "Resume_Screening_Status" (some "Unknown")), reason,
           rowGetD r "Profile_Remark" (some "")⟩ := by
    rcases hkey with hk1 | hk2
    · have hE := normCandField_of_nonsentinel _ hk1
      have hmemE : "Email_ID" ∈ dictKeys cand :=
        mem_keys_of_dictGetD_ne cand "Email_ID" (ne_empty_of_pyNorm_nonsentinel _ hk1)
      have hcellE : rowCell r "Email_ID" = some (dictGetD cand "Email_ID" "") :=
        hidcell "Email_ID" hmemE (by decide) (by decide) (by decide) (by decide) (by decide)
          (by decide) (by decide) (by decide) (by decide) (by decide) (by decide)
      have hrowE : rowEmailNorm r = pyNorm (dictGetD cand "Email_ID" "") := by
        unfold rowEmailNorm
        rw [hcellE]
        rfl
      refine ⟨"email_different_vendor", by decide, by decide, ?_⟩
      rw [check_one_row_tier1 cand t1 r v2 _ hr hE hk1 hrowE
        (hcols _ (enrichCand_keys_mono cand "Unique Profile" _ tt1 fb1 ss1 avg1 cv1 v1 psd1 d1 _ hmemE))
        hcolV]
      rw [findSameVendorRow_single_diff r (normVendor v2) (normVendor v1) hrowV hvd]
    · obtain ⟨hE1, hN2, hP1, hP2⟩ := hk2
      have hNf := normCandField_of_nonsentinel _ hN2
      have hPf := normCandPhone_of_nonsentinel _ hP1
      have hmemN : "Candidate_Name" ∈ dictKeys cand :=
        mem_keys_of_dictGetD_ne _ _ (ne_empty_of_pyNorm_nonsentinel _ hN2)
      have hmemP : "Contact_Number" ∈ dictKeys cand :=
        mem_keys_of_dictGetD_ne _ _ (ne_empty_of_pyNorm_nonsentinel _ hP1)
      have hcellN : rowCell r "Candidate_Name" = some (dictGetD cand "Candidate_Name" "") :=
        hidcell "Candidate_Name" hmemN (by decide) (by decide) (by decide) (by decide)
          (by decide) (by decide) (by decide) (by decide) (by decide) (by decide) (by decide)
      have hcellP : rowCell r "Contact_Number" = some (dictGetD cand "Contact_Number" "") :=
        hidcell "Contact_Number" hmemP (by decide) (by decide) (by decide) (by decide)
          (by decide) (by decide) (by decide) (by decide) (by decide) (by decide) (by decide)
      have hrowN : rowNameNorm r = pyNorm (dictGetD cand "Candidate_Name" "") := by
        unfold rowNameNorm
        rw [hcellN]
        rfl
      have hrowC : rowContactNorm r = stripPhone (pyNorm (dictGetD cand "Contact_Number" "")) := by
        unfold rowContactNorm
        rw [hcellP]
        exact tableContactNorm_some _ hP1
      have htier1 : checkTier1 (normCandField (dictGetD cand "Email_ID" ""))
          (normVendor v2) t1 = none := by
        cases hEN : normCandField (dictGetD cand "Email_ID" "") with
        | none => exact checkTier1_none_no_email _ _
        | some e =>
          obtain ⟨hee, hsne⟩ := normCandField_some _ _ hEN
          have hcellE : rowCell r "Email_ID" = some (dictGetD cand "Email_ID" "") :=
            hidcell "Email_ID" (mem_keys_of_dictGetD_ne _ _ hsne) (by decide) (by decide)
              (by decide) (by decide) (by decide) (by decide) (by decide) (by decide)
              (by decide) (by decide) (by decide)
          apply checkTier1_none_of_row_sentinel e (normVendor v2) t1 r hr
          have hre : rowEmailNorm r = pyNorm (dictGetD cand "Email_ID" "") := by
            unfold rowEmailNorm
            rw [hcellE]
            rfl
          rw [hre]
          exact hE1
      refine ⟨"name_and_phone_different_vendor", by decide, by decide, ?_⟩
      rw [check_one_row_tier2 cand t1 r v2 _ _ hr htier1 hNf hPf hN2 hP2 hrowN hrowC
        (hcols _ (enrichCand_keys_mono cand "Unique Profile" _ tt1 fb1 ss1 avg1 cv1 v1 psd1 d1 _ hmemN))
        (hcols _ (enrichCand_keys_mono cand "Unique Profile" _ tt1 fb1 ss1 avg1 cv1 v1 psd1 d1 _ hmemP))
        hcolV]
      rw [findSameVendorRow_single_diff r (normVendor v2) (normVendor v1) hrowV hvd]
  obtain ⟨reason, hns, hds, hchk⟩ := hcheck
  have hfound : (check_candidate_status_in_tracker cand (.table t1) v2).found = true := by
    rw [hchk]
  have hs1e : strEndsWith (check_candidate_status_in_tracker cand (.table t1) v2).reason
      "_same_vendor" = false := by
    rw [hchk]
    exact hns
  have hs2e : strEndsWith (check_candidate_status_in_tracker cand (.table t1) v2).reason
      "_different_vendor" = true := by
    rw [hchk]
    exact hds
  rw [hs1]
  rw [update_found_different_vendor cand (.table t1) tt2 fb2 ss2 avg2 cv2 v2 psd2 d2 allow2
    hfound hs1e hs2e]
  rw [loadForAppend_table]
  obtain ⟨t2, hst2, hlen2, hcols2, hrow2⟩ := appendRecord_spec cand "Duplicate Profile"
    (if pyLower tt2 == "shortlisted" then "Shortlisted" else "Rejected")
    tt2 fb2 ss2 avg2 cv2 v2 psd2 d2 (schemaFix t1)
  have hsf : (schemaFix t1).rows.length = 1 := by
    rw [schemaFix_rows_length, hr]
    rfl
  have hPRmem : "Profile_Remark" ∈ dictKeys (enrichCand cand "Duplicate Profile"
      (if pyLower tt2 == "shortlisted" then "Shortlisted" else "Rejected")
      tt2 fb2 ss2 avg2 cv2 v2 psd2 d2) :=
    enrichCand_mem_first_columns cand "Duplicate Profile" _ tt2 fb2 ss2 avg2 cv2 v2 psd2 d2
      "Profile_Remark" (by decide)
  have hPR := hrow2 "Profile_Remark" hPRmem
  rw [hsf] at hPR
  rw [dictGetD_of_find _ _ _
    (enrichCand_find_remark cand "Duplicate Profile" _ tt2 fb2 ss2 avg2 cv2 v2 psd2 d2)] at hPR
  have hRS := hrow2 "Resume_Screening_Status"
    (enrichCand_mem_status cand "Duplicate Profile" _ tt2 fb2 ss2 avg2 cv2 v2 psd2 d2)
  rw [hsf] at hRS
  rw [dictGetD_of_find _ _ _
    (enrichCand_find_status cand "Duplicate Profile" _ tt2 fb2 ss2 avg2 cv2 v2 psd2 d2)] at hRS
  rw [if_pos (by decide)] at hRS
  refine ⟨t1, t2, rfl, by rw [hr]; rfl, hst2, ?_, rfl, hPR, hRS⟩
  rw [hlen2, hsf]

/-- Concrete witness for C3: shortlisting Jane Doe from Acme and resubmitting
her from Acme is blocked with the stored Shortlisted status intact. -/
theorem C3_witness :
    normVendor "Acme" ≠ "" ∧
    sentinels.contains (pyNorm (dictGetD candJane "Email_ID" "")) = false ∧
    (let r1 := update_tracker_excel candJane "shortlisted" "fb" "0.8" "0.7" "/cv" "Acme"
       "2026-01-01" "2026-01-02" false .missing
     let r2 := update_tracker_excel candJane "rejected" "fb2" "0.5" "0.5" "" "Acme"
       "2026-01-03" "2026-01-04" false r1.store
     ∃ t1 : Table, r1.store = .table t1 ∧ t1.rows.length = 1 ∧
       r2.store = r1.store ∧ r2.added = false ∧
       strEndsWith r2.reason "_same_vendor" = true ∧
       r2.status = some (rowCell (t1.rows.getD 0 []) "Resume_Screening_Status") ∧
       rowCell (t1.rows.getD 0 []) "Resume_Screening_Status"
         = some (if pyLower "shortlisted" == "shortlisted" then "Shortlisted" else "Rejected")) :=
  ⟨by decide, by decide,
   C3_idempotent_same_vendor_block candJane "Acme" "shortlisted" "fb" "0.8" "0.7" "/cv"
     "2026-01-01" "2026-01-02" "rejected" "fb2" "0.5" "0.5" "" "2026-01-03" "2026-01-04"
     (by decide) (Or.inl (by decide))⟩

/-- Concrete witness for C4: Jane Doe stored from Acme and resubmitted from
Beta as Shortlisted is appended as a second Duplicate Profile row. -/
theorem C4_witness :
    normVendor "Beta" ≠ "" ∧ normVendor "Beta" ≠ normVendor "Acme" ∧
    sentinels.contains (pyNorm (dictGetD candJane "Email_ID" "")) = false ∧
    (let r1 := update_tracker_excel candJane "shortlisted" "fb" "0.8" "0.7" "/cv" "Acme"
       "2026-01-01" "2026-01-02" false .missing
     let r2 := update_tracker_excel candJane "shortlisted" "fb2" "0.9" "0.9" "/cv2" "Beta"
       "2026-01-03" "2026-01-04" true r1.store
     ∃ t1 t2 : Table, r1.store = .table t1 ∧ t1.rows.length = 1 ∧
       r2.store = .table t2 ∧ t2.rows.length = 2 ∧ r2.added = true ∧
       rowCell (t2.rows.getD 1 []) "Profile_Remark" = some "Duplicate Profile" ∧
       rowCell (t2.rows.getD 1 []) "Resume_Screening_Status" = some "Duplicate Profile") :=
  ⟨by decide, by decide, by decide,
   C4_different_vendor_fan_out candJane "Acme" "Beta" "shortlisted" "fb" "0.8" "0.7" "/cv"
     "2026-01-01" "2026-01-02" "shortlisted" "fb2" "0.9" "0.9" "/cv2" "2026-01-03" "2026-01-04"
     true (by decide) (by decide) (Or.inl (by decide))⟩

theorem pyInsert_zero {α : Type} (a : α) (l : List α) : pyInsert 0 a l = a :: l := rfl

theorem pyInsert_succ_cons {α : Type} (n : Nat) (a x : α) (l : List α) :
    pyInsert (n + 1) a (x :: l) = x :: pyInsert n a l := rfl

theorem pyInsert_add3 {α : Type} (n : Nat) (a x y z : α) (l : List α) :
    pyInsert (n + 3) a (x :: y :: z :: l) = x :: y :: z :: pyInsert n a l := rfl

theorem erase_cons_ne (b a : String) (l : List String) (h : b ≠ a) :
    (b :: l).erase a = b :: l.erase a :=
  List.erase_cons_tail (by simp [h])

theorem pyInsert_at_append {α : Type} (l1 l2 : List α) (a : α) :
    pyInsert l1.length a (l1 ++ l2) = l1 ++ a :: l2 := by
  unfold pyInsert
  rw [List.take_left, List.drop_left]

theorem first_split (x : String) (l : List String) (h : x ∈ l) :
    ∃ s t, l = s ++ x :: t ∧ ¬ x ∈ s := by
  induction l with
  | nil => simp at h
  | cons a as ih =>
    by_cases hax : x = a
    · subst hax
      exact ⟨[], as, rfl, by simp⟩
    · have h2 : x ∈ as := by
        rcases List.mem_cons.mp h with h1 | h1
        · exact absurd h1 hax
        · exact h1
      obtain ⟨s, t, hst, hxs⟩ := ih h2
      refine ⟨a :: s, t, by rw [hst]; rfl, ?_⟩
      intro hm
      rcases List.mem_cons.mp hm with h1 | h1
      · exact hax h1
      · exact hxs h1

theorem erase_not_mem_prefix (A B : List String) (P : String) (h : ¬ P ∈ A) :
    (A ++ B).erase P = A ++ B.erase P := by
  induction A with
  | nil => rfl
  | cons a as ih =>
    rw [List.cons_append,
      erase_cons_ne a P _ (fun hap => h (by rw [← hap]; exact List.mem_cons_self a as)),
      ih (fun hm => h (List.mem_cons_of_mem _ hm)), List.cons_append]

theorem erase_decomp (A B : List String) (E z : String) (hz : z ≠ E) :
    ∃ A2 B2, (A ++ E :: B).erase z = A2 ++ E :: B2 ∧ (∀ x, x ∈ A2 → x ∈ A) := by
  induction A with
  | nil =>
    refine ⟨[], B.erase z, ?_, by simp⟩
    rw [List.nil_append, erase_cons_ne E z B (Ne.symm hz), List.nil_append]
  | cons a as ih =>
    by_cases haz : a = z
    · subst haz
      refine ⟨as, B, ?_, fun x hx => List.mem_cons_of_mem _ hx⟩
      rw [List.cons_append, List.erase_cons_head]
    · obtain ⟨A2, B2, he, hsub⟩ := ih
      refine ⟨a :: A2, B2, ?_, ?_⟩
      · rw [List.cons_append, erase_cons_ne a z _ haz, he, List.cons_append]
      · intro x hx
        rcases List.mem_cons.mp hx with h1 | h1
        · rw [h1]
          exact List.mem_cons_self _ _
        · exact List.mem_cons_of_mem _ (hsub x h1)

theorem erase_decomp2 (A B : List String) (E P z : String) (hzE : z ≠ E) (hzP : z ≠ P) :
    ∃ A2 B2, (A ++ E :: P :: B).erase z = A2 ++ E :: P :: B2 := by
  induction A with
  | nil =>
    refine ⟨[], B.erase z, ?_⟩
    rw [List.nil_append, erase_cons_ne E z _ (Ne.symm hzE),
      erase_cons_ne P z _ (Ne.symm hzP), List.nil_append]
  | cons a as ih =>
    by_cases haz : a = z
    · subst haz
      refine ⟨as, B, ?_⟩
      rw [List.cons_append, List.erase_cons_head]
    · obtain ⟨A2, B2, he⟩ := ih
      refine ⟨a :: A2, B2, ?_⟩
      rw [List.cons_append, erase_cons_ne a z _ haz, he, List.cons_append]

theorem indexOf_append_right (A B : List String) (x : String) (h : ¬ x ∈ A) :
    (A ++ B).indexOf x = A.length + B.indexOf x := by
  induction A with
  | nil => simp
  | cons a as ih =>
    rw [List.cons_append,
      List.indexOf_cons_ne _ (fun hax => h (by rw [← hax]; exact List.mem_cons_self a as)),
      ih (fun hm => h (List.mem_cons_of_mem _ hm)), List.length_cons]
    omega

theorem indexOf_first (s t : List String) (x : String) (h : ¬ x ∈ s) :
    (s ++ x :: t).indexOf x = s.length := by
  rw [indexOf_append_right s _ x h, List.indexOf_cons_self]
  omega

theorem manual_ne_special : ∀ z ∈ manual_columns,
    z ≠ "Vendor_Name" ∧ z ≠ "Profile_Shared_Date" ∧ z ≠ "Profile_Remark" ∧
    z ≠ "Email_ID" ∧ z ≠ "Position" := by decide

theorem moveFront3_eq (l : List String) (hVN : "Vendor_Name" ∈ l)
    (hPSD : "Profile_Shared_Date" ∈ l) (hPR : "Profile_Remark" ∈ l) :
    (first_columns.enum).foldl (fun cs p =>
      if cs.contains p.2 then pyInsert p.1 p.2 (cs.erase p.2) else cs) l
    = "Vendor_Name" :: "Profile_Shared_Date" :: "Profile_Remark" ::
      (((l.erase "Vendor_Name").erase "Profile_Shared_Date").erase "Profile_Remark") := by
  have he : first_columns.enum
      = [(0, "Vendor_Name"), (1, "Profile_Shared_Date"), (2, "Profile_Remark")] := by decide
  rw [he, List.foldl_cons, List.foldl_cons, List.foldl_cons, List.foldl_nil]
  simp only []
  rw [if_pos ((contains_iff_mem _ _).mpr hVN)]
  rw [pyInsert_zero]
  rw [if_pos ((contains_iff_mem _ _).mpr (List.mem_cons_of_mem _
    ((List.mem_erase_of_ne (by decide)).mpr hPSD)))]
  rw [erase_cons_ne _ _ _ (by decide), pyInsert_succ_cons, pyInsert_zero]
  rw [if_pos ((contains_iff_mem _ _).mpr (List.mem_cons_of_mem _ (List.mem_cons_of_mem _
    ((List.mem_erase_of_ne (by decide)).mpr ((List.mem_erase_of_ne (by decide)).mpr hPR)))))]
  rw [erase_cons_ne _ _ _ (by decide), erase_cons_ne _ _ _ (by decide),
    pyInsert_succ_cons, pyInsert_succ_cons, pyInsert_zero]

theorem manual_erase_fold_prefix (m : List String) :
    ∃ m2, manual_columns.foldl (fun cs c => cs.erase c)
      ("Vendor_Name" :: "Profile_Shared_Date" :: "Profile_Remark" :: m)
      = "Vendor_Name" :: "Profile_Shared_Date" :: "Profile_Remark" :: m2 := by
  apply foldl_invariant_mem (fun cs c => cs.erase c)
    (fun cs => ∃ m2, cs = "Vendor_Name" :: "Profile_Shared_Date" :: "Profile_Remark" :: m2)
    manual_columns
  · intro cs z hz hP
    obtain ⟨m2, hm2⟩ := hP
    obtain ⟨h1, h2, h3, _, _⟩ := manual_ne_special z hz
    refine ⟨m2.erase z, ?_⟩
    rw [hm2, erase_cons_ne _ _ _ (Ne.symm h1), erase_cons_ne _ _ _ (Ne.symm h2),
      erase_cons_ne _ _ _ (Ne.symm h3)]
  · exact ⟨m, rfl⟩

theorem manual_erase_fold_adj (A B : List String) :
    ∃ A2 B2, manual_columns.foldl (fun cs c => cs.erase c)
      (A ++ "Email_ID" :: "Position" :: B) = A2 ++ "Email_ID" :: "Position" :: B2 := by
  apply foldl_invariant_mem (fun cs c => cs.erase c)
    (fun cs => ∃ A2 B2, cs = A2 ++ "Email_ID" :: "Position" :: B2) manual_columns
  · intro cs z hz hP
    obtain ⟨A2, B2, hab⟩ := hP
    obtain ⟨_, _, _, h4, h5⟩ := manual_ne_special z hz
    obtain ⟨A3, B3, he⟩ := erase_decomp2 A2 B2 "Email_ID" "Position" z h4 h5
    refine ⟨A3, B3, ?_⟩
    rw [hab, he]
  · exact ⟨A, B, rfl⟩

theorem cols2_prefix_shape (l2 : List String) :
    ∃ m, (if ("Vendor_Name" :: "Profile_Shared_Date" :: "Profile_Remark" :: l2).contains "Email_ID" &&
          ("Vendor_Name" :: "Profile_Shared_Date" :: "Profile_Remark" :: l2).contains "Position" then
        if ("Vendor_Name" :: "Profile_Shared_Date" :: "Profile_Remark" :: l2).indexOf "Position"
            ≠ ("Vendor_Name" :: "Profile_Shared_Date" :: "Profile_Remark" :: l2).indexOf "Email_ID" + 1 then
          pyInsert (("Vendor_Name" :: "Profile_Shared_Date" :: "Profile_Remark" :: l2).indexOf "Email_ID" + 1)
            "Position" (("Vendor_Name" :: "Profile_Shared_Date" :: "Profile_Remark" :: l2).erase "Position")
        else "Vendor_Name" :: "Profile_Shared_Date" :: "Profile_Remark" :: l2
      else "Vendor_Name" :: "Profile_Shared_Date" :: "Profile_Remark" :: l2)
      = "Vendor_Name" :: "Profile_Shared_Date" :: "Profile_Remark" :: m := by
  split
  · split
    · refine ⟨pyInsert (l2.indexOf "Email_ID" + 1) "Position" (l2.erase "Position"), ?_⟩
      rw [erase_cons_ne _ _ _ (by decide), erase_cons_ne _ _ _ (by decide),
        erase_cons_ne _ _ _ (by decide)]
      rw [List.indexOf_cons_ne _ (by decide), List.indexOf_cons_ne _ (by decide),
        List.indexOf_cons_ne _ (by decide)]
      have harith : l2.indexOf "Email_ID" + 1 + 1 + 1 + 1
          = (l2.indexOf "Email_ID" + 1) + 3 := by omega
      rw [harith, pyInsert_add3]
    · exact ⟨l2, rfl⟩
  · exact ⟨l2, rfl⟩

theorem cols2_adj_shape (l2 A2 BB1 BB2 : List String)
    (hl2 : l2 = A2 ++ "Email_ID" :: (BB1 ++ "Position" :: BB2))
    (hEA : ¬ "Email_ID" ∈ A2) (hPA : ¬ "Position" ∈ A2) (hPB : ¬ "Position" ∈ BB1) :
    ∃ X Y,
      (if ("Vendor_Name" :: "Profile_Shared_Date" :: "Profile_Remark" :: l2).contains "Email_ID" &&
          ("Vendor_Name" :: "Profile_Shared_Date" :: "Profile_Remark" :: l2).contains "Position" then
        if ("Vendor_Name" :: "Profile_Shared_Date" :: "Profile_Remark" :: l2).indexOf "Position"
            ≠ ("Vendor_Name" :: "Profile_Shared_Date" :: "Profile_Remark" :: l2).indexOf "Email_ID" + 1 then
          pyInsert (("Vendor_Name" :: "Profile_Shared_Date" :: "Profile_Remark" :: l2).indexOf "Email_ID" + 1)
            "Position" (("Vendor_Name" :: "Profile_Shared_Date" :: "Profile_Remark" :: l2).erase "Position")
        else "Vendor_Name" :: "Profile_Shared_Date" :: "Profile_Remark" :: l2
      else "Vendor_Name" :: "Profile_Shared_Date" :: "Profile_Remark" :: l2)
      = X ++ "Email_ID" :: "Position" :: Y := by
  have hfc : "Vendor_Name" :: "Profile_Shared_Date" :: "Profile_Remark" :: l2
      = ("Vendor_Name" :: "Profile_Shared_Date" :: "Profile_Remark" :: A2)
        ++ "Email_ID" :: (BB1 ++ "Position" :: BB2) := by
    rw [hl2]
    rfl
  have hEPRE : ¬ "Email_ID" ∈ ("Vendor_Name" :: "Profile_Shared_Date" :: "Profile_Remark" :: A2) := by
    intro hm
    rcases List.mem_cons.mp hm with h | hm
    · exact absurd h (by decide)
    rcases List.mem_cons.mp hm with h | hm
    · exact absurd h (by decide)
    rcases List.mem_cons.mp hm with h | hm
    · exact absurd h (by decide)
    exact hEA hm
  have hPPRE : ¬ "Position" ∈ ("Vendor_Name" :: "Profile_Shared_Date" :: "Profile_Remark" :: A2) := by
    intro hm
    rcases List.mem_cons.mp hm with h | hm
    · exact absurd h (by decide)
    rcases List.mem_cons.mp hm with h | hm
    · exact absurd h (by decide)
    rcases List.mem_cons.mp hm with h | hm
    · exact absurd h (by decide)
    exact hPA hm
  have hPpre2 : ¬ "Position" ∈ (("Vendor_Name" :: "Profile_Shared_Date" :: "Profile_Remark" :: A2)
      ++ "Email_ID" :: BB1) := by
    intro hm
    rcases List.mem_append.mp hm with hm | hm
    · exact hPPRE hm
    rcases List.mem_cons.mp hm with h | hm
    · exact absurd h (by decide)
    exact hPB hm
  have hfc2 : "Vendor_Name" :: "Profile_Shared_Date" :: "Profile_Remark" :: l2
      = (("Vendor_Name" :: "Profile_Shared_Date" :: "Profile_Remark" :: A2) ++ "Email_ID" :: BB1)
        ++ "Position" :: BB2 := by
    rw [hfc, List.append_assoc]
    rfl
  have he : ("Vendor_Name" :: "Profile_Shared_Date" :: "Profile_Remark" :: l2).indexOf "Email_ID"
      = ("Vendor_Name" :: "Profile_Shared_Date" :: "Profile_Remark" :: A2).length := by
    rw [hfc]
    exact indexOf_first _ _ _ hEPRE
  have hcond : (("Vendor_Name" :: "Profile_Shared_Date" :: "Profile_Remark" :: l2).contains "Email_ID" &&
      ("Vendor_Name" :: "Profile_Shared_Date" :: "Profile_Remark" :: l2).contains "Position") = true := by
    rw [Bool.and_eq_true]
    constructor <;> rw [contains_iff_mem, hfc]
    · exact List.mem_append.mpr (Or.inr (List.mem_cons_self _ _))
    · refine List.mem_append.mpr (Or.inr (List.mem_cons_of_mem _ ?_))
      exact List.mem_append.mpr (Or.inr (List.mem_cons_self _ _))
  rw [if_pos hcond]
  split
  · rw [hfc2, erase_not_mem_prefix _ _ _ hPpre2, List.erase_cons_head]
    rw [← hfc2, he]
    have hlen : ("Vendor_Name" :: "Profile_Shared_Date" :: "Profile_Remark" :: A2).length + 1
        = (("Vendor_Name" :: "Profile_Shared_Date" :: "Profile_Remark" :: A2) ++ ["Email_ID"]).length := by
      simp
    have hsplit2 : (("Vendor_Name" :: "Profile_Shared_Date" :: "Profile_Remark" :: A2) ++ "Email_ID" :: BB1)
        ++ BB2
        = (("Vendor_Name" :: "Profile_Shared_Date" :: "Profile_Remark" :: A2) ++ ["Email_ID"])
          ++ (BB1 ++ BB2) := by
      rw [List.append_assoc, List.append_assoc]
      rfl
    rw [hsplit2, hlen, pyInsert_at_append]
    refine ⟨"Vendor_Name" :: "Profile_Shared_Date" :: "Profile_Remark" :: A2, BB1 ++ BB2, ?_⟩
    rw [List.append_assoc]
    rfl
  · rename_i hpos
    simp only [ne_eq, not_not] at hpos
    have hp : ("Vendor_Name" :: "Profile_Shared_Date" :: "Profile_Remark" :: l2).indexOf "Position"
        = (("Vendor_Name" :: "Profile_Shared_Date" :: "Profile_Remark" :: A2) ++ "Email_ID" :: BB1).length := by
      rw [hfc2]
      exact indexOf_first _ _ _ hPpre2
    rw [hp, he] at hpos
    have hbb1 : BB1 = [] := by
      simp only [List.length_append, List.length_cons] at hpos
      have : BB1.length = 0 := by omega
      exact List.length_eq_zero.mp this
    subst hbb1
    refine ⟨"Vendor_Name" :: "Profile_Shared_Date" :: "Profile_Remark" :: A2, BB2, ?_⟩
    rw [hfc]
    rfl

theorem filter_erase (p : String → Bool) (a : String) (l : List String) (h : p a = false) :
    (l.erase a).filter p = l.filter p := by
  induction l with
  | nil => rfl
  | cons b bs ih =>
    by_cases hba : b = a
    · subst hba
      rw [List.erase_cons_head]
      simp [List.filter_cons, h]
    · rw [erase_cons_ne _ _ _ hba]
      simp only [List.filter_cons, ih]

theorem filter_pyInsert (p : String → Bool) (k : Nat) (x : String) (l : List String)
    (h : p x = false) :
    (pyInsert k x l).filter p = l.filter p := by
  unfold pyInsert
  simp only [List.filter_append, List.filter_cons, h, Bool.false_eq_true, if_false]
  rw [← List.filter_append, List.take_append_drop]

theorem filter_foldl_erase (p : String → Bool) (ms l : List String)
    (h : ∀ c ∈ ms, p c = false) :
    (ms.foldl (fun cs c => cs.erase c) l).filter p = l.filter p := by
  induction ms generalizing l with
  | nil => rfl
  | cons m ms ih =>
    rw [List.foldl_cons, ih _ (fun c hc => h c (List.mem_cons_of_mem _ hc)),
      filter_erase p m l (h m (List.mem_cons_self _ _))]

theorem filter_fold_enum (p : String → Bool) (qs : List (Nat × String)) (l : List String)
    (h : ∀ q ∈ qs, p q.2 = false) :
    (qs.foldl (fun cs q =>
        if cs.contains q.2 then pyInsert q.1 q.2 (cs.erase q.2) else cs) l).filter p
      = l.filter p := by
  induction qs generalizing l with
  | nil => rfl
  | cons q qs ih =>
    rw [List.foldl_cons, ih _ (fun r hr => h r (List.mem_cons_of_mem _ hr))]
    split
    · rw [filter_pyInsert p _ _ _ (h q (List.mem_cons_self _ _)),
        filter_erase p _ _ (h q (List.mem_cons_self _ _))]
    · rfl

theorem filter_ite (p : String → Bool) (c : Prop) [Decidable c] (l1 l2 : List String) :
    (if c then l1 else l2).filter p = if c then l1.filter p else l2.filter p := by
  split <;> rfl

/-- C7 amended: the column contract that the reorder step of tracker.py lines
523-563 actually enforces. For every column list containing the three first
columns, the final order starts with Vendor_Name, Profile_Shared_Date,
Profile_Remark and ends with the manual columns in their fixed order; all
columns other than those three, Position and the manual columns keep their
first-seen relative order; and whenever the remaining columns list Email_ID
before Position (Position not preceding Email_ID, as in every table the engine
itself persists), Position is placed immediately after Email_ID in the
result. -/
theorem C7_amended_column_contract (l : List String)
    (hVN : "Vendor_Name" ∈ l) (hPSD : "Profile_Shared_Date" ∈ l)
    (hPR : "Profile_Remark" ∈ l) :
    (∃ mid, finalColumnOrder l
      = "Vendor_Name" :: "Profile_Shared_Date" :: "Profile_Remark" :: (mid ++ manual_columns)) ∧
    (finalColumnOrder l).filter otherCol = l.filter otherCol ∧
    (∀ A B, l = A ++ "Email_ID" :: B → ¬ "Email_ID" ∈ A → ¬ "Position" ∈ A →
      "Position" ∈ B →
      ∃ A2 B2, finalColumnOrder l = A2 ++ "Email_ID" :: "Position" :: B2) := by
  refine ⟨?_, ?_, ?_⟩
  · unfold finalColumnOrder
    simp only []
    rw [moveFront3_eq l hVN hPSD hPR]
    obtain ⟨m, hm⟩ := cols2_prefix_shape
      (((l.erase "Vendor_Name").erase "Profile_Shared_Date").erase "Profile_Remark")
    rw [hm]
    obtain ⟨m2, hm2⟩ := manual_erase_fold_prefix m
    rw [hm2]
    exact ⟨m2, rfl⟩
  · unfold finalColumnOrder
    simp only []
    have hman : manual_columns.filter otherCol = [] := by decide
    rw [List.filter_append, hman, List.append_nil,
      filter_foldl_erase otherCol manual_columns _ (by decide),
      filter_ite otherCol, filter_ite otherCol,
      filter_pyInsert otherCol _ "Position" _ (by decide),
      filter_erase otherCol "Position" _ (by decide),
      filter_fold_enum otherCol first_columns.enum l (by decide),
      ite_self, ite_self]
  · intro A B hlAB hEA hPA hPB
    unfold finalColumnOrder
    simp only []
    rw [moveFront3_eq l hVN hPSD hPR]
    obtain ⟨A1, B1, he1, hm1⟩ := erase_decomp A B "Email_ID" "Vendor_Name" (by decide)
    obtain ⟨A2x, B2x, he2, hm2⟩ := erase_decomp A1 B1 "Email_ID" "Profile_Shared_Date" (by decide)
    obtain ⟨A3x, B3x, he3, hm3⟩ := erase_decomp A2x B2x "Email_ID" "Profile_Remark" (by decide)
    have hl2 : ((l.erase "Vendor_Name").erase "Profile_Shared_Date").erase "Profile_Remark"
        = A3x ++ "Email_ID" :: B3x := by
      rw [hlAB, he1, he2, he3]
    have hPl2 : "Position"
        ∈ ((l.erase "Vendor_Name").erase "Profile_Shared_Date").erase "Profile_Remark" := by
      refine (List.mem_erase_of_ne (by decide)).mpr ?_
      refine (List.mem_erase_of_ne (by decide)).mpr ?_
      refine (List.mem_erase_of_ne (by decide)).mpr ?_
      rw [hlAB]
      exact List.mem_append.mpr (Or.inr (List.mem_cons_of_mem _ hPB))
    have hPA3 : ¬ "Position" ∈ A3x := fun hm => hPA (hm1 _ (hm2 _ (hm3 _ hm)))
    have hEA3 : ¬ "Email_ID" ∈ A3x := fun hm => hEA (hm1 _ (hm2 _ (hm3 _ hm)))
    have hPB3 : "Position" ∈ B3x := by
      rw [hl2] at hPl2
      rcases List.mem_append.mp hPl2 with h | h
      · exact absurd h hPA3
      rcases List.mem_cons.mp h with h | h
      · exact absurd h (by decide)
      · exact h
    obtain ⟨BB1, BB2, hbb, hPBB1⟩ := first_split "Position" B3x hPB3
    have hl2s : ((l.erase "Vendor_Name").erase "Profile_Shared_Date").erase "Profile_Remark"
        = A3x ++ "Email_ID" :: (BB1 ++ "Position" :: BB2) := by
      rw [hl2, hbb]
    obtain ⟨X, Y, hXY⟩ := cols2_adj_shape _ A3x BB1 BB2 hl2s hEA3 hPA3 hPBB1
    rw [hXY]
    obtain ⟨A4, B4, h4⟩ := manual_erase_fold_adj X Y
    rw [h4]
    exact ⟨A4, B4 ++ manual_columns, by rw [List.append_assoc]; rfl⟩

/-- C7 witness: the amended contract instantiated at the concrete column list
of a fresh engine append, whose columns list Email_ID before Position. -/
theorem C7_witness :
    ("Vendor_Name" ∈ (["Vendor_Name", "Profile_Shared_Date", "Profile_Remark",
        "Candidate_Name", "Email_ID", "Contact_Number", "Position"] : List String)) ∧
    ("Profile_Shared_Date" ∈ (["Vendor_Name", "Profile_Shared_Date", "Profile_Remark",
        "Candidate_Name", "Email_ID", "Contact_Number", "Position"] : List String)) ∧
    ("Profile_Remark" ∈ (["Vendor_Name", "Profile_Shared_Date", "Profile_Remark",
        "Candidate_Name", "Email_ID", "Contact_Number", "Position"] : List String)) ∧
    ((∃ mid, finalColumnOrder ["Vendor_Name", "Profile_Shared_Date", "Profile_Remark",
        "Candidate_Name", "Email_ID", "Contact_Number", "Position"]
      = "Vendor_Name" :: "Profile_Shared_Date" :: "Profile_Remark" :: (mid ++ manual_columns)) ∧
    (finalColumnOrder ["Vendor_Name", "Profile_Shared_Date", "Profile_Remark",
        "Candidate_Name", "Email_ID", "Contact_Number", "Position"]).filter otherCol
      = (["Vendor_Name", "Profile_Shared_Date", "Profile_Remark",
        "Candidate_Name", "Email_ID", "Contact_Number", "Position"] : List String).filter otherCol ∧
    (∀ A B, (["Vendor_Name", "Profile_Shared_Date", "Profile_Remark",
        "Candidate_Name", "Email_ID", "Contact_Number", "Position"] : List String)
        = A ++ "Email_ID" :: B → ¬ "Email_ID" ∈ A → ¬ "Position" ∈ A →
      "Position" ∈ B →
      ∃ A2 B2, finalColumnOrder ["Vendor_Name", "Profile_Shared_Date", "Profile_Remark",
        "Candidate_Name", "Email_ID", "Contact_Number", "Position"]
        = A2 ++ "Email_ID" :: "Position" :: B2)) :=
  ⟨by decide, by decide, by decide,
    C7_amended_column_contract
      ["Vendor_Name", "Profile_Shared_Date", "Profile_Remark",
        "Candidate_Name", "Email_ID", "Contact_Number", "Position"]
      (by decide) (by decide) (by decide)⟩
